import Mathlib

/-!
Pegasus BlockScript: the semantic builder (`BlockScriptBuilder.cpp`)

A shallow embedding of `Source/Pegasus/BlockScript/BlockScriptBuilder.cpp`.

Conventions of the embedding.

* Objects that the C++ code reaches through pointers and mutates in place or compares by
  address (type descriptors, stack frames, function descriptors, function declaration nodes)
  live in pools; a pointer is an index into its pool and a nullable pointer is an `Option`.
  Pointer equality is index equality.
* A call returns `Except Fault`: `Fault.assertion` is a failing `PG_ASSERT`, which the
  specification treats as process-terminating; `Fault.invalidPointer` is a dereference of a
  null or dangling pointer; `Fault.divergence` is a loop that never ends (a cyclic parent
  chain).  An ordinary semantic error is not a fault: the call returns a null node and the
  message handed to `BS_ErrorDispatcher` is recorded in the builder.
* Expression nodes are values.  A builder call that mutates one of its argument nodes hands
  the mutated node back inside the node it returns.
* `int` values are unbounded integers (signed overflow is undefined in C++), byte sizes are
  natural numbers, names are strings of one-byte characters.
* The headers of the type table, stack frames, function table and AST nodes are not part of
  the sources at hand; what they declare is modelled from the specification and marked so.
-/

namespace Pegasus.BlockScript

/-- Fatal outcome of a builder call. -/
inductive Fault where
  | assertion
  | invalidPointer
  | divergence
deriving DecidableEq, Repr

abbrev TypePtr := Nat
abbrev FramePtr := Nat
abbrev FunDescPtr := Nat
abbrev FunDecPtr := Nat

/-- Dereference of a nullable pointer into a pool. -/
def deref {α : Type} (pool : List α) (p : Option Nat) : Except Fault α :=
  match p with
  | none => .error .invalidPointer
  | some i =>
    match pool[i]? with
    | none => .error .invalidPointer
    | some a => .ok a

/-- Replace the object a pointer designates. -/
def store {α : Type} (pool : List α) (i : Nat) (a : α) : List α := pool.set i a

/-- Operator tokens of `bs.parser.hpp` that the builder names; `other` is any other token
value. Modelled from the spec: the generated parser header is not among the sources, only
the distinctness of the tokens is used. -/
inductive Op where
  | O_PLUS | O_MINUS | O_MUL | O_DIV | O_MOD
  | O_EQ | O_LT | O_GT | O_LTE | O_GTE | O_LAND | O_LOR
  | O_SET | O_DOT | O_ACCESS
  | O_ARRAY_CONSTRUCTOR | O_IMPLICIT_CAST | O_EXPLICIT_CAST
  | other (code : Nat)
deriving DecidableEq, Repr

/-- Modelled from the spec: `TypeDesc::AluEngine`, the ALU class of a type
(INT, FLOAT, FLOAT2, FLOAT3, FLOAT4, NONE). -/
inductive AluEngine where
  | E_NONE | E_INT | E_FLOAT | E_FLOAT2 | E_FLOAT3 | E_FLOAT4
deriving DecidableEq, Repr

/-- Modelled from the spec: the enumerator values of `TypeDesc::AluEngine`. The builder
compares them with `<=` and `>` and treats `E_FLOAT .. E_FLOAT4` as a range, so the float
classes are consecutive and ascending; `E_NONE` lies outside that range. -/
def AluEngine.toInt : AluEngine → Int
  | .E_NONE => 0
  | .E_INT => 1
  | .E_FLOAT => 2
  | .E_FLOAT2 => 3
  | .E_FLOAT3 => 4
  | .E_FLOAT4 => 5

/-- Modelled from the spec: `TypeDesc::Modifier` (SCALAR, VECTOR, ARRAY, STRUCT). -/
inductive Modifier where
  | M_SCALAR | M_VECTOR | M_ARRAY | M_STRUCT
deriving DecidableEq, Repr

/-- Modelled from the spec: `Ast::ArgDec`, a declared name with its type and the stack
offset stored by `SetOffset`. -/
structure ArgDec where
  mVar : String
  mType : TypePtr
  mOffset : Int
deriving DecidableEq, Repr

/-- An `Ast::ArgList` chain, as the list of the `ArgDec` of its nodes; the empty list is the
node `CreateArgList` returns, which has no `ArgDec` and no tail. -/
abbrev ArgList := List ArgDec

/-- Modelled from the spec: `Ast::StmtStructDef`, the structure definition node: name,
ordered field list, and the frame recorded by `SetFrameInfo`. -/
structure StmtStructDef where
  mName : String
  mArgList : ArgList
  mFrameInfo : Option FramePtr
deriving DecidableEq, Repr

/-- Modelled from the spec: the type descriptor: name, modifier, modifier property (vector
dimensionality or array element count), ALU class, optional child type, optional
back-reference to the structure definition, byte size. -/
structure TypeDesc where
  mName : String
  mModifier : Modifier
  mModifierProperty : Int
  mAluEngine : AluEngine
  mChild : Option TypePtr
  mStructDef : Option StmtStructDef
  mByteSize : Nat
deriving DecidableEq, Repr

/-- Modelled from the spec: creator category tag of a frame. -/
inductive CreatorCategory where
  | NONE | GLOBAL | FUN_BODY | LOOP | IF_STMT | STRUCT_DEF
deriving DecidableEq, Repr

/-- Modelled from the spec: `StackFrameInfo::Entry`, one declaration of a frame. -/
structure Entry where
  mName : String
  mType : TypePtr
  mOffset : Int
  mIsArg : Bool
deriving DecidableEq, Repr

/-- Modelled from the spec: a scope frame: ordered declaration entries, the running byte
size of its declarations, creator category, nullable parent link. -/
structure StackFrameInfo where
  mEntries : List Entry
  mTotalSize : Nat
  mCreatorCategory : CreatorCategory
  mParent : Option FramePtr
deriving DecidableEq, Repr

/-- Modelled from the spec: `Frame.FindDeclaration(name)`, local lookup only, no parent
traversal. -/
def StackFrameInfo.FindDeclaration (f : StackFrameInfo) (name : String) : Option Entry :=
  f.mEntries.find? (fun e => e.mName == name)

/-- Modelled from the spec: `Frame.Allocate(name, type, isArgument)` appends a declaration
whose offset is the running byte-size sum of the frame's prior declarations, and returns
that offset. `byteSize` is `type->GetByteSize()`. -/
def StackFrameInfo.Allocate (f : StackFrameInfo) (name : String) (type : TypePtr)
    (byteSize : Nat) (isArg : Bool) : StackFrameInfo × Int :=
  ({ f with
      mEntries := f.mEntries ++ [{ mName := name, mType := type,
                                   mOffset := (f.mTotalSize : Int), mIsArg := isArg }],
      mTotalSize := f.mTotalSize + byteSize },
   (f.mTotalSize : Int))

/-- A native callback bound to a function descriptor. -/
inductive FunCallback where
  | StructGenericConstructor
  | native (id : Nat)
deriving DecidableEq, Repr

/-- Modelled from the spec: the function descriptor: name and ordered parameter types (the
signature), pointer to the declaration node, optional bound native callback. -/
structure FunDesc where
  mName : String
  mArgTypes : List TypePtr
  mDec : FunDecPtr
  mCallback : Option FunCallback
deriving DecidableEq, Repr

def FunDesc.IsCallback (d : FunDesc) : Bool := d.mCallback.isSome

/-- Modelled from the spec: the symbol table: type catalog, frame table, function table,
each in creation order. -/
structure SymbolTable where
  mTypes : List TypeDesc
  mFrames : List StackFrameInfo
  mFunTable : List FunDesc
deriving DecidableEq, Repr

/-- Modelled from the spec: `GetTypeByName(name)`: the catalog does not deduplicate, the
lookup returns the earliest created descriptor with that name. -/
def SymbolTable.GetTypeByName (st : SymbolTable) (name : String) : Option TypePtr :=
  let i := st.mTypes.findIdx (fun t => t.mName == name)
  if i < st.mTypes.length then some i else none

/-- Modelled from the spec: byte size given to a created type. The specification lists the
byte size as a field and does not say how it is computed; arrays take element count times
element size, structures the sum of their field sizes. -/
def SymbolTable.sizeOfNew (st : SymbolTable) (modifier : Modifier) (child : Option TypePtr)
    (modifierProperty : Int) (structDef : Option StmtStructDef) : Nat :=
  let sz := fun (p : TypePtr) =>
    match st.mTypes[p]? with
    | some t => t.mByteSize
    | none => 0
  match modifier with
  | .M_ARRAY => modifierProperty.toNat * (match child with | some c => sz c | none => 0)
  | .M_STRUCT =>
    match structDef with
    | some d => (d.mArgList.map (fun a => sz a.mType)).sum
    | none => 0
  | .M_VECTOR => modifierProperty.toNat * (match child with | some c => sz c | none => 0)
  | .M_SCALAR => 4

/-- Modelled from the spec: `CreateType(modifier, name, childType?, modifierProperty,
aluClass, structDef?)`: appends a new descriptor (no deduplication) and returns it. -/
def SymbolTable.CreateType (st : SymbolTable) (modifier : Modifier) (name : String)
    (child : Option TypePtr) (modifierProperty : Int)
    (engine : AluEngine) (structDef : Option StmtStructDef) : SymbolTable × TypePtr :=
  ({ st with mTypes := st.mTypes ++ [{ mName := name, mModifier := modifier,
                                       mModifierProperty := modifierProperty,
                                       mAluEngine := engine, mChild := child,
                                       mStructDef := structDef,
                                       mByteSize := st.sizeOfNew modifier child modifierProperty structDef }] },
   st.mTypes.length)

/-- Modelled from the spec: `CreateFrame()` returns a new, parentless frame. -/
def SymbolTable.CreateFrame (st : SymbolTable) : SymbolTable × FramePtr :=
  ({ st with mFrames := st.mFrames ++ [{ mEntries := [], mTotalSize := 0,
                                         mCreatorCategory := .NONE, mParent := none }] },
   st.mFrames.length)

/-- Modelled from the spec: the primitive and vector types seeded before any compilation
unit runs: int, float, float2, float3, float4, string. -/
def preseededTypes : List TypeDesc :=
  [ { mName := "int", mModifier := .M_SCALAR, mModifierProperty := 0, mAluEngine := .E_INT,
      mChild := none, mStructDef := none, mByteSize := 4 },
    { mName := "float", mModifier := .M_SCALAR, mModifierProperty := 0, mAluEngine := .E_FLOAT,
      mChild := none, mStructDef := none, mByteSize := 4 },
    { mName := "float2", mModifier := .M_VECTOR, mModifierProperty := 2, mAluEngine := .E_FLOAT2,
      mChild := some 1, mStructDef := none, mByteSize := 8 },
    { mName := "float3", mModifier := .M_VECTOR, mModifierProperty := 3, mAluEngine := .E_FLOAT3,
      mChild := some 1, mStructDef := none, mByteSize := 12 },
    { mName := "float4", mModifier := .M_VECTOR, mModifierProperty := 4, mAluEngine := .E_FLOAT4,
      mChild := some 1, mStructDef := none, mByteSize := 16 },
    { mName := "string", mModifier := .M_SCALAR, mModifierProperty := 0, mAluEngine := .E_NONE,
      mChild := none, mStructDef := none, mByteSize := 4 } ]

/-- Modelled from the spec: `SymbolTable::Reset` clears the frame and function tables and
leaves the type catalog with the pre-seeded types. -/
def SymbolTable.Reset (_st : SymbolTable) : SymbolTable :=
  { mTypes := preseededTypes, mFrames := [], mFunTable := [] }

/-- Modelled from the spec: an expression node of the closed node-kind set (identifier
reference, binary op, call, immediate, string immediate, unary op), each carrying a
nullable resolved type; identifiers carry slot offset, frame depth and global flag. The
payload of an immediate is the raw value of the `Variant` union read through `i[0]`. -/
inductive Exp where
  | idd (mName : String) (mOffset : Int) (mFrameOffset : Int) (mIsGlobal : Bool)
      (mTypeDesc : Option TypePtr)
  | binop (mLhs : Exp) (mOp : Op) (mRhs : Exp) (mTypeDesc : Option TypePtr)
  | funCall (mArgs : List Exp) (mName : String) (mDesc : Option FunDescPtr)
      (mTypeDesc : Option TypePtr)
  | imm (mVariant : Int) (mTypeDesc : Option TypePtr)
  | strImm (mString : String) (mTypeDesc : Option TypePtr)
  | unop (mOp : Op) (mExp : Exp) (mTypeDesc : Option TypePtr)

/-- An `Ast::ExpList` chain, as the list of the expressions of its nodes; the empty list is
the node `CreateExpList` returns. -/
abbrev ExpList := List Exp

def Exp.GetTypeDesc : Exp → Option TypePtr
  | .idd _ _ _ _ t => t
  | .binop _ _ _ t => t
  | .funCall _ _ _ t => t
  | .imm _ t => t
  | .strImm _ t => t
  | .unop _ _ t => t

/-- The type identifiers `Idd::sType` .. `Unop::sType` declared at the top of the file. -/
def Exp.GetExpType : Exp → Int
  | .idd .. => 0
  | .binop .. => 1
  | .funCall .. => 2
  | .imm .. => 3
  | .strImm .. => 4
  | .unop .. => 5

/-- The test `e->GetExpType() == Binop::sType && static_cast<Binop*>(e)->GetOp() == op`. -/
def Exp.isBinopWith (e : Exp) (op : Op) : Bool :=
  match e with
  | .binop _ o _ _ => decide (o = op)
  | _ => false

/-- The constructor `Idd(name)`. Modelled from the spec: a fresh identifier is unbound
(offset and frame depth -1), local, and has no type. -/
def Exp.newIdd (name : String) : Exp := .idd name (-1) (-1) false none

/-- Modelled from the spec: statement nodes of the closed node-kind set. -/
inductive Stmt where
  | stmtExp (exp : Exp)
  | stmtReturn (exp : Exp)
  | stmtTreeModifier (expList : ExpList) (var : Exp)
  | stmtFunDec (dec : FunDecPtr)
  | stmtWhile (exp : Exp) (stmtList : Option (List Stmt)) (frame : Option FramePtr)
  | stmtIfElse (exp : Exp) (ifBlock : Option (List Stmt)) (tail : Option Stmt)
      (frame : Option FramePtr)
  | stmtStructDef (d : StmtStructDef)

abbrev StmtList := List Stmt

/-- Modelled from the spec: `Ast::StmtFunDec`, the function declaration node. -/
structure StmtFunDec where
  mArgList : ArgList
  mReturnIdd : String
  mName : String
  mReturnType : Option TypePtr
  mFrame : Option FramePtr
  mDesc : Option FunDescPtr
  mStmtList : Option StmtList

/-- Modelled from the spec: the root node of the tree. -/
structure Program where
  mStmtList : StmtList

/-- Modelled from the spec: the opaque block the canonizer returns. -/
structure AsmBlocks where
  mCode : List Nat
deriving DecidableEq, Repr

structure Assembly where
  mBlocks : Option AsmBlocks
deriving DecidableEq, Repr

/-- The compilation result: root node and assembly, both nullable. -/
structure CompilationResult where
  mAst : Option Program
  mAsm : Assembly

/-- Calls received by the `IBlockScriptCompilerListener`. -/
inductive ListenerEvent where
  | OnCompilationBegin
  | OnCompilationError (line : Int) (message : String)
  | OnCompilationEnd (success : Bool)
deriving DecidableEq, Repr

/-- The builder. `mFunDecs` is the part of the node allocator that holds the function
declaration nodes, which function descriptors point back to. `mEventListener` is `none`
when no listener is installed and otherwise the calls the listener has received.
`mDispatched` records the messages handed to `BS_ErrorDispatcher`, in order. -/
structure BlockScriptBuilder where
  mErrorCount : Int
  mCurrentLineNumber : Int
  mActiveResult : CompilationResult
  mInFunBody : Bool
  mCurrentFrame : Option FramePtr
  mSymbolTable : SymbolTable
  mFunDecs : List StmtFunDec
  mEventListener : Option (List ListenerEvent)
  mDispatched : List String

/-- Modelled from the spec: the canonizer, an external collaborator: handed the tree and
the symbol table, it returns an opaque assembly block. -/
structure Canonizer where
  Canonize : Option Program → SymbolTable → List StmtFunDec → AsmBlocks

/-- Modelled from the spec: the error dispatch function of the parser generator file: every
semantic failure increments the error counter and is dispatched to the listener with the
current line number. -/
def BS_ErrorDispatcher (b : BlockScriptBuilder) (message : String) : BlockScriptBuilder :=
  { b with
    mErrorCount := b.mErrorCount + 1,
    mEventListener :=
      b.mEventListener.map (fun l => l ++ [.OnCompilationError b.mCurrentLineNumber message]),
    mDispatched := b.mDispatched ++ [message] }

def notify (b : BlockScriptBuilder) (e : ListenerEvent) : BlockScriptBuilder :=
  { b with mEventListener := b.mEventListener.map (fun l => l ++ [e]) }

/-- Modelled from the spec: `FindFunctionDescription(candidateSignature)`: exact match on
name plus positional argument-type equality. -/
def SymbolTable.FindFunctionDescription (st : SymbolTable) (name : String)
    (argTypes : List (Option TypePtr)) : Option FunDescPtr :=
  let i := st.mFunTable.findIdx
    (fun d => d.mName == name && d.mArgTypes.map some == argTypes)
  if i < st.mFunTable.length then some i else none

/-- Modelled from the spec: `CreateFunctionDescription(funDecl)`: returns null on signature
collision, else registers a descriptor that points to the declaration. -/
def SymbolTable.CreateFunctionDescription (st : SymbolTable) (decPtr : FunDecPtr)
    (dec : StmtFunDec) : SymbolTable × Option FunDescPtr :=
  let argTypes := dec.mArgList.map (fun a => a.mType)
  if st.mFunTable.any (fun d => d.mName == dec.mName && d.mArgTypes == argTypes) then
    (st, none)
  else
    ({ st with mFunTable := st.mFunTable ++
        [{ mName := dec.mName, mArgTypes := argTypes, mDec := decPtr, mCallback := none }] },
     some st.mFunTable.length)

/-- In-place update of the frame a valid pointer designates. -/
def SymbolTable.modifyFrame (st : SymbolTable) (p : FramePtr)
    (g : StackFrameInfo → StackFrameInfo) : SymbolTable :=
  match st.mFrames[p]? with
  | some f => { st with mFrames := store st.mFrames p (g f) }
  | none => st

/-- In-place update of the frame `mCurrentFrame` points to. -/
def BlockScriptBuilder.updateCurrentFrame (b : BlockScriptBuilder)
    (g : StackFrameInfo → StackFrameInfo) : Except Fault BlockScriptBuilder :=
  match b.mCurrentFrame with
  | none => .error .invalidPointer
  | some p =>
    match b.mSymbolTable.mFrames[p]? with
    | none => .error .invalidPointer
    | some _ => .ok { b with mSymbolTable := b.mSymbolTable.modifyFrame p g }

/-- The call `mCurrentFrame->Allocate(name, type, isArg)`. -/
def BlockScriptBuilder.allocate (b : BlockScriptBuilder) (name : String) (type : TypePtr)
    (isArg : Bool) : Except Fault (BlockScriptBuilder × Int) := do
  let frame ← deref b.mSymbolTable.mFrames b.mCurrentFrame
  let td ← deref b.mSymbolTable.mTypes (some type)
  let b1 ← b.updateCurrentFrame (fun f => (f.Allocate name type td.mByteSize isArg).1)
  pure (b1, (frame.Allocate name type td.mByteSize isArg).2)

def BeginBuild (b : BlockScriptBuilder) : Except Fault BlockScriptBuilder :=
  if b.mErrorCount = 0 ∧ b.mCurrentLineNumber = 1 ∧ b.mActiveResult.mAst.isNone = true ∧
      b.mActiveResult.mAsm.mBlocks.isNone = true ∧ b.mInFunBody = false then
    .ok (notify b .OnCompilationBegin)
  else .error .assertion

/-- The loop of `EndBuild` over the function table: `true` when it stops at a function
without statement list and without callback. -/
def EndBuild.findMissingBody (funDecs : List StmtFunDec) : List FunDesc → Except Fault Bool
  | [] => .ok false
  | funDesc :: rest => do
    let dec ← deref funDecs (some funDesc.mDec)
    if dec.mStmtList.isNone && !funDesc.IsCallback then pure true
    else EndBuild.findMissingBody funDecs rest

def EndBuild (canon : Canonizer) (b : BlockScriptBuilder) :
    Except Fault (BlockScriptBuilder × CompilationResult) := do
  let b1 ←
    if b.mErrorCount = 0 then do
      let missing ← EndBuild.findMissingBody b.mFunDecs b.mSymbolTable.mFunTable
      if missing then
        pure (BS_ErrorDispatcher { b with mErrorCount := b.mErrorCount + 1 }
          "Missing function body.")
      else pure b
    else pure b
  let b2 : BlockScriptBuilder :=
    if b1.mErrorCount = 0 then
      { b1 with mActiveResult := { b1.mActiveResult with
          mAsm := { mBlocks := some (canon.Canonize b1.mActiveResult.mAst b1.mSymbolTable
                                      b1.mFunDecs) } } }
    else
      { b1 with mActiveResult := { b1.mActiveResult with mAsm := { mBlocks := none } } }
  let b3 := notify b2 (.OnCompilationEnd (decide (b2.mErrorCount = 0)))
  pure (b3, b3.mActiveResult)

def Reset (b : BlockScriptBuilder) : BlockScriptBuilder :=
  let st := b.mSymbolTable.Reset
  let (st1, newFrame) := st.CreateFrame
  { b with
    mErrorCount := 0,
    mCurrentLineNumber := 1,
    mActiveResult := { mAst := none, mAsm := { mBlocks := none } },
    mInFunBody := false,
    mFunDecs := [],
    mSymbolTable := st1.modifyFrame newFrame (fun f => { f with mCreatorCategory := .GLOBAL }),
    mCurrentFrame := some newFrame }

def StartNewFrame (b : BlockScriptBuilder) : BlockScriptBuilder × FramePtr :=
  let (st1, newFrame) := b.mSymbolTable.CreateFrame
  ({ b with
      mSymbolTable := st1.modifyFrame newFrame (fun f => { f with mParent := b.mCurrentFrame }),
      mCurrentFrame := some newFrame },
   newFrame)

def StartNewFunction (b : BlockScriptBuilder) : BlockScriptBuilder × Bool :=
  if b.mInFunBody then (b, false)
  else ((StartNewFrame { b with mInFunBody := true }).1, true)

def PopFrame (b : BlockScriptBuilder) : Except Fault BlockScriptBuilder := do
  let frame ← deref b.mSymbolTable.mFrames b.mCurrentFrame
  pure { b with mCurrentFrame := frame.mParent }

def BindIntrinsic (b : BlockScriptBuilder) (funDec : FunDecPtr) (callback : FunCallback) :
    Except Fault BlockScriptBuilder := do
  if b.mInFunBody = false then throw .assertion
  let dec ← deref b.mFunDecs (some funDec)
  let desc ← deref b.mSymbolTable.mFunTable dec.mDesc
  let descPtr ← (match dec.mDesc with
    | some p => pure p
    | none => throw Fault.invalidPointer : Except Fault FunDescPtr)
  let b1 : BlockScriptBuilder := { b with mSymbolTable := { b.mSymbolTable with
    mFunTable := store b.mSymbolTable.mFunTable descPtr { desc with mCallback := some callback } } }
  let b2 ← PopFrame b1
  pure { b2 with mInFunBody := false }

def CreateProgram (b : BlockScriptBuilder) : Except Fault (BlockScriptBuilder × Program) :=
  if b.mActiveResult.mAst.isNone then
    .ok ({ b with mActiveResult := { b.mActiveResult with mAst := some { mStmtList := [] } } },
         { mStmtList := [] })
  else .error .assertion

def CreateExpList : ExpList := []

def CreateArgList : ArgList := []

def CreateStmtList : StmtList := []

def BlockScriptBuilder.GetTypeByName (b : BlockScriptBuilder) (name : String) : Option TypePtr :=
  b.mSymbolTable.GetTypeByName name

def RegisterStackMember (b : BlockScriptBuilder) (name : String) (type : Option TypePtr) :
    Except Fault (BlockScriptBuilder × Int) :=
  match type with
  | none => .error .assertion
  | some t => b.allocate name t true

def IsBinopValid (type : TypeDesc) (op : Op) : Except Fault Bool :=
  if type.mAluEngine = .E_INT then
    match op with
    | .O_PLUS | .O_MINUS | .O_MUL | .O_DIV | .O_MOD | .O_EQ | .O_LT | .O_GT | .O_LTE | .O_GTE
    | .O_LAND | .O_LOR => .ok true
    | _ => .ok false
  else if type.mAluEngine = .E_FLOAT then
    match op with
    | .O_PLUS | .O_MINUS | .O_MUL | .O_DIV | .O_EQ | .O_LT | .O_GT | .O_LTE | .O_GTE
    | .O_LAND | .O_LOR => .ok true
    | _ => .ok false
  else
    if type.mAluEngine.toInt ≥ AluEngine.E_FLOAT.toInt ∧
        type.mAluEngine.toInt ≤ AluEngine.E_FLOAT4.toInt then
      match op with
      | .O_PLUS | .O_MINUS | .O_MUL | .O_DIV => .ok true
      | _ => .ok false
    else .error .assertion

def AttemptTypePromotion (types : List TypeDesc) (exp : Exp) (targetType : Option TypePtr) :
    Except Fault Exp := do
  let currType ← deref types exp.GetTypeDesc
  if currType.mAluEngine = .E_INT then
    let target ← deref types targetType
    if target.mAluEngine.toInt ≥ AluEngine.E_FLOAT.toInt ∧
        target.mAluEngine.toInt ≤ AluEngine.E_FLOAT4.toInt then
      pure (.unop .O_IMPLICIT_CAST exp targetType)
    else pure exp
  else if currType.mAluEngine = .E_FLOAT then
    let target ← deref types targetType
    if target.mAluEngine.toInt ≤ AluEngine.E_FLOAT4.toInt ∧
        target.mAluEngine.toInt > currType.mAluEngine.toInt then
      pure (.unop .O_IMPLICIT_CAST exp targetType)
    else pure exp
  else pure exp

/-- A semantic error: the message goes to `BS_ErrorDispatcher` and the call returns null. -/
def fail {α : Type} (b : BlockScriptBuilder) (message : String) :
    Except Fault (BlockScriptBuilder × Option α) :=
  .ok (BS_ErrorDispatcher b message, none)

/-- The test on the size operand of an array constructor: `true` when the operand is
rejected (no type, not an immediate, or not of ALU class INT). -/
def BuildBinopArrayAccess.badSize (types : List TypeDesc) (rhs : Exp) : Except Fault Bool :=
  match rhs.GetTypeDesc with
  | none => .ok true
  | some t =>
    if rhs.GetExpType ≠ 3 then .ok true
    else do
      let td ← deref types (some t)
      pure (decide (td.mAluEngine ≠ .E_INT))

/-- The value `static_cast<Imm*>(rhs)->GetVariant().i[0]`. -/
def BuildBinopArrayAccess.arrayCount : Exp → Int
  | .imm v _ => v
  | _ => 0

/-- The accessor path of `BuildBinopArrayAccess`: a plain index into an array. -/
def BuildBinopArrayAccess.accessor (b : BlockScriptBuilder) (lhs : Exp) (op : Op) (rhs : Exp) :
    Except Fault (BlockScriptBuilder × Option Exp) :=
  match lhs.GetTypeDesc with
  | none => fail b "Undefined array."
  | some t1 => do
    let tid1 ← deref b.mSymbolTable.mTypes (some t1)
    if tid1.mModifier ≠ .M_ARRAY then
      fail b "Access [] operator only allowed on array type."
    else
      match rhs.GetTypeDesc with
      | none => fail b "Undefined index symbol for array lookup."
      | some t2 => do
        let tid2 ← deref b.mSymbolTable.mTypes (some t2)
        if tid2.mAluEngine ≠ .E_INT then
          fail b "Array index must be an integer."
        else
          pure (b, some (.binop lhs op rhs tid1.mChild))

/-- Modelled from the spec: the defaulted trailing arguments of `CreateType` at the array
constructor call sites: no ALU class, no structure definition. -/
def SymbolTable.CreateArrayType (st : SymbolTable) (name : String) (child : Option TypePtr)
    (count : Int) : SymbolTable × TypePtr :=
  st.CreateType .M_ARRAY name child count .E_NONE none

def BuildBinopArrayAccess (b : BlockScriptBuilder) (lhs : Exp) (op : Op) (rhs : Exp) :
    Except Fault (BlockScriptBuilder × Option Exp) :=
  if op ≠ .O_ACCESS then .error .assertion
  else
    match lhs with
    | .idd name _ _ isGlobal lhsType =>
      match b.GetTypeByName name with
      | some arrayType => do
        let bad ← BuildBinopArrayAccess.badSize b.mSymbolTable.mTypes rhs
        if bad then
          fail b "Array constructor size type must be a constant int"
        else
          let arrayCount := BuildBinopArrayAccess.arrayCount rhs
          let (st, newArrayType) := b.mSymbolTable.CreateArrayType name (some arrayType) arrayCount
          let b1 : BlockScriptBuilder := { b with mSymbolTable := st }
          let lhsIdd : Exp := .idd name (-1) (-1) isGlobal lhsType
          if rhs.GetExpType ≠ 3 then
            fail b1 "Array rhs must be a numeric constant value."
          else
            pure (b1, some (.binop lhsIdd .O_ARRAY_CONSTRUCTOR rhs (some newArrayType)))
      | none => BuildBinopArrayAccess.accessor b lhs op rhs
    | .binop _ .O_ARRAY_CONSTRUCTOR _ lhsType => do
      let bad ← BuildBinopArrayAccess.badSize b.mSymbolTable.mTypes rhs
      if bad then
        fail b "Array constructor size type must be a constant int"
      else
        let arrayCount := BuildBinopArrayAccess.arrayCount rhs
        let childType ← deref b.mSymbolTable.mTypes lhsType
        let (st, newArrayType) := b.mSymbolTable.CreateArrayType childType.mName lhsType arrayCount
        pure ({ b with mSymbolTable := st },
              some (.binop lhs .O_ARRAY_CONSTRUCTOR rhs (some newArrayType)))
    | _ => BuildBinopArrayAccess.accessor b lhs op rhs

/-- The scan of a structure's field list for a member name: the type of the first field with
that name (null when there is none) and the byte sizes summed on the way. -/
def BuildBinop.memberScan (types : List TypeDesc) (name : String) :
    ArgList → Int → Except Fault (Option TypePtr × Int)
  | [], offset => .ok (none, offset)
  | argDec :: tail, offset =>
    if argDec.mVar = name then .ok (some argDec.mType, offset)
    else do
      let td ← deref types (some argDec.mType)
      BuildBinop.memberScan types name tail (offset + (td.mByteSize : Int))

/-- The scan of a swizzle name: `none` at the first character outside w..z, else the
largest axis index met, starting from `maxChar`. -/
def BuildBinop.swizzleScan : List Char → Int → Option Int
  | [], maxChar => some maxChar
  | c :: cs, maxChar =>
    if c.toNat < 'w'.toNat ∨ c.toNat > 'z'.toNat then none
    else
      let currElement : Int := ((c.toNat : Int) - ('w'.toNat : Int) + 3) % 4
      BuildBinop.swizzleScan cs (if currElement > maxChar then currElement else maxChar)

/-- The name looked up for the type of a swizzle: the child's name, followed by the digit
of the swizzle length when that is at least 2. -/
def BuildBinop.swizzleTypeName (childName : String) (swizzleLen : Nat) : String :=
  if swizzleLen ≥ 2 then childName ++ String.singleton (Char.ofNat (swizzleLen + '0'.toNat))
  else childName

def BuildBinop (b : BlockScriptBuilder) (lhs : Exp) (op : Op) (rhs : Exp) :
    Except Fault (BlockScriptBuilder × Option Exp) :=
  let tid1 := lhs.GetTypeDesc
  let tid2 := rhs.GetTypeDesc
  if op = .O_SET then
    match tid2 with
    | none => fail b "Undefined type on = operator."
    | some t2 =>
      match lhs with
      | .idd name offset _ isGlobal _ =>
        if offset = -1 then
          if tid1.isSome then .error .assertion
          else do
            let (b1, newOffset) ← b.allocate name t2 false
            let idd : Exp := .idd name newOffset 0 isGlobal (some t2)
            let tid1 : Option TypePtr := some t2
            if tid1 ≠ tid2 then
              fail b1 "Incompatible types not allowed on operation."
            else
              pure (b1, some (.binop idd op rhs tid1))
        else do
          let rhs ← AttemptTypePromotion b.mSymbolTable.mTypes rhs tid1
          let tid2 := rhs.GetTypeDesc
          if tid2.isNone then throw .assertion
          if tid1 ≠ tid2 then
            fail b "Incompatible types not allowed on operation."
          else
            pure (b, some (.binop lhs op rhs tid1))
      | .binop _ lhsOp _ _ =>
        if lhsOp = .O_DOT ∨ lhsOp = .O_ACCESS then
          if tid1.isNone then fail b "undefined member on = operator."
          else do
            let rhs ← AttemptTypePromotion b.mSymbolTable.mTypes rhs tid1
            let tid2 := rhs.GetTypeDesc
            if tid1 ≠ tid2 then
              fail b "incompatible types on = operator."
            else
              pure (b, some (.binop lhs op rhs tid1))
        else fail b "lhs can only be an accessor operation."
      | _ => fail b "lhs can only be an accessor operation."
  else if op = .O_DOT then
    match rhs with
    | .idd rhsName rhsOffset _ _ rhsType =>
      match tid1 with
      | none => fail b "undefined lhs of dot operator"
      | some t1 => do
        let td1 ← deref b.mSymbolTable.mTypes (some t1)
        if td1.mModifier = .M_STRUCT then
          match td1.mStructDef with
          | none => throw .assertion
          | some structDef => do
            let (tid2, offset) ←
              BuildBinop.memberScan b.mSymbolTable.mTypes rhsName structDef.mArgList 0
            let accessOffset : Exp := .idd rhsName offset 0 false rhsType
            let b1 := if tid2.isNone then BS_ErrorDispatcher b "Member of struct not found." else b
            pure (b1, some (.binop lhs op accessOffset tid2))
        else if td1.mModifier = .M_VECTOR then
          let accessOffset : Exp := .idd rhsName rhsOffset 0 false rhsType
          if lhs.isBinopWith .O_DOT then fail b "Nested swizzle access not allowed."
          else
            let swizzleLen := rhsName.length
            if swizzleLen > 4 then fail b "Vector swizzle too long"
            else
              let dimensionality : Int :=
                if td1.mModifier = .M_SCALAR then 1 else td1.mModifierProperty
              match BuildBinop.swizzleScan rhsName.toList (-1) with
              | none => fail b "vector access can only be 'x', 'y', 'z', 'w'"
              | some maxChar =>
                if maxChar ≥ dimensionality then
                  fail b "Invalid subscript, make sure the vector's dimensions are accessed correctly."
                else do
                  let child ← deref b.mSymbolTable.mTypes td1.mChild
                  let newName := BuildBinop.swizzleTypeName child.mName swizzleLen
                  let newType := b.mSymbolTable.GetTypeByName newName
                  pure (b, some (.binop lhs op accessOffset newType))
        else fail b "dot operator can only be executed in structs types"
    | _ => .error .assertion
  else if op = .O_ACCESS then
    BuildBinopArrayAccess b lhs op rhs
  else
    if tid1.isNone ∨ tid2.isNone then fail b "undefined symbol."
    else do
      let lhs ← AttemptTypePromotion b.mSymbolTable.mTypes lhs tid2
      let tid1 := lhs.GetTypeDesc
      let rhs ← AttemptTypePromotion b.mSymbolTable.mTypes rhs tid1
      let tid2 := rhs.GetTypeDesc
      if tid1 ≠ tid2 then
        fail b "Incompatible types not allowed on operation."
      else do
        let td1 ← deref b.mSymbolTable.mTypes tid1
        let valid ← IsBinopValid td1 op
        if !valid then
          fail b "Arithmetic operation is invalid for type."
        else
          pure (b, some (.binop lhs op rhs tid1))

def BuildUnop (op : Op) (exp : Exp) : Exp := .unop op exp exp.GetTypeDesc

def BuildExplicitCast (b : BlockScriptBuilder) (exp : Exp) (type : String) :
    Except Fault (BlockScriptBuilder × Option Exp) :=
  match b.GetTypeByName type with
  | some targetType => .ok (b, some (.unop .O_EXPLICIT_CAST exp (some targetType)))
  | none => fail b "Unknown type cast requested."

def BuildImmInt (b : BlockScriptBuilder) (i : Int) : Except Fault Exp :=
  match b.GetTypeByName "int" with
  | none => .error .assertion
  | some typeDesc => .ok (.imm i (some typeDesc))

/-- The page size the node allocator is initialised with. -/
def STRING_PAGE_SIZE : Nat := 512

def BuildStrImm (b : BlockScriptBuilder) (strToCopy : String) :
    Except Fault (BlockScriptBuilder × Option Exp) :=
  if strToCopy.length ≥ STRING_PAGE_SIZE then fail b "String immediate value too big."
  else
    match b.GetTypeByName "string" with
    | none => .error .assertion
    | some strTypeDesc => .ok (b, some (.strImm strToCopy (some strTypeDesc)))

/-- The float immediate; `f` is the bit pattern of the value, stored in the union. -/
def BuildImmFloat (b : BlockScriptBuilder) (f : Int) : Except Fault Exp :=
  match b.GetTypeByName "float" with
  | none => .error .assertion
  | some typeDesc => .ok (.imm f (some typeDesc))

/-- The loop of `BuildIdd` from a frame up its parent chain. The fuel is the number of
frames of the table: a walk that visits more frames than exist is in a cycle and never
ends. -/
def BuildIdd.walk (frames : List StackFrameInfo) (name : String) :
    Nat → Option FramePtr → Int → Exp → Except Fault Exp
  | _, none, _, idd => .ok idd
  | 0, some _, _, _ => .error .divergence
  | fuel + 1, some currentFrame, frameOffset, idd => do
    let info ← deref frames (some currentFrame)
    match info.FindDeclaration name with
    | some found =>
      pure (.idd name found.mOffset frameOffset
        (decide ((some currentFrame : Option FramePtr) = none)) (some found.mType))
    | none => BuildIdd.walk frames name fuel info.mParent (frameOffset + 1) idd

def BuildIdd (b : BlockScriptBuilder) (name : String) : Except Fault Exp :=
  BuildIdd.walk b.mSymbolTable.mFrames name b.mSymbolTable.mFrames.length b.mCurrentFrame 0
    (Exp.newIdd name)

def BuildFunCall (b : BlockScriptBuilder) (args : ExpList) (name : String) :
    Except Fault (BlockScriptBuilder × Option Exp) :=
  if args.any (fun e => e.GetTypeDesc.isNone) then
    fail b "undefined parameter passed to function call."
  else
    match b.mSymbolTable.FindFunctionDescription name (args.map Exp.GetTypeDesc) with
    | some descPtr => do
      let desc ← deref b.mSymbolTable.mFunTable (some descPtr)
      let dec ← deref b.mFunDecs (some desc.mDec)
      pure (b, some (.funCall args name (some descPtr) dec.mReturnType))
    | none => fail b "No function declaration found."

def BuildStmtExp (b : BlockScriptBuilder) (exp : Exp) :
    Except Fault (BlockScriptBuilder × Option Stmt) :=
  match exp with
  | .binop _ binopOp _ _ =>
    if binopOp ≠ .O_SET then
      fail b "Empty expressions not allowed! value must be stored in a variable"
    else .ok (b, some (.stmtExp exp))
  | .funCall .. => .ok (b, some (.stmtExp exp))
  | _ => fail b "Empty expressions not allowed! expression must be a function call, did you forget passing parameters ?"

def BuildStmtReturn (b : BlockScriptBuilder) (exp : Exp) :
    Except Fault (BlockScriptBuilder × Option Stmt) :=
  if b.mInFunBody = false then fail b "return statements not allowed on global scope."
  else .ok (b, some (.stmtReturn exp))

def BuildStmtTreeModifier (expList : ExpList) (var : Exp) : Stmt :=
  .stmtTreeModifier expList var

def BuildStmtFunDec (b : BlockScriptBuilder) (argList : ArgList) (returnIdd : String)
    (nameIdd : String) : Except Fault (BlockScriptBuilder × Option FunDecPtr) :=
  match b.GetTypeByName returnIdd with
  | none => fail b "Unknown return type."
  | some retType => do
    let funDecPtr : FunDecPtr := b.mFunDecs.length
    let funDec : StmtFunDec :=
      { mArgList := argList, mReturnIdd := returnIdd, mName := nameIdd,
        mReturnType := some retType, mFrame := b.mCurrentFrame, mDesc := none,
        mStmtList := none }
    let b1 : BlockScriptBuilder := { b with mFunDecs := b.mFunDecs ++ [funDec] }
    let b2 ← b1.updateCurrentFrame (fun f => { f with mCreatorCategory := .FUN_BODY })
    let (st, description) := b2.mSymbolTable.CreateFunctionDescription funDecPtr funDec
    let b3 : BlockScriptBuilder := { b2 with mSymbolTable := st }
    match description with
    | none => fail b3 "Duplicate function declaration found."
    | some d =>
      pure ({ b3 with mFunDecs := store b3.mFunDecs funDecPtr { funDec with mDesc := some d } },
            some funDecPtr)

def BindFunImplementation (b : BlockScriptBuilder) (funDec : FunDecPtr) (stmts : Option StmtList) :
    Except Fault (BlockScriptBuilder × FunDecPtr) := do
  let dec ← deref b.mFunDecs (some funDec)
  let b1 : BlockScriptBuilder :=
    { b with mFunDecs := store b.mFunDecs funDec { dec with mStmtList := stmts },
             mInFunBody := false }
  let b2 ← PopFrame b1
  pure (b2, funDec)

def BuildStmtWhile (b : BlockScriptBuilder) (exp : Exp) (stmtList : Option StmtList) :
    Except Fault (BlockScriptBuilder × Stmt) := do
  let stmtWhile : Stmt := .stmtWhile exp stmtList b.mCurrentFrame
  let b1 ← b.updateCurrentFrame (fun f => { f with mCreatorCategory := .LOOP })
  let b2 ← PopFrame b1
  pure (b2, stmtWhile)

def BuildStmtIfElse (b : BlockScriptBuilder) (exp : Exp) (ifBlock : Option StmtList)
    (tail : Option Stmt) (frame : Option FramePtr) : Except Fault (BlockScriptBuilder × Stmt) := do
  let stmtIfElse : Stmt := .stmtIfElse exp ifBlock tail frame
  let b1 ← b.updateCurrentFrame (fun f => { f with mCreatorCategory := .IF_STMT })
  pure (b1, stmtIfElse)

def BuildArgDec (b : BlockScriptBuilder) (var : String) (type : Option TypePtr) :
    Except Fault (BlockScriptBuilder × Option ArgDec) :=
  match type with
  | none => .error .assertion
  | some t => do
    let frame ← deref b.mSymbolTable.mFrames b.mCurrentFrame
    match frame.FindDeclaration var with
    | some _ => fail b "Duplicate name of declaration\n"
    | none =>
      let (b1, offset) ← RegisterStackMember b var type
      pure (b1, some { mVar := var, mType := t, mOffset := offset })

/-- The parameter loop of `CreateIntrinsicFunction`: resolves each type name and declares
the parameter in the open frame; null when a type name is unknown or a declaration fails. -/
def CreateIntrinsicFunction.declareArgs :
    BlockScriptBuilder → List (String × String) → Except Fault (BlockScriptBuilder × Option ArgList)
  | b, [] => .ok (b, some [])
  | b, (typeName, argName) :: rest =>
    match b.GetTypeByName typeName with
    | none => .ok (b, none)
    | some t => do
      let (b1, argDec) ← BuildArgDec b argName (some t)
      match argDec with
      | none => pure (b1, none)
      | some a => do
        let (b2, tail) ← CreateIntrinsicFunction.declareArgs b1 rest
        pure (b2, tail.map (fun l => a :: l))

/-- Modelled from the spec: `CreateIntrinsicFunction` of the intrinsics file, which is not
among the sources. It takes the function name, the parameter type names and parameter
names, the return type name and the native callback, and registers the function through the
builder: it opens the function frame, declares one parameter per entry in order, declares
the function and binds the callback (which pops the frame and clears the function-body
flag). It returns false when a type name does not resolve or a builder call fails. -/
def CreateIntrinsicFunction (b : BlockScriptBuilder) (funName : String)
    (args : List (String × String)) (returnType : String) (callback : FunCallback) :
    Except Fault (BlockScriptBuilder × Bool) :=
  match b.GetTypeByName returnType with
  | none => .ok (b, false)
  | some _ =>
    match StartNewFunction b with
    | (b1, false) => .ok (b1, false)
    | (b1, true) => do
      let (b2, argList) ← CreateIntrinsicFunction.declareArgs b1 args
      match argList with
      | none => pure (b2, false)
      | some l => do
        let (b3, funDec) ← BuildStmtFunDec b2 l returnType funName
        match funDec with
        | none => pure (b3, false)
        | some d => do
          let b4 ← BindIntrinsic b3 d callback
          pure (b4, true)

/-- The call `frameInfo->UnlinkParentStackFrame()` on a frame that was dereferenced
before. -/
def BlockScriptBuilder.unlinkParent (b : BlockScriptBuilder) (frameInfo : Option FramePtr) :
    BlockScriptBuilder :=
  match frameInfo with
  | some p =>
    { b with mSymbolTable := b.mSymbolTable.modifyFrame p (fun f => { f with mParent := none }) }
  | none => b

/-- The call `mSymbolTable.CreateType(...)` on the symbol table of the builder. -/
def BlockScriptBuilder.createType (b : BlockScriptBuilder) (modifier : Modifier) (name : String)
    (child : Option TypePtr) (modifierProperty : Int) (engine : AluEngine)
    (structDef : Option StmtStructDef) : BlockScriptBuilder × TypePtr :=
  ({ b with mSymbolTable :=
      (b.mSymbolTable.CreateType modifier name child modifierProperty engine structDef).1 },
   (b.mSymbolTable.CreateType modifier name child modifierProperty engine structDef).2)

def MAX_CHILD_MEMBERS : Nat := 255

/-- The loop of `BuildStmtStructDef` that copies the member type names and member names into
the static containers: null when the list has more than `MAX_CHILD_MEMBERS` members. -/
def BuildStmtStructDef.collect (types : List TypeDesc) :
    ArgList → Nat → Except Fault (Option (List (String × String)))
  | [], _ => .ok (some [])
  | argDec :: tail, count =>
    if count ≥ MAX_CHILD_MEMBERS then .ok none
    else do
      let td ← deref types (some argDec.mType)
      let rest ← BuildStmtStructDef.collect types tail (count + 1)
      pure (rest.map (fun l => (td.mName, argDec.mVar) :: l))

def BuildStmtStructDef (b : BlockScriptBuilder) (name : String) (definitions : ArgList) :
    Except Fault (BlockScriptBuilder × Option StmtStructDef) :=
  if (b.GetTypeByName name).isSome then
    fail b "Struct type is trying to redefine a type."
  else if b.mInFunBody then
    fail b "Struct definitions not allowed inside function bodies."
  else do
    let frameInfo := b.mCurrentFrame
    let newDef : StmtStructDef :=
      { mName := name, mArgList := definitions, mFrameInfo := frameInfo }
    let b1 ← b.updateCurrentFrame (fun f => { f with mCreatorCategory := .STRUCT_DEF })
    let b2 ← PopFrame b1
    let b3 := b2.unlinkParent frameInfo
    let b6 := (b3.createType .M_STRUCT name none 0 .E_NONE (some newDef)).1
    let (b7, result) ← CreateIntrinsicFunction b6 name [] name .StructGenericConstructor
    if result = false then throw .assertion
    if definitions = [] then throw .invalidPointer
    let members ← BuildStmtStructDef.collect b7.mSymbolTable.mTypes definitions 0
    match members with
    | none => fail b7 "Too many members in structure"
    | some l => do
      let (b8, result) ← CreateIntrinsicFunction b7 name l name .StructGenericConstructor
      if result = false then throw .assertion
      pure (b8, some newDef)

/-! ## Reference definitions taken from the specification, and example inputs -/

/-- The operator table of the specification, per ALU class: INT supports arithmetic,
comparison and logical-and/or; FLOAT the same set minus modulo; FLOAT2..FLOAT4 only
`+ - * /`. -/
def specOperatorTable : AluEngine → List Op
  | .E_INT => [.O_PLUS, .O_MINUS, .O_MUL, .O_DIV, .O_MOD, .O_EQ, .O_LT, .O_GT, .O_LTE, .O_GTE,
               .O_LAND, .O_LOR]
  | .E_FLOAT => [.O_PLUS, .O_MINUS, .O_MUL, .O_DIV, .O_EQ, .O_LT, .O_GT, .O_LTE, .O_GTE,
                 .O_LAND, .O_LOR]
  | .E_FLOAT2 | .E_FLOAT3 | .E_FLOAT4 => [.O_PLUS, .O_MINUS, .O_MUL, .O_DIV]
  | .E_NONE => []

/-- The widening relation of the specification: int to any float width, float to a strictly
wider float vector; nothing else. -/
def specWidens : AluEngine → AluEngine → Bool
  | .E_INT, .E_FLOAT | .E_INT, .E_FLOAT2 | .E_INT, .E_FLOAT3 | .E_INT, .E_FLOAT4 => true
  | .E_FLOAT, .E_FLOAT2 | .E_FLOAT, .E_FLOAT3 | .E_FLOAT, .E_FLOAT4 => true
  | _, _ => false

/-- A builder before its first `Reset`, with a listener installed. -/
def emptyBuilder : BlockScriptBuilder :=
  { mErrorCount := 0, mCurrentLineNumber := 1,
    mActiveResult := { mAst := none, mAsm := { mBlocks := none } },
    mInFunBody := false, mCurrentFrame := none,
    mSymbolTable := { mTypes := [], mFrames := [], mFunTable := [] },
    mFunDecs := [], mEventListener := some [], mDispatched := [] }

/-- The builder right after `Reset`: pre-seeded catalog, one GLOBAL frame. -/
def initialBuilder : BlockScriptBuilder := Reset emptyBuilder

/-- A canonizer that returns an empty block. -/
def exampleCanonizer : Canonizer := { Canonize := fun _ _ _ => { mCode := [] } }

/-- The initial builder with one registered function `int f()` that has neither a statement
list nor a callback. -/
def bodilessBuilder : BlockScriptBuilder :=
  { initialBuilder with
    mSymbolTable := { initialBuilder.mSymbolTable with
      mFunTable := [{ mName := "f", mArgTypes := [], mDec := 0, mCallback := none }] },
    mFunDecs := [{ mArgList := [], mReturnIdd := "int", mName := "f", mReturnType := some 0,
                   mFrame := some 0, mDesc := some 0, mStmtList := none }] }

/-- The initial builder after `a : int` was declared in its global frame. -/
def declaredBuilder : BlockScriptBuilder :=
  { initialBuilder with
    mSymbolTable := { initialBuilder.mSymbolTable with
      mFrames := [{ mEntries := [{ mName := "a", mType := 0, mOffset := 0, mIsArg := true }],
                    mTotalSize := 4, mCreatorCategory := .GLOBAL, mParent := none }] } }

/-- The premise "no frame on the parent chain of `cur` declares `name`": the chain is
followed for at most `fuel` frames, every frame on it exists and has no declaration of the
name, and the chain ends. -/
def undeclaredOnChain (frames : List StackFrameInfo) (name : String) :
    Nat → Option FramePtr → Bool
  | _, none => true
  | 0, some _ => false
  | fuel + 1, some p =>
    match frames[p]? with
    | none => false
    | some frame =>
      (frame.FindDeclaration name).isNone && undeclaredOnChain frames name fuel frame.mParent

/-- The initial builder after the statement `x = 5`: `x : int` at offset 0 of the global
frame. -/
def assignedBuilder : BlockScriptBuilder :=
  { initialBuilder with
    mSymbolTable := { initialBuilder.mSymbolTable with
      mFrames := [{ mEntries := [{ mName := "x", mType := 0, mOffset := 0, mIsArg := false }],
                    mTotalSize := 4, mCreatorCategory := .GLOBAL, mParent := none }] } }

/-- The axis index of a swizzle character in the specification: x, y, z, w are 0, 1, 2, 3;
any other character is no axis. -/
def specAxisIndex (c : Char) : Option Nat :=
  if c = 'x' then some 0
  else if c = 'y' then some 1
  else if c = 'z' then some 2
  else if c = 'w' then some 3
  else none

/-- The premise "rhs is an int-typed immediate": an immediate node whose type is in the
catalog and has ALU class INT. -/
def specIsIntImmediate (types : List TypeDesc) : Exp → Bool
  | .imm _ (some u) =>
    match types[u]? with
    | some U => decide (U.mAluEngine = .E_INT)
    | none => false
  | _ => false

/-- Two builders agree on catalog, function table, declaration nodes and function-body
flag. -/
def sameTables (b b' : BlockScriptBuilder) : Prop :=
  b'.mSymbolTable.mTypes = b.mSymbolTable.mTypes ∧
  b'.mSymbolTable.mFunTable = b.mSymbolTable.mFunTable ∧
  b'.mFunDecs = b.mFunDecs ∧ b'.mInFunBody = b.mInFunBody

/-- The type `r` is what the name of the type of the member `a` resolves to in the
catalog. -/
def resolvesTo (st : SymbolTable) (a : ArgDec) (r : TypePtr) : Prop :=
  ∃ T, st.mTypes[a.mType]? = some T ∧ st.GetTypeByName T.mName = some r

/-- The members `a : int; b : int` of `struct Pair`, as `BuildArgDec` returns them. -/
def pairFields : ArgList :=
  [{ mVar := "a", mType := 0, mOffset := 0 }, { mVar := "b", mType := 0, mOffset := 4 }]

/-- The initial builder after the body of `struct Pair { a : int; b : int }` was read: a
frame opened under the global frame holds the two members. -/
def pairBuilder : BlockScriptBuilder :=
  { initialBuilder with
    mCurrentFrame := some 1,
    mSymbolTable := { initialBuilder.mSymbolTable with
      mFrames :=
        [{ mEntries := [], mTotalSize := 0, mCreatorCategory := .GLOBAL, mParent := none },
         { mEntries := [{ mName := "a", mType := 0, mOffset := 0, mIsArg := true },
                        { mName := "b", mType := 0, mOffset := 4, mIsArg := true }],
           mTotalSize := 8, mCreatorCategory := .NONE, mParent := some 0 }] } }

/-- The type descriptor created for `struct Pair`. -/
def pairType : TypeDesc :=
  { mName := "Pair", mModifier := .M_STRUCT, mModifierProperty := 0, mAluEngine := .E_NONE,
    mChild := none,
    mStructDef := some { mName := "Pair", mArgList := pairFields, mFrameInfo := some 1 },
    mByteSize := 8 }

/-- The builder after `BuildStmtStructDef` of `struct Pair` on `pairBuilder`. -/
def pairAfter : BlockScriptBuilder :=
  { pairBuilder with
    mCurrentFrame := some 0,
    mSymbolTable :=
      { mTypes := preseededTypes ++ [pairType],
        mFrames :=
          [{ mEntries := [], mTotalSize := 0, mCreatorCategory := .GLOBAL, mParent := none },
           { mEntries := [{ mName := "a", mType := 0, mOffset := 0, mIsArg := true },
                          { mName := "b", mType := 0, mOffset := 4, mIsArg := true }],
             mTotalSize := 8, mCreatorCategory := .STRUCT_DEF, mParent := none },
           { mEntries := [], mTotalSize := 0, mCreatorCategory := .FUN_BODY, mParent := some 0 },
           { mEntries := [{ mName := "a", mType := 0, mOffset := 0, mIsArg := true },
                          { mName := "b", mType := 0, mOffset := 4, mIsArg := true }],
             mTotalSize := 8, mCreatorCategory := .FUN_BODY, mParent := some 0 }],
        mFunTable :=
          [{ mName := "Pair", mArgTypes := [], mDec := 0,
             mCallback := some .StructGenericConstructor },
           { mName := "Pair", mArgTypes := [0, 0], mDec := 1,
             mCallback := some .StructGenericConstructor }] },
    mFunDecs :=
      [{ mArgList := [], mReturnIdd := "Pair", mName := "Pair", mReturnType := some 6,
         mFrame := some 2, mDesc := some 0, mStmtList := none },
       { mArgList := pairFields, mReturnIdd := "Pair", mName := "Pair", mReturnType := some 6,
         mFrame := some 3, mDesc := some 1, mStmtList := none }] }

/-- The calls the parser issues for the function `int Pair(float x)` with an empty body,
followed by the member declarations `a : int; b : int` of a structure body, from the initial
builder. -/
def overloadRun : Except Fault BlockScriptBuilder := do
  let b1 := (StartNewFunction initialBuilder).1
  let (b2, _) ← BuildArgDec b1 "x" (some 1)
  let (b3, _) ← BuildStmtFunDec b2 [{ mVar := "x", mType := 1, mOffset := 0 }] "int" "Pair"
  let (b4, _) ← BindFunImplementation b3 0 (some [])
  let b5 := (StartNewFrame b4).1
  let (b6, _) ← BuildArgDec b5 "a" (some 0)
  let (b7, _) ← BuildArgDec b6 "b" (some 0)
  pure b7

/-- The calls for the array type `int[3]`, a structure `S` whose single member `a` has that
type, and an expression `v` of that type. -/
def arrayFieldRun : Except Fault (BlockScriptBuilder × Option StmtStructDef × Exp) := do
  let (b1, ctor) ← BuildBinop initialBuilder (Exp.newIdd "int") .O_ACCESS (.imm 3 (some 0))
  let b2 := (StartNewFrame b1).1
  let arrayType := match ctor with
    | some e => e.GetTypeDesc
    | none => none
  let (b3, a) ← BuildArgDec b2 "a" arrayType
  let (b4, d) ← BuildStmtStructDef b3 "S" a.toList
  pure (b4, d, .idd "v" 0 0 false arrayType)

/-- The left-hand sides in array-declaring form: an identifier whose name is the name of a
type of the catalog, or an already-constructed array expression. -/
def isArrayDeclaringForm (b : BlockScriptBuilder) : Exp → Bool
  | .idd name _ _ _ _ => (b.GetTypeByName name).isSome
  | .binop _ op _ _ => decide (op = .O_ARRAY_CONSTRUCTOR)
  | _ => false

/-- The premise of a plain index: the left side has a resolved type with modifier ARRAY and
the right side has a resolved type of ALU class INT. -/
def specIndexable (types : List TypeDesc) (lhs rhs : Exp) : Bool :=
  match lhs.GetTypeDesc, rhs.GetTypeDesc with
  | some t1, some t2 =>
    match types[t1]?, types[t2]? with
    | some T1, some T2 => decide (T1.mModifier = .M_ARRAY) && decide (T2.mAluEngine = .E_INT)
    | _, _ => false
  | _, _ => false

/-- The initial builder after the array type `int[3]` was constructed: the catalog holds it
as entry 6, with element type int. -/
def intArrayBuilder : BlockScriptBuilder :=
  { initialBuilder with
    mSymbolTable := { initialBuilder.mSymbolTable with
      mTypes := preseededTypes ++
        [{ mName := "int", mModifier := .M_ARRAY, mModifierProperty := 3, mAluEngine := .E_NONE,
           mChild := some 0, mStructDef := none, mByteSize := 12 }] } }

/-- The byte offset of the member `name` in a field list, in the words of the
specification: the running size of the fields that precede the first field of that name
(of all fields when there is none). -/
def specFieldOffset (types : List TypeDesc) (name : String) (fields : ArgList) : Nat :=
  ((fields.takeWhile (fun a => a.mVar != name)).map
    (fun a => match types[a.mType]? with
      | some T => T.mByteSize
      | none => 0)).sum

/-- The match of a call against a function descriptor, in the words of the specification:
the same name and positionally identical argument types. -/
def specMatches (d : FunDesc) (name : String) (args : ExpList) : Bool :=
  d.mName == name && d.mArgTypes.map some == args.map Exp.GetTypeDesc

/-- The signature of a function descriptor, in the words of the specification: the name and
the parameter-type list. -/
def FunDesc.signature (d : FunDesc) : String × List TypePtr := (d.mName, d.mArgTypes)

/-- A sequence of `BuildStmtFunDec` calls, each given by its argument list, return type name
and function name, run one after the other from a builder. -/
def runFunDecs :
    BlockScriptBuilder → List (ArgList × String × String) → Except Fault BlockScriptBuilder
  | b, [] => .ok b
  | b, (argList, returnIdd, nameIdd) :: rest => do
    let (b1, _) ← BuildStmtFunDec b argList returnIdd nameIdd
    runFunDecs b1 rest

/-- A field list of `n` members `m`, `mm`, `mmm`, ... of type int, as `BuildArgDec` returns
them. -/
def manyFields (n : Nat) : ArgList :=
  (List.range n).map
    (fun i => { mVar := String.mk (List.replicate (i + 1) 'm'), mType := 0, mOffset := 4 * i })

/-- The calls the parser issues for the function `int Pair()` with an empty body, followed
by the member declarations `a : int; b : int` of a structure body, from the initial
builder. -/
def constructorClashRun : Except Fault BlockScriptBuilder := do
  let b1 := (StartNewFunction initialBuilder).1
  let (b2, _) ← BuildStmtFunDec b1 [] "int" "Pair"
  let (b3, _) ← BindFunImplementation b2 0 (some [])
  let b4 := (StartNewFrame b3).1
  let (b5, _) ← BuildArgDec b4 "a" (some 0)
  let (b6, _) ← BuildArgDec b5 "b" (some 0)
  pure b6

/-- The calls for a structure `S` whose single member `v` has type float4, followed by the
member access `s.v` on an expression `s` of type `S` (catalog entry 6). -/
def vectorFieldRun : Except Fault (BlockScriptBuilder × Option Exp) := do
  let b1 := (StartNewFrame initialBuilder).1
  let (b2, v) ← BuildArgDec b1 "v" (some 4)
  let (b3, _) ← BuildStmtStructDef b2 "S" v.toList
  BuildBinop b3 (.idd "s" 0 0 false (some 6)) .O_DOT (Exp.newIdd "v")

/-- The initial builder after the frame of an if-branch or loop body was opened under the
global frame. -/
def branchBuilder : BlockScriptBuilder := (StartNewFrame initialBuilder).1

/-- The calls for the function `int f()` with an empty body, followed by the opening of a
second function. -/
def redeclareRun : Except Fault BlockScriptBuilder := do
  let b1 := (StartNewFunction initialBuilder).1
  let (b2, _) ← BuildStmtFunDec b1 [] "int" "f"
  let (b3, _) ← BindFunImplementation b2 0 (some [])
  pure (StartNewFunction b3).1

/-- The frame reached after `k` parent hops from the frame `cur`: `cur` itself for 0 hops,
null past the root (and past a pointer that designates no frame). -/
def ancestorFrame (frames : List StackFrameInfo) : Nat → Option FramePtr → Option FramePtr
  | 0, cur => cur
  | _ + 1, none => none
  | k + 1, some p =>
    match frames[p]? with
    | some F => ancestorFrame frames k F.mParent
    | none => none

/-- A builder with two frames: the global frame declares `x : int` and `a : int`; the
current frame, its child, declares `x : float`, shadowing the outer `x`. -/
def shadowBuilder : BlockScriptBuilder :=
  { initialBuilder with
    mCurrentFrame := some 1,
    mSymbolTable := { initialBuilder.mSymbolTable with
      mFrames :=
        [{ mEntries := [{ mName := "x", mType := 0, mOffset := 0, mIsArg := false },
                        { mName := "a", mType := 0, mOffset := 4, mIsArg := false }],
           mTotalSize := 8, mCreatorCategory := .GLOBAL, mParent := none },
         { mEntries := [{ mName := "x", mType := 1, mOffset := 0, mIsArg := false }],
           mTotalSize := 4, mCreatorCategory := .NONE, mParent := some 0 }] } }

/-- The last step of the generic branch of `BuildBinop`, on operands that were promoted to
the common type `tid1`: the validity test of the operator and the node. -/
def BuildBinop.genericTail (b : BlockScriptBuilder) (lhs : Exp) (op : Op) (rhs : Exp)
    (tid1 : TypePtr) (td1 : TypeDesc) : Except Fault (BlockScriptBuilder × Option Exp) := do
  let valid ← IsBinopValid td1 op
  if !valid then
    fail b "Arithmetic operation is invalid for type."
  else
    pure (b, some (.binop lhs op rhs (some tid1)))

/-- Two frame tables agree outside the frame `n`, have the same length, and the frame `n`
has kept its parent link. -/
def framesAgree (n : FramePtr) (fr fr' : List StackFrameInfo) : Prop :=
  fr'.length = fr.length ∧ (∀ i, i ≠ n → fr'[i]? = fr[i]?) ∧
  (∀ F, fr[n]? = some F → ∃ F', fr'[n]? = some F' ∧ F'.mParent = F.mParent)

/-- The parameter types of the full constructor of a structure: for each member in order,
what the name of the member's type resolves to in the catalog (`BuildStmtStructDef` hands the
type names of the members to `CreateIntrinsicFunction`). -/
def constructorTypes (st : SymbolTable) (definitions : ArgList) : List (Option TypePtr) :=
  definitions.map (fun a =>
    match st.mTypes[a.mType]? with
    | some T => st.GetTypeByName T.mName
    | none => none)

/-- The calls the parser issues for the function `int Pair(int x, int y)` with an empty body,
followed by the member declarations `a : int; b : int` of a structure body, from the initial
builder. -/
def fullClashRun : Except Fault BlockScriptBuilder := do
  let b1 := (StartNewFunction initialBuilder).1
  let (b2, _) ← BuildArgDec b1 "x" (some 0)
  let (b3, _) ← BuildArgDec b2 "y" (some 0)
  let (b4, _) ← BuildStmtFunDec b3
    [{ mVar := "x", mType := 0, mOffset := 0 }, { mVar := "y", mType := 0, mOffset := 4 }]
    "int" "Pair"
  let (b5, _) ← BindFunImplementation b4 0 (some [])
  let b6 := (StartNewFrame b5).1
  let (b7, _) ← BuildArgDec b6 "a" (some 0)
  let (b8, _) ← BuildArgDec b7 "b" (some 0)
  pure b8

/-- A field list of two members that are both named `a`, of type int. -/
def twinFields : ArgList :=
  [{ mVar := "a", mType := 0, mOffset := 0 }, { mVar := "a", mType := 0, mOffset := 4 }]

/-- The builder after the function `int Pair(float x)` with an empty body was declared and the
body of `struct Pair { a : int; b : int }` was read. -/
def overloadBuilder : BlockScriptBuilder :=
  { initialBuilder with
    mCurrentFrame := some 2,
    mSymbolTable := { initialBuilder.mSymbolTable with
      mFrames :=
        [{ mEntries := [], mTotalSize := 0, mCreatorCategory := .GLOBAL, mParent := none },
         { mEntries := [{ mName := "x", mType := 1, mOffset := 0, mIsArg := true }],
           mTotalSize := 4, mCreatorCategory := .FUN_BODY, mParent := some 0 },
         { mEntries := [{ mName := "a", mType := 0, mOffset := 0, mIsArg := true },
                        { mName := "b", mType := 0, mOffset := 4, mIsArg := true }],
           mTotalSize := 8, mCreatorCategory := .NONE, mParent := some 0 }],
      mFunTable := [{ mName := "Pair", mArgTypes := [1], mDec := 0, mCallback := none }] },
    mFunDecs :=
      [{ mArgList := [{ mVar := "x", mType := 1, mOffset := 0 }], mReturnIdd := "int",
         mName := "Pair", mReturnType := some 0, mFrame := some 1, mDesc := some 0,
         mStmtList := some [] }] }

/-! ## Theorems -/

@[simp] theorem GetTypeDesc_idd (n : String) (o f : Int) (g : Bool) (t : Option TypePtr) :
    (Exp.idd n o f g t).GetTypeDesc = t := rfl

@[simp] theorem GetTypeDesc_binop (l : Exp) (op : Op) (r : Exp) (t : Option TypePtr) :
    (Exp.binop l op r t).GetTypeDesc = t := rfl

@[simp] theorem GetTypeDesc_unop (op : Op) (e : Exp) (t : Option TypePtr) :
    (Exp.unop op e t).GetTypeDesc = t := rfl

@[simp] theorem GetTypeDesc_imm (v : Int) (t : Option TypePtr) :
    (Exp.imm v t).GetTypeDesc = t := rfl

@[simp] theorem GetTypeDesc_funCall (a : List Exp) (n : String) (d : Option FunDescPtr)
    (t : Option TypePtr) : (Exp.funCall a n d t).GetTypeDesc = t := rfl

theorem deref_some {α : Type} (pool : List α) (i : Nat) (a : α) (h : pool[i]? = some a) :
    deref pool (some i) = .ok a := by
  simp [deref, h]

theorem findMissingBody_ok (funDecs : List StmtFunDec) (l : List FunDesc)
    (h : ∀ d ∈ l, d.mDec < funDecs.length) :
    ∃ r, EndBuild.findMissingBody funDecs l = .ok r := by
  induction l with
  | nil => exact ⟨false, rfl⟩
  | cons d rest ih =>
    have hd : d.mDec < funDecs.length := h d (List.mem_cons_self _ _)
    obtain ⟨r, hr⟩ := ih (fun x hx => h x (List.mem_cons_of_mem _ hx))
    have hget : funDecs[d.mDec]? = some (funDecs[d.mDec]) := List.getElem?_eq_getElem hd
    simp only [EndBuild.findMissingBody, deref_some _ _ _ hget, bind, Except.bind]
    split
    · exact ⟨true, rfl⟩
    · exact ⟨r, hr⟩

/-- C1. For every builder whose function descriptors point to declaration nodes, `EndBuild`
returns, and the compilation result it returns carries a non-null assembly block if and
only if the error count after `EndBuild` is zero. -/
theorem EndBuild_assembly_iff (canon : Canonizer) (b : BlockScriptBuilder)
    (hdec : ∀ d ∈ b.mSymbolTable.mFunTable, d.mDec < b.mFunDecs.length) :
    ∃ b' result, EndBuild canon b = .ok (b', result) ∧
      (result.mAsm.mBlocks ≠ none ↔ b'.mErrorCount = 0) := by
  obtain ⟨r, hr⟩ := findMissingBody_ok b.mFunDecs b.mSymbolTable.mFunTable hdec
  unfold EndBuild
  by_cases h0 : b.mErrorCount = 0
  · cases r
    · simp only [h0, hr, bind, Except.bind, pure, Except.pure, notify, if_true]
      exact ⟨_, _, rfl, by simp [h0]⟩
    · simp only [h0, hr, bind, Except.bind, pure, Except.pure, notify, BS_ErrorDispatcher,
        if_true]
      exact ⟨_, _, rfl, by simp⟩
  · simp only [h0, bind, Except.bind, pure, Except.pure, notify, if_false]
    exact ⟨_, _, rfl, by simp [h0]⟩

/-- Witness of C1 at a builder with a function that was left without a body. -/
theorem EndBuild_assembly_iff_witness :
    (∀ d ∈ bodilessBuilder.mSymbolTable.mFunTable, d.mDec < bodilessBuilder.mFunDecs.length) ∧
    ∃ b' result, EndBuild exampleCanonizer bodilessBuilder = .ok (b', result) ∧
      (result.mAsm.mBlocks ≠ none ↔ b'.mErrorCount = 0) :=
  ⟨by simp [bodilessBuilder],
   EndBuild_assembly_iff exampleCanonizer bodilessBuilder (by simp [bodilessBuilder])⟩

theorem AttemptTypePromotion_eq (types : List TypeDesc) (e : Exp) (s t : TypePtr)
    (S T : TypeDesc) (hs : e.GetTypeDesc = some s) (hS : types[s]? = some S)
    (hT : types[t]? = some T) :
    AttemptTypePromotion types e (some t) =
      .ok (if specWidens S.mAluEngine T.mAluEngine then .unop .O_IMPLICIT_CAST e (some t)
           else e) := by
  unfold AttemptTypePromotion
  rw [hs, deref_some _ _ _ hS, deref_some _ _ _ hT]
  cases h1 : S.mAluEngine <;> cases h2 : T.mAluEngine <;>
    simp [h1, h2, specWidens, AluEngine.toInt, bind, Except.bind, pure, Except.pure]

/-- C4. `AttemptTypePromotion` only widens: for an expression of type S and a target type T
it returns the implicit-cast node wrapping the expression, typed exactly T, when S is INT
and T is FLOAT..FLOAT4 or S is FLOAT and T is FLOAT2..FLOAT4, and the expression itself
unchanged in every other case; so int to float and float to float2 are promoted and float4
to float2 is not. -/
theorem AttemptTypePromotion_widens_only (types : List TypeDesc) (e : Exp) (s t : TypePtr)
    (S T : TypeDesc) (hs : e.GetTypeDesc = some s) (hS : types[s]? = some S)
    (hT : types[t]? = some T) :
    ∃ r, AttemptTypePromotion types e (some t) = .ok r ∧
      (specWidens S.mAluEngine T.mAluEngine = true →
        r = .unop .O_IMPLICIT_CAST e (some t) ∧ r.GetTypeDesc = some t) ∧
      (specWidens S.mAluEngine T.mAluEngine = false → r = e) ∧
      specWidens .E_INT .E_FLOAT = true ∧ specWidens .E_FLOAT .E_FLOAT2 = true ∧
      specWidens .E_FLOAT4 .E_FLOAT2 = false := by
  refine ⟨_, AttemptTypePromotion_eq types e s t S T hs hS hT, ?_, ?_, rfl, rfl, rfl⟩
  · intro h; simp [h, Exp.GetTypeDesc]
  · intro h; simp [h]

/-- Witness of C4: the int immediate 5 promoted toward float in the pre-seeded catalog. -/
theorem AttemptTypePromotion_widens_only_witness :
    ∃ r, AttemptTypePromotion preseededTypes (.imm 5 (some 0)) (some 1) = .ok r ∧
      (specWidens .E_INT .E_FLOAT = true →
        r = .unop .O_IMPLICIT_CAST (.imm 5 (some 0)) (some 1) ∧ r.GetTypeDesc = some 1) ∧
      (specWidens .E_INT .E_FLOAT = false → r = .imm 5 (some 0)) ∧
      specWidens .E_INT .E_FLOAT = true ∧ specWidens .E_FLOAT .E_FLOAT2 = true ∧
      specWidens .E_FLOAT4 .E_FLOAT2 = false :=
  AttemptTypePromotion_widens_only preseededTypes (.imm 5 (some 0)) 0 1
    (preseededTypes.get ⟨0, by decide⟩) (preseededTypes.get ⟨1, by decide⟩) rfl rfl rfl

/-- C5. `IsBinopValid` equals the operator table of the specification for every operator
code and every type whose ALU class is INT, FLOAT, FLOAT2, FLOAT3 or FLOAT4 (for the class
NONE its assertion fails). -/
theorem IsBinopValid_eq_table (type : TypeDesc) (op : Op) :
    IsBinopValid type op =
      if type.mAluEngine = .E_NONE then .error .assertion
      else .ok (decide (op ∈ specOperatorTable type.mAluEngine)) := by
  unfold IsBinopValid
  cases h : type.mAluEngine <;> cases op <;> simp [specOperatorTable, AluEngine.toInt]

theorem allocate_eq (b : BlockScriptBuilder) (name : String) (t : TypePtr) (isArg : Bool)
    (f : FramePtr) (frame : StackFrameInfo) (td : TypeDesc)
    (hcur : b.mCurrentFrame = some f) (hframe : b.mSymbolTable.mFrames[f]? = some frame)
    (htype : b.mSymbolTable.mTypes[t]? = some td) :
    b.allocate name t isArg =
      .ok ({ b with mSymbolTable := { b.mSymbolTable with
               mFrames := b.mSymbolTable.mFrames.set f
                 { frame with
                   mEntries := frame.mEntries ++
                     [{ mName := name, mType := t, mOffset := (frame.mTotalSize : Int),
                        mIsArg := isArg }],
                   mTotalSize := frame.mTotalSize + td.mByteSize } } },
           (frame.mTotalSize : Int)) := by
  simp [BlockScriptBuilder.allocate, BlockScriptBuilder.updateCurrentFrame, hcur,
    deref_some _ _ _ hframe, deref_some _ _ _ htype, hframe, SymbolTable.modifyFrame, store,
    StackFrameInfo.Allocate, bind, Except.bind, pure, Except.pure]

/-- C6. In a builder whose current frame exists, for a type of the catalog: when the name is
already declared in the current frame `BuildArgDec` returns null, dispatches the
duplicate-declaration message and leaves the symbol table unchanged (a frame with exactly
one entry for the name still has exactly one); when the name is not declared there it
succeeds, appends exactly one entry flagged as argument to the current frame, and the
returned declaration stores the allocated offset. -/
theorem BuildArgDec_duplicate_or_append (b : BlockScriptBuilder) (var : String) (t : TypePtr)
    (f : FramePtr) (frame : StackFrameInfo) (td : TypeDesc)
    (hcur : b.mCurrentFrame = some f) (hframe : b.mSymbolTable.mFrames[f]? = some frame)
    (htype : b.mSymbolTable.mTypes[t]? = some td) :
    (frame.FindDeclaration var ≠ none →
      ∃ b', BuildArgDec b var (some t) = .ok (b', none) ∧
        b'.mDispatched = b.mDispatched ++ ["Duplicate name of declaration\n"] ∧
        b'.mErrorCount = b.mErrorCount + 1 ∧
        b'.mSymbolTable = b.mSymbolTable ∧ b'.mCurrentFrame = b.mCurrentFrame ∧
        (frame.mEntries.countP (fun e => e.mName == var) = 1 →
          ∃ frame', b'.mSymbolTable.mFrames[f]? = some frame' ∧
            frame'.mEntries.countP (fun e => e.mName == var) = 1)) ∧
    (frame.FindDeclaration var = none →
      ∃ b' argDec, BuildArgDec b var (some t) = .ok (b', some argDec) ∧
        argDec.mVar = var ∧ argDec.mType = t ∧ argDec.mOffset = (frame.mTotalSize : Int) ∧
        b'.mSymbolTable.mFrames = b.mSymbolTable.mFrames.set f
          { frame with
            mEntries := frame.mEntries ++
              [{ mName := var, mType := t, mOffset := argDec.mOffset, mIsArg := true }],
            mTotalSize := frame.mTotalSize + td.mByteSize } ∧
        b'.mDispatched = b.mDispatched ∧ b'.mErrorCount = b.mErrorCount ∧
        b'.mCurrentFrame = b.mCurrentFrame) := by
  constructor
  · intro hdup
    obtain ⟨found, hfound⟩ := Option.ne_none_iff_exists'.mp hdup
    refine ⟨BS_ErrorDispatcher b "Duplicate name of declaration\n", ?_, rfl, rfl, rfl, rfl, ?_⟩
    · simp [BuildArgDec, hcur, deref_some _ _ _ hframe, hfound, fail, bind, Except.bind]
    · intro hone
      exact ⟨frame, hframe, hone⟩
  · intro hnone
    have h : BuildArgDec b var (some t) =
        .ok ({ b with mSymbolTable := { b.mSymbolTable with
                mFrames := b.mSymbolTable.mFrames.set f
                  { frame with
                    mEntries := frame.mEntries ++
                      [{ mName := var, mType := t, mOffset := (frame.mTotalSize : Int),
                         mIsArg := true }],
                    mTotalSize := frame.mTotalSize + td.mByteSize } } },
             some ⟨var, t, (frame.mTotalSize : Int)⟩) := by
      simp only [BuildArgDec, RegisterStackMember, hcur, deref_some _ _ _ hframe, hnone,
        allocate_eq b var t true f frame td hcur hframe htype, bind, Except.bind, pure,
        Except.pure]
    exact ⟨_, _, h, rfl, rfl, rfl, rfl, rfl, rfl, rfl⟩

/-- Witness of C6: declaring `a : int` in the fresh global frame succeeds at offset 0, and
declaring `a` again in the resulting frame is rejected. -/
theorem BuildArgDec_duplicate_or_append_witness :
    (∃ b' argDec, BuildArgDec initialBuilder "a" (some 0) = .ok (b', some argDec) ∧
      argDec.mOffset = 0 ∧ b'.mSymbolTable.mFrames = declaredBuilder.mSymbolTable.mFrames) ∧
    (∃ b', BuildArgDec declaredBuilder "a" (some 0) = .ok (b', none) ∧
      b'.mDispatched = ["Duplicate name of declaration\n"] ∧
      b'.mSymbolTable = declaredBuilder.mSymbolTable) := by
  constructor
  · obtain ⟨b', argDec, h, _, _, hoff, hframes, _⟩ :=
      (BuildArgDec_duplicate_or_append initialBuilder "a" 0 0
        (initialBuilder.mSymbolTable.mFrames.get ⟨0, by decide⟩)
        (preseededTypes.get ⟨0, by decide⟩) rfl rfl rfl).2 (by decide)
    exact ⟨b', argDec, h, hoff, by rw [hframes, hoff]; rfl⟩
  · obtain ⟨b', h, hmsg, _, hst, _⟩ :=
      (BuildArgDec_duplicate_or_append declaredBuilder "a" 0 0
        (declaredBuilder.mSymbolTable.mFrames.get ⟨0, by decide⟩)
        (preseededTypes.get ⟨0, by decide⟩) rfl rfl rfl).1 (by decide)
    exact ⟨b', h, hmsg, hst⟩

theorem walk_undeclared (frames : List StackFrameInfo) (name : String) (idd : Exp) :
    ∀ (fuel : Nat) (cur : Option FramePtr) (depth : Int),
      undeclaredOnChain frames name fuel cur = true →
      BuildIdd.walk frames name fuel cur depth idd = .ok idd := by
  intro fuel
  induction fuel with
  | zero =>
    intro cur depth h
    cases cur with
    | none => rfl
    | some p => simp [undeclaredOnChain] at h
  | succ n ih =>
    intro cur depth h
    cases cur with
    | none => rfl
    | some p =>
      simp only [undeclaredOnChain] at h
      cases hf : frames[p]? with
      | none => simp [hf] at h
      | some frame =>
        simp only [hf, Bool.and_eq_true, Option.isNone_iff_eq_none] at h
        simp only [BuildIdd.walk, deref_some _ _ _ hf, bind, Except.bind, h.1]
        exact ih _ _ h.2

theorem lt_length_of_getElem? {α : Type} (l : List α) (i : Nat) (a : α) (h : l[i]? = some a) :
    i < l.length := by
  rcases Nat.lt_or_ge i l.length with h1 | h1
  · exact h1
  · rw [List.getElem?_eq_none h1] at h
    cases h

/-- C2. In a builder whose current frame exists, for a name that no frame on the current
frame's parent chain declares and a right-hand side whose type T is in the catalog:
`BuildIdd` returns the unbound identifier, the assignment `x = e` succeeds with result type
T and declares x in the current frame, and a later `BuildIdd(x)` in the same frame returns
an identifier of type T with frame depth 0 and a non-negative offset, the offset stored on
the assigned identifier. -/
theorem BuildBinop_set_first_use (b : BlockScriptBuilder) (x : String) (e : Exp) (t : TypePtr)
    (T : TypeDesc) (f : FramePtr) (frame : StackFrameInfo)
    (hcur : b.mCurrentFrame = some f) (hframe : b.mSymbolTable.mFrames[f]? = some frame)
    (hund : undeclaredOnChain b.mSymbolTable.mFrames x b.mSymbolTable.mFrames.length
      b.mCurrentFrame = true)
    (he : e.GetTypeDesc = some t) (hT : b.mSymbolTable.mTypes[t]? = some T) :
    BuildIdd b x = .ok (Exp.newIdd x) ∧
    ∃ b' frame',
      BuildBinop b (Exp.newIdd x) .O_SET e =
        .ok (b', some (.binop (.idd x (frame.mTotalSize : Int) 0 false (some t)) .O_SET e
                  (some t))) ∧
      b'.mCurrentFrame = b.mCurrentFrame ∧
      b'.mSymbolTable.mFrames[f]? = some frame' ∧
      frame'.FindDeclaration x =
        some { mName := x, mType := t, mOffset := (frame.mTotalSize : Int), mIsArg := false } ∧
      b'.mDispatched = b.mDispatched ∧
      BuildIdd b' x = .ok (.idd x (frame.mTotalSize : Int) 0 false (some t)) ∧
      0 ≤ (frame.mTotalSize : Int) := by
  have hidd : BuildIdd b x = .ok (Exp.newIdd x) := walk_undeclared _ _ _ _ _ _ hund
  have hlen : f < b.mSymbolTable.mFrames.length := lt_length_of_getElem? _ _ _ hframe
  obtain ⟨n, hn⟩ : ∃ n, b.mSymbolTable.mFrames.length = n + 1 :=
    Nat.exists_eq_succ_of_ne_zero (Nat.not_eq_zero_of_lt hlen)
  have hnone : frame.FindDeclaration x = none := by
    rw [hn, hcur] at hund
    simp only [undeclaredOnChain, hframe, Bool.and_eq_true, Option.isNone_iff_eq_none] at hund
    exact hund.1
  obtain ⟨frame', hdef⟩ : ∃ fr : StackFrameInfo, fr = { frame with
        mEntries := frame.mEntries ++
          [{ mName := x, mType := t, mOffset := (frame.mTotalSize : Int), mIsArg := false }],
        mTotalSize := frame.mTotalSize + T.mByteSize } := ⟨_, rfl⟩
  have hfind : frame'.FindDeclaration x =
      some { mName := x, mType := t, mOffset := (frame.mTotalSize : Int), mIsArg := false } := by
    simp only [StackFrameInfo.FindDeclaration] at hnone
    simp only [hdef, StackFrameInfo.FindDeclaration]
    rw [List.find?_append, hnone]
    simp
  have halloc := allocate_eq b x t false f frame T hcur hframe hT
  rw [← hdef] at halloc
  have hget : (b.mSymbolTable.mFrames.set f frame')[f]? = some frame' := by
    rw [List.getElem?_set_self hlen]
  refine ⟨hidd,
    { b with mSymbolTable := { b.mSymbolTable with
        mFrames := b.mSymbolTable.mFrames.set f frame' } },
    frame', ?_, ?_, hget, hfind, ?_, ?_, Int.natCast_nonneg _⟩
  · simp only [BuildBinop, Exp.newIdd, he, GetTypeDesc_idd, halloc, bind, Except.bind, pure,
      Except.pure]
    simp
  · rfl
  · rfl
  · simp only [BuildIdd, List.length_set, hn, hcur, BuildIdd.walk, deref_some _ _ _ hget, hfind,
      bind, Except.bind, pure, Except.pure]
    simp

/-- Witness of C2: `x = 5` in the fresh global frame gives `x` type int at offset 0. -/
theorem BuildBinop_set_first_use_witness :
    BuildIdd initialBuilder "x" = .ok (Exp.newIdd "x") ∧
    ∃ b' frame',
      BuildBinop initialBuilder (Exp.newIdd "x") .O_SET (.imm 5 (some 0)) =
        .ok (b', some (.binop (.idd "x" 0 0 false (some 0)) .O_SET (.imm 5 (some 0))
                  (some 0))) ∧
      b'.mCurrentFrame = some 0 ∧
      b'.mSymbolTable.mFrames[0]? = some frame' ∧
      frame'.FindDeclaration "x" =
        some { mName := "x", mType := 0, mOffset := 0, mIsArg := false } ∧
      b'.mDispatched = [] ∧
      BuildIdd b' "x" = .ok (.idd "x" 0 0 false (some 0)) ∧
      (0 : Int) ≤ 0 :=
  BuildBinop_set_first_use initialBuilder "x" (.imm 5 (some 0)) 0
    (preseededTypes.get ⟨0, by decide⟩) 0
    (initialBuilder.mSymbolTable.mFrames.get ⟨0, by decide⟩) rfl rfl (by decide) rfl rfl

/-- C3. For an identifier already bound (offset other than -1) with type T and a right-hand
side of type U, both in the catalog, `BuildBinop` with `O_SET` promotes the right-hand side
toward T; it succeeds with result type T, changing nothing in the builder, exactly when
U = T, or U is INT and T is FLOAT..FLOAT4, or U is FLOAT and T is FLOAT2..FLOAT4; in every
other case it returns null with the incompatible-types message and declares nothing. -/
theorem BuildBinop_set_declared (b : BlockScriptBuilder) (name : String)
    (offset frameOffset : Int) (isGlobal : Bool) (t u : TypePtr) (T U : TypeDesc) (rhs : Exp)
    (hoff : offset ≠ -1) (hT : b.mSymbolTable.mTypes[t]? = some T)
    (hu : rhs.GetTypeDesc = some u) (hU : b.mSymbolTable.mTypes[u]? = some U) :
    (u = t ∨ specWidens U.mAluEngine T.mAluEngine = true →
      ∃ rhs' out, AttemptTypePromotion b.mSymbolTable.mTypes rhs (some t) = .ok rhs' ∧
        out = .binop (.idd name offset frameOffset isGlobal (some t)) .O_SET rhs' (some t) ∧
        BuildBinop b (.idd name offset frameOffset isGlobal (some t)) .O_SET rhs =
          .ok (b, some out) ∧
        out.GetTypeDesc = some t) ∧
    (¬ (u = t ∨ specWidens U.mAluEngine T.mAluEngine = true) →
      ∃ b', BuildBinop b (.idd name offset frameOffset isGlobal (some t)) .O_SET rhs =
          .ok (b', none) ∧
        b'.mDispatched = b.mDispatched ++ ["Incompatible types not allowed on operation."] ∧
        b'.mSymbolTable = b.mSymbolTable ∧ b'.mCurrentFrame = b.mCurrentFrame) := by
  have hp := AttemptTypePromotion_eq b.mSymbolTable.mTypes rhs u t U T hu hU hT
  constructor
  · intro h
    refine ⟨_, _, hp, rfl, ?_, rfl⟩
    by_cases hw : specWidens U.mAluEngine T.mAluEngine = true
    · simp [BuildBinop, hu, hoff, hp, hw, bind, Except.bind, pure, Except.pure]
    · have hut : u = t := by tauto
      simp [BuildBinop, hu, hoff, hp, hw, hut, bind, Except.bind, pure, Except.pure]
  · intro h
    have hw : specWidens U.mAluEngine T.mAluEngine = false := by
      cases hh : specWidens U.mAluEngine T.mAluEngine <;> simp_all
    have hut : ¬ t = u := fun e => h (Or.inl e.symm)
    refine ⟨BS_ErrorDispatcher b "Incompatible types not allowed on operation.", ?_, rfl, rfl,
      rfl⟩
    simp [BuildBinop, hu, hoff, hp, hw, hut, fail, bind, Except.bind, pure, Except.pure]

/-- Witness of C3: after `x = 5`, the identifier `x` resolves to int and `x = 2.0` fails
with the incompatible-types message (0x40000000 is the bit pattern of 2.0). -/
theorem BuildBinop_set_declared_witness :
    BuildIdd assignedBuilder "x" = .ok (.idd "x" 0 0 false (some 0)) ∧
    ∃ b', BuildBinop assignedBuilder (.idd "x" 0 0 false (some 0)) .O_SET
          (.imm 0x40000000 (some 1)) = .ok (b', none) ∧
      b'.mDispatched = ["Incompatible types not allowed on operation."] ∧
      b'.mSymbolTable = assignedBuilder.mSymbolTable ∧ b'.mCurrentFrame = some 0 :=
  ⟨rfl, (BuildBinop_set_declared assignedBuilder "x" 0 0 false 0 1
    (preseededTypes.get ⟨0, by decide⟩) (preseededTypes.get ⟨1, by decide⟩)
    (.imm 0x40000000 (some 1)) (by decide) rfl rfl rfl).2 (by decide)⟩

theorem axis_valid (c : Char) (i : Nat) (h : specAxisIndex c = some i) :
    ¬ (c.toNat < 'w'.toNat ∨ c.toNat > 'z'.toNat) ∧
      ((c.toNat : Int) - ('w'.toNat : Int) + 3) % 4 = (i : Int) := by
  unfold specAxisIndex at h
  split_ifs at h with h1 h2 h3 h4 <;> simp at h <;> subst h <;> subst_vars <;> decide

theorem axis_invalid (c : Char) (h : specAxisIndex c = none) :
    c.toNat < 'w'.toNat ∨ c.toNat > 'z'.toNat := by
  by_contra hc
  have hw : ('w'.toNat) = 119 := by decide
  have hz : ('z'.toNat) = 122 := by decide
  rw [hw, hz] at hc
  have hr : 119 ≤ c.toNat ∧ c.toNat ≤ 122 := by omega
  have hcases : c.toNat = 119 ∨ c.toNat = 120 ∨ c.toNat = 121 ∨ c.toNat = 122 := by omega
  have hc' := Char.ofNat_toNat c
  rcases hcases with h1 | h1 | h1 | h1 <;> rw [h1] at hc' <;> subst hc' <;>
    simp [specAxisIndex] at h

theorem swizzleScan_invalid (cs : List Char) :
    ∀ m : Int, (∃ c ∈ cs, specAxisIndex c = none) → BuildBinop.swizzleScan cs m = none := by
  induction cs with
  | nil => intro m h; simp at h
  | cons c cs ih =>
    intro m h
    cases hc : specAxisIndex c with
    | none => simp only [BuildBinop.swizzleScan, axis_invalid c hc, if_true]
    | some i =>
      have hv := axis_valid c i hc
      simp only [BuildBinop.swizzleScan, hv.1, if_false]
      apply ih
      obtain ⟨c', hmem, hnone⟩ := h
      rcases List.mem_cons.mp hmem with h1 | h1
      · subst h1; rw [hc] at hnone; cases hnone
      · exact ⟨c', h1, hnone⟩

theorem swizzleScan_valid (cs : List Char) :
    ∀ m : Int, (∀ c ∈ cs, specAxisIndex c ≠ none) →
      ∃ r, BuildBinop.swizzleScan cs m = some r ∧ m ≤ r ∧
        (∀ c ∈ cs, ∀ i, specAxisIndex c = some i → (i : Int) ≤ r) ∧
        (∀ d : Int, m < d → (∀ c ∈ cs, ∀ i, specAxisIndex c = some i → (i : Int) < d) → r < d) := by
  induction cs with
  | nil => intro m _; exact ⟨m, rfl, le_refl _, by simp, fun d hd _ => hd⟩
  | cons c cs ih =>
    intro m h
    obtain ⟨i, hi⟩ := Option.ne_none_iff_exists'.mp (h c (List.mem_cons_self _ _))
    have hv := axis_valid c i hi
    obtain ⟨r, hr, hle, hub, hlt⟩ :=
      ih (if (i : Int) > m then (i : Int) else m) (fun c' hc' => h c' (List.mem_cons_of_mem _ hc'))
    refine ⟨r, ?_, ?_, ?_, ?_⟩
    · simp only [BuildBinop.swizzleScan, hv.1, if_false, hv.2]
      exact hr
    · split_ifs at hle <;> omega
    · intro c' hc' j hj
      rcases List.mem_cons.mp hc' with h1 | h1
      · subst h1
        rw [hi] at hj
        cases hj
        split_ifs at hle <;> omega
      · exact hub c' h1 j hj
    · intro d hd hall
      apply hlt d
      · have := hall c (List.mem_cons_self _ _) i hi
        split_ifs <;> omega
      · exact fun c' hc' j hj => hall c' (List.mem_cons_of_mem _ hc') j hj

theorem GetTypeByName_preseeded (st : SymbolTable) (extra : List TypeDesc)
    (h : st.mTypes = preseededTypes ++ extra) :
    st.GetTypeByName "int" = some 0 ∧ st.GetTypeByName "float" = some 1 ∧
    st.GetTypeByName "float2" = some 2 ∧ st.GetTypeByName "float3" = some 3 ∧
    st.GetTypeByName "float4" = some 4 ∧ st.GetTypeByName "string" = some 5 := by
  simp [SymbolTable.GetTypeByName, h, preseededTypes, List.findIdx_cons]

/-- C9. For every expression of a VECTOR type of the catalog, `BuildBinop` with `O_DOT` returns
null and dispatches one message whenever the swizzle name has more than 4 characters,
contains a character that is no axis, or contains an axis whose index is at or beyond the
dimensionality of the vector; the symbol table is unchanged. -/
theorem BuildBinop_swizzle_rejects (b : BlockScriptBuilder) (v : Exp) (t : TypePtr)
    (td : TypeDesc) (name : String) (o fo : Int) (g : Bool) (ty : Option TypePtr)
    (hv : v.GetTypeDesc = some t) (ht : b.mSymbolTable.mTypes[t]? = some td)
    (hvec : td.mModifier = .M_VECTOR)
    (hbad : name.length > 4 ∨ (∃ c ∈ name.toList, specAxisIndex c = none) ∨
      (∃ c ∈ name.toList, ∃ i, specAxisIndex c = some i ∧ td.mModifierProperty ≤ (i : Int))) :
    ∃ b' msg, BuildBinop b v .O_DOT (.idd name o fo g ty) = .ok (b', none) ∧
      b'.mDispatched = b.mDispatched ++ [msg] ∧ b'.mErrorCount = b.mErrorCount + 1 ∧
      b'.mSymbolTable = b.mSymbolTable := by
  have key : ∃ msg, BuildBinop b v .O_DOT (.idd name o fo g ty) =
      .ok (BS_ErrorDispatcher b msg, none) := by
    simp only [BuildBinop, hv, deref_some _ _ _ ht, hvec, bind, Except.bind, fail]
    simp only [reduceCtorEq, if_false, if_true]
    cases hn : v.isBinopWith .O_DOT with
    | true => exact ⟨_, rfl⟩
    | false =>
      simp only [Bool.false_eq_true, if_false]
      by_cases hlen : name.length > 4
      · simp only [hlen, if_true]; exact ⟨_, rfl⟩
      · simp only [hlen, if_false]
        by_cases hinv : ∃ c ∈ name.toList, specAxisIndex c = none
        · rw [swizzleScan_invalid _ _ hinv]; exact ⟨_, rfl⟩
        · have hall : ∀ c ∈ name.toList, specAxisIndex c ≠ none := by
            intro c hc hnone; exact hinv ⟨c, hc, hnone⟩
          obtain ⟨r, hr, _, hub, _⟩ := swizzleScan_valid name.toList (-1) hall
          rw [hr]
          have hge : r ≥ td.mModifierProperty := by
            rcases hbad with h1 | h1 | ⟨c, hc, i, hi, hd⟩
            · exact absurd h1 hlen
            · exact absurd h1 hinv
            · have := hub c hc i hi
              omega
          simp only [hge, if_true]; exact ⟨_, rfl⟩
  obtain ⟨msg, h⟩ := key
  exact ⟨_, msg, h, rfl, rfl, rfl⟩

theorem swizzleTypeName_float :
    BuildBinop.swizzleTypeName "float" 1 = "float" ∧
    BuildBinop.swizzleTypeName "float" 2 = "float2" ∧
    BuildBinop.swizzleTypeName "float" 3 = "float3" ∧
    BuildBinop.swizzleTypeName "float" 4 = "float4" := by
  decide

theorem preseeded_getElem? (types extra : List TypeDesc) (h : types = preseededTypes ++ extra)
    (i : Nat) (td : TypeDesc) (hi : preseededTypes[i]? = some td) : types[i]? = some td := by
  subst h
  rw [List.getElem?_append_left (lt_length_of_getElem? _ _ _ hi)]
  exact hi

/-- C8. With the pre-seeded catalog (followed by any later created types), for every
expression, not itself a dot expression, whose type is a pre-seeded VECTOR type of
dimensionality d, and every swizzle name of 1 to 4 axis characters whose indices are all
below d, `BuildBinop` with `O_DOT` returns a node whose type is the scalar child type of the
vector when the name has length 1, and the VECTOR type of the same child with
dimensionality equal to the length of the name when that is at least 2. -/
theorem BuildBinop_swizzle_type (b : BlockScriptBuilder) (extra : List TypeDesc) (v : Exp)
    (t : TypePtr) (td : TypeDesc) (name : String) (o fo : Int) (g : Bool)
    (ty : Option TypePtr)
    (hcat : b.mSymbolTable.mTypes = preseededTypes ++ extra)
    (hv : v.GetTypeDesc = some t) (ht : preseededTypes[t]? = some td)
    (hvec : td.mModifier = .M_VECTOR) (hdot : v.isBinopWith .O_DOT = false)
    (hlen : 1 ≤ name.length ∧ name.length ≤ 4)
    (haxes : ∀ c ∈ name.toList, ∃ i, specAxisIndex c = some i ∧ (i : Int) < td.mModifierProperty) :
    ∃ r R, BuildBinop b v .O_DOT (.idd name o fo g ty) =
        .ok (b, some (.binop v .O_DOT (.idd name o 0 false ty) (some r))) ∧
      b.mSymbolTable.mTypes[r]? = some R ∧
      (name.length = 1 → some r = td.mChild) ∧
      (2 ≤ name.length → R.mModifier = .M_VECTOR ∧ R.mModifierProperty = (name.length : Int) ∧
        R.mChild = td.mChild) := by
  have hall : ∀ c ∈ name.toList, specAxisIndex c ≠ none := by
    intro c hc hnone
    obtain ⟨i, hi, _⟩ := haxes c hc
    rw [hi] at hnone; cases hnone
  obtain ⟨m, hm, _, _, hlt⟩ := swizzleScan_valid name.toList (-1) hall
  have hnames := GetTypeByName_preseeded b.mSymbolTable extra hcat
  have ht' := preseeded_getElem? _ _ hcat t td ht
  have hchild : td.mChild = some 1 ∧ (-1 : Int) < td.mModifierProperty := by
    rcases t with _ | _ | _ | _ | _ | _ | t <;> simp [preseededTypes] at ht <;> subst ht <;>
      simp at hvec <;> simp
  obtain ⟨hch, hpos⟩ := hchild
  have hmd : ¬ (m ≥ td.mModifierProperty) := by
    have := hlt td.mModifierProperty hpos (fun c hc i hi => by
      obtain ⟨j, hj, hjd⟩ := haxes c hc
      rw [hi] at hj; cases hj; exact hjd)
    omega
  have hfloat : b.mSymbolTable.mTypes[1]? = some (preseededTypes.get ⟨1, by decide⟩) :=
    preseeded_getElem? _ _ hcat 1 _ rfl
  have hl4 : ¬ name.length > 4 := by omega
  have hbuild : BuildBinop b v .O_DOT (.idd name o fo g ty) =
      .ok (b, some (.binop v .O_DOT (.idd name o 0 false ty)
        (b.mSymbolTable.GetTypeByName (BuildBinop.swizzleTypeName "float" name.length)))) := by
    simp only [BuildBinop, hv, deref_some _ _ _ ht', hvec, bind, Except.bind, fail, hdot, hl4,
      hm, hmd, hch, deref_some _ _ _ hfloat, pure, Except.pure, reduceCtorEq, if_false, if_true,
      Bool.false_eq_true]
    rfl
  obtain ⟨h1, h2⟩ := hlen
  obtain ⟨_, hn1, hn2, hn3, hn4, _⟩ := hnames
  obtain ⟨s1, s2, s3, s4⟩ := swizzleTypeName_float
  have hcases : name.length = 1 ∨ name.length = 2 ∨ name.length = 3 ∨ name.length = 4 := by
    omega
  rcases hcases with hn | hn | hn | hn <;> rw [hn] at hbuild
  · rw [s1, hn1] at hbuild
    exact ⟨1, _, hbuild, hfloat, fun _ => hch.symm, fun h => by omega⟩
  · rw [s2, hn2] at hbuild
    refine ⟨2, preseededTypes.get ⟨2, by decide⟩, hbuild, preseeded_getElem? _ _ hcat 2 _ rfl,
      fun h => by omega, fun _ => ?_⟩
    rw [hn, hch]; exact ⟨rfl, rfl, rfl⟩
  · rw [s3, hn3] at hbuild
    refine ⟨3, preseededTypes.get ⟨3, by decide⟩, hbuild, preseeded_getElem? _ _ hcat 3 _ rfl,
      fun h => by omega, fun _ => ?_⟩
    rw [hn, hch]; exact ⟨rfl, rfl, rfl⟩
  · rw [s4, hn4] at hbuild
    refine ⟨4, preseededTypes.get ⟨4, by decide⟩, hbuild, preseeded_getElem? _ _ hcat 4 _ rfl,
      fun h => by omega, fun _ => ?_⟩
    rw [hn, hch]; exact ⟨rfl, rfl, rfl⟩

@[simp] theorem GetTypeDesc_strImm (v : String) (t : Option TypePtr) :
    (Exp.strImm v t).GetTypeDesc = t := rfl

theorem badSize_eq (types : List TypeDesc) (rhs : Exp)
    (hwf : ∀ u, rhs.GetTypeDesc = some u → u < types.length) :
    BuildBinopArrayAccess.badSize types rhs = .ok (!specIsIntImmediate types rhs) := by
  unfold BuildBinopArrayAccess.badSize
  cases rhs with
  | imm v ty =>
    cases ty with
    | none => rfl
    | some u =>
      have hu := hwf u rfl
      have hget : types[u]? = some types[u] := List.getElem?_eq_getElem hu
      simp [Exp.GetExpType, specIsIntImmediate, hget, deref_some _ _ _ hget, bind, Except.bind,
        pure, Except.pure]
  | idd n o f g ty => cases ty <;> simp [Exp.GetExpType, specIsIntImmediate]
  | binop l op r ty => cases ty <;> simp [Exp.GetExpType, specIsIntImmediate]
  | funCall a n d ty => cases ty <;> simp [Exp.GetExpType, specIsIntImmediate]
  | strImm s ty => cases ty <;> simp [Exp.GetExpType, specIsIntImmediate]
  | unop op e ty => cases ty <;> simp [Exp.GetExpType, specIsIntImmediate]

/-- C10. When the left-hand side of `[]` is an identifier whose name resolves to a type E:
for an immediate n whose type is of ALU class INT the call returns an array-constructor
node typed with a newly created ARRAY type of element count n and child E, the identifier's
offset and frame depth being reset to -1, and applying `[]` with an int immediate m to that
node yields an array-constructor node whose type is a new ARRAY of m elements whose child is
the previous array type; for every right-hand side that is not an int-typed immediate the
call returns null with the constant-int message and creates no type. -/
theorem BuildBinop_array_constructor (b : BlockScriptBuilder) (name : String) (o fo : Int)
    (g : Bool) (ty : Option TypePtr) (E : TypePtr)
    (hE : b.GetTypeByName name = some E) :
    (∀ (n : Int) (u : TypePtr) (U : TypeDesc),
      b.mSymbolTable.mTypes[u]? = some U → U.mAluEngine = .E_INT →
      ∃ R b1 out1,
        BuildBinop b (.idd name o fo g ty) .O_ACCESS (.imm n (some u)) = .ok (b1, some out1) ∧
        out1 = .binop (.idd name (-1) (-1) g ty) .O_ARRAY_CONSTRUCTOR (.imm n (some u))
                 (some b.mSymbolTable.mTypes.length) ∧
        b1.mSymbolTable.mTypes = b.mSymbolTable.mTypes ++ [R] ∧
        b1.mDispatched = b.mDispatched ∧
        R.mModifier = .M_ARRAY ∧ R.mModifierProperty = n ∧ R.mChild = some E ∧
        ∀ (m : Int), ∃ R2 b2,
          BuildBinop b1 out1 .O_ACCESS (.imm m (some u)) =
            .ok (b2, some (.binop out1 .O_ARRAY_CONSTRUCTOR (.imm m (some u))
                      (some (b.mSymbolTable.mTypes.length + 1)))) ∧
          b2.mSymbolTable.mTypes = b.mSymbolTable.mTypes ++ [R, R2] ∧
          R2.mModifier = .M_ARRAY ∧ R2.mModifierProperty = m ∧
          R2.mChild = some b.mSymbolTable.mTypes.length) ∧
    (∀ rhs : Exp, (∀ u, rhs.GetTypeDesc = some u → u < b.mSymbolTable.mTypes.length) →
      specIsIntImmediate b.mSymbolTable.mTypes rhs = false →
      ∃ b', BuildBinop b (.idd name o fo g ty) .O_ACCESS rhs = .ok (b', none) ∧
        b'.mDispatched =
          b.mDispatched ++ ["Array constructor size type must be a constant int"] ∧
        b'.mSymbolTable = b.mSymbolTable) ∧
    (∀ rhs : Exp, specIsIntImmediate b.mSymbolTable.mTypes rhs = true ↔
      ∃ n u U, rhs = .imm n (some u) ∧ b.mSymbolTable.mTypes[u]? = some U ∧
        U.mAluEngine = .E_INT) := by
  refine ⟨?_, ?_, ?_⟩
  · intro n u U hU hint
    have hbad : BuildBinopArrayAccess.badSize b.mSymbolTable.mTypes (.imm n (some u)) =
        .ok false := by
      simp [BuildBinopArrayAccess.badSize, Exp.GetExpType, deref_some _ _ _ hU, hint, bind,
        Except.bind, pure, Except.pure]
    obtain ⟨R, hR⟩ : ∃ R : TypeDesc, R =
        { mName := name, mModifier := .M_ARRAY, mModifierProperty := n, mAluEngine := .E_NONE,
          mChild := some E, mStructDef := none,
          mByteSize := b.mSymbolTable.sizeOfNew .M_ARRAY (some E) n none } := ⟨_, rfl⟩
    obtain ⟨b1, hb1⟩ : ∃ b1 : BlockScriptBuilder, b1 =
        { b with mSymbolTable := { b.mSymbolTable with
            mTypes := b.mSymbolTable.mTypes ++ [R] } } := ⟨_, rfl⟩
    have h1 : BuildBinop b (.idd name o fo g ty) .O_ACCESS (.imm n (some u)) =
        .ok (b1, some (.binop (.idd name (-1) (-1) g ty) .O_ARRAY_CONSTRUCTOR (.imm n (some u))
                 (some b.mSymbolTable.mTypes.length))) := by
      simp [BuildBinop, BuildBinopArrayAccess, hE, hbad, SymbolTable.CreateArrayType,
        SymbolTable.CreateType, Exp.GetExpType, BuildBinopArrayAccess.arrayCount, bind,
        Except.bind, pure, Except.pure, hb1, hR]
    refine ⟨R, b1, _, h1, rfl, by rw [hb1], by rw [hb1], by rw [hR], by rw [hR], by rw [hR], ?_⟩
    intro m
    have hU1 : b1.mSymbolTable.mTypes[u]? = some U := by
      rw [hb1]
      show (b.mSymbolTable.mTypes ++ [R])[u]? = some U
      rw [List.getElem?_append_left (lt_length_of_getElem? _ _ _ hU)]; exact hU
    have hR1 : b1.mSymbolTable.mTypes[b.mSymbolTable.mTypes.length]? = some R := by
      rw [hb1]
      show (b.mSymbolTable.mTypes ++ [R])[b.mSymbolTable.mTypes.length]? = some R
      simp
    have hbad1 : BuildBinopArrayAccess.badSize b1.mSymbolTable.mTypes (.imm m (some u)) =
        .ok false := by
      simp [BuildBinopArrayAccess.badSize, Exp.GetExpType, deref_some _ _ _ hU1, hint, bind,
        Except.bind, pure, Except.pure]
    obtain ⟨R2, hR2⟩ : ∃ R2 : TypeDesc, R2 =
        { mName := R.mName, mModifier := .M_ARRAY, mModifierProperty := m,
          mAluEngine := .E_NONE, mChild := some b.mSymbolTable.mTypes.length,
          mStructDef := none,
          mByteSize := b1.mSymbolTable.sizeOfNew .M_ARRAY (some b.mSymbolTable.mTypes.length) m
            none } := ⟨_, rfl⟩
    refine ⟨R2, { b1 with mSymbolTable := { b1.mSymbolTable with
            mTypes := b1.mSymbolTable.mTypes ++ [R2] } }, ?_, ?_, by rw [hR2], by rw [hR2],
            by rw [hR2]⟩
    · have hlen1 : b1.mSymbolTable.mTypes.length = b.mSymbolTable.mTypes.length + 1 := by
        rw [hb1]; simp
      simp [BuildBinop, BuildBinopArrayAccess, hbad1, deref_some _ _ _ hR1,
        SymbolTable.CreateArrayType, SymbolTable.CreateType, BuildBinopArrayAccess.arrayCount,
        bind, Except.bind, pure, Except.pure, hR2, hlen1]
    · rw [hb1]; simp
  · intro rhs hwf hnot
    refine ⟨BS_ErrorDispatcher b "Array constructor size type must be a constant int", ?_,
      rfl, rfl⟩
    simp [BuildBinop, BuildBinopArrayAccess, hE, badSize_eq _ _ hwf, hnot, fail, bind,
      Except.bind]
  · intro rhs
    constructor
    · intro h
      cases rhs with
      | imm v ty =>
        cases ty with
        | none => simp [specIsIntImmediate] at h
        | some u =>
          cases hu : b.mSymbolTable.mTypes[u]? with
          | none => simp [specIsIntImmediate, hu] at h
          | some U =>
            simp [specIsIntImmediate, hu] at h
            exact ⟨v, u, U, rfl, hu, h⟩
      | idd n o f g ty => simp [specIsIntImmediate] at h
      | binop l op r ty => simp [specIsIntImmediate] at h
      | funCall a n d ty => simp [specIsIntImmediate] at h
      | strImm s ty => simp [specIsIntImmediate] at h
      | unop op e ty => simp [specIsIntImmediate] at h
    · rintro ⟨n, u, U, rfl, hU, hint⟩
      simp [specIsIntImmediate, hU, hint]

theorem sameTables_refl (b : BlockScriptBuilder) : sameTables b b := ⟨rfl, rfl, rfl, rfl⟩

theorem sameTables_trans {a b c : BlockScriptBuilder} (h1 : sameTables a b)
    (h2 : sameTables b c) : sameTables a c :=
  ⟨h2.1.trans h1.1, h2.2.1.trans h1.2.1, h2.2.2.1.trans h1.2.2.1, h2.2.2.2.trans h1.2.2.2⟩

theorem modifyFrame_types (st : SymbolTable) (p : FramePtr) (g : StackFrameInfo → StackFrameInfo) :
    (st.modifyFrame p g).mTypes = st.mTypes ∧ (st.modifyFrame p g).mFunTable = st.mFunTable := by
  unfold SymbolTable.modifyFrame
  split <;> exact ⟨rfl, rfl⟩

theorem updateCurrentFrame_same (b b' : BlockScriptBuilder) (g : StackFrameInfo → StackFrameInfo)
    (h : b.updateCurrentFrame g = .ok b') :
    sameTables b b' ∧ b'.mCurrentFrame = b.mCurrentFrame ∧ b'.mDispatched = b.mDispatched := by
  unfold BlockScriptBuilder.updateCurrentFrame at h
  split at h
  · cases h
  · split at h
    · cases h
    · cases h
      exact ⟨⟨(modifyFrame_types _ _ _).1, (modifyFrame_types _ _ _).2, rfl, rfl⟩, rfl, rfl⟩

theorem allocate_same (b b' : BlockScriptBuilder) (name : String) (t : TypePtr) (isArg : Bool)
    (off : Int) (h : b.allocate name t isArg = .ok (b', off)) :
    sameTables b b' ∧ b'.mCurrentFrame = b.mCurrentFrame ∧ b'.mDispatched = b.mDispatched := by
  unfold BlockScriptBuilder.allocate at h
  simp only [bind, Except.bind, pure, Except.pure] at h
  split at h
  · cases h
  · split at h
    · cases h
    · split at h
      · cases h
      · rename_i b1 hb1
        cases h
        exact updateCurrentFrame_same _ _ _ hb1

theorem BuildArgDec_same (b b' : BlockScriptBuilder) (var : String) (t : TypePtr)
    (r : Option ArgDec) (h : BuildArgDec b var (some t) = .ok (b', r)) :
    sameTables b b' ∧ b'.mCurrentFrame = b.mCurrentFrame ∧
      (∀ a, r = some a → a.mType = t ∧ b'.mDispatched = b.mDispatched) := by
  unfold BuildArgDec at h
  simp only [bind, Except.bind, pure, Except.pure, RegisterStackMember] at h
  split at h
  · cases h
  · split at h
    · simp only [fail, Except.ok.injEq, Prod.mk.injEq] at h
      obtain ⟨h1, h2⟩ := h
      subst h1 h2
      exact ⟨⟨rfl, rfl, rfl, rfl⟩, rfl, by simp⟩
    · split at h
      · cases h
      · rename_i v hv
        obtain ⟨b1, off⟩ := v
        simp only [Except.ok.injEq, Prod.mk.injEq] at h
        obtain ⟨h1, h2⟩ := h
        subst h1 h2
        have := allocate_same _ _ _ _ _ _ hv
        exact ⟨this.1, this.2.1, fun a ha => by cases ha; exact ⟨rfl, this.2.2⟩⟩

theorem declareArgs_ok (args : List (String × String)) :
    ∀ (b b' : BlockScriptBuilder) (l : ArgList),
      CreateIntrinsicFunction.declareArgs b args = .ok (b', some l) →
      sameTables b b' ∧ b'.mDispatched = b.mDispatched ∧
        l.map (fun a => some a.mType) =
          args.map (fun a => b.mSymbolTable.GetTypeByName a.1) := by
  induction args with
  | nil =>
    intro b b' l h
    simp only [CreateIntrinsicFunction.declareArgs, Except.ok.injEq, Prod.mk.injEq,
      Option.some.injEq] at h
    obtain ⟨h1, h2⟩ := h
    subst h1 h2
    exact ⟨sameTables_refl _, rfl, rfl⟩
  | cons a rest ih =>
    intro b b' l h
    obtain ⟨typeName, argName⟩ := a
    simp only [CreateIntrinsicFunction.declareArgs, BlockScriptBuilder.GetTypeByName] at h
    cases ht : b.mSymbolTable.GetTypeByName typeName with
    | none => simp [ht] at h
    | some t =>
      simp only [ht, bind, Except.bind, pure, Except.pure] at h
      cases hd : BuildArgDec b argName (some t) with
      | error e => simp [hd] at h
      | ok v =>
        obtain ⟨b1, r⟩ := v
        simp only [hd] at h
        cases r with
        | none => simp at h
        | some a1 =>
          simp only at h
          cases hrest : CreateIntrinsicFunction.declareArgs b1 rest with
          | error e => simp [hrest] at h
          | ok w =>
            obtain ⟨b2, tail⟩ := w
            simp only [hrest, Except.ok.injEq, Prod.mk.injEq] at h
            obtain ⟨h1, h2⟩ := h
            subst h1
            cases tail with
            | none => simp at h2
            | some tl =>
              simp only [Option.map_some', Option.some.injEq] at h2
              subst h2
              obtain ⟨hs1, _, ha1⟩ := BuildArgDec_same _ _ _ _ _ hd
              obtain ⟨hs2, hd2, hl⟩ := ih b1 b2 tl hrest
              obtain ⟨hty, hmsg⟩ := ha1 a1 rfl
              refine ⟨sameTables_trans hs1 hs2, hd2.trans hmsg, ?_⟩
              simp only [List.map_cons, hty, ht, hl]
              have : b1.mSymbolTable.GetTypeByName = b.mSymbolTable.GetTypeByName := by
                funext n
                simp only [SymbolTable.GetTypeByName, hs1.1]
              rw [this]

theorem set_length_append {α : Type} (l : List α) (a c : α) :
    (l ++ [a]).set l.length c = l ++ [c] := by
  induction l with
  | nil => rfl
  | cons x xs ih => simp [ih]

theorem BuildStmtFunDec_ok (b b' : BlockScriptBuilder) (argList : ArgList)
    (returnIdd nameIdd : String) (p : FunDecPtr)
    (h : BuildStmtFunDec b argList returnIdd nameIdd = .ok (b', some p)) :
    ∃ rt dec, b.mSymbolTable.GetTypeByName returnIdd = some rt ∧ p = b.mFunDecs.length ∧
      b'.mFunDecs = b.mFunDecs ++ [dec] ∧ dec.mReturnType = some rt ∧
      dec.mDesc = some b.mSymbolTable.mFunTable.length ∧
      b'.mSymbolTable.mFunTable = b.mSymbolTable.mFunTable ++
        [{ mName := nameIdd, mArgTypes := argList.map (fun a => a.mType), mDec := p,
           mCallback := none }] ∧
      b'.mSymbolTable.mTypes = b.mSymbolTable.mTypes ∧ b'.mInFunBody = b.mInFunBody ∧
      b'.mDispatched = b.mDispatched ∧
      b.mSymbolTable.mFunTable.any
        (fun d => d.mName == nameIdd && d.mArgTypes == argList.map (fun a => a.mType)) = false := by
  simp only [BuildStmtFunDec, BlockScriptBuilder.GetTypeByName] at h
  cases hrt : b.mSymbolTable.GetTypeByName returnIdd with
  | none => simp [hrt, fail] at h
  | some rt =>
    simp only [hrt, bind, Except.bind, pure, Except.pure] at h
    split at h
    · cases h
    · rename_i b2 hb2
      obtain ⟨hs, _, hmsg⟩ := updateCurrentFrame_same _ _ _ hb2
      obtain ⟨hs1, hs2, hs3, hs4⟩ := hs
      simp only [SymbolTable.CreateFunctionDescription, hs2] at h
      cases hany : b.mSymbolTable.mFunTable.any
          (fun d => d.mName == nameIdd && d.mArgTypes == argList.map (fun a => a.mType)) with
      | true => simp [hany, fail] at h
      | false =>
        simp only [hany, Bool.false_eq_true, if_false, Except.ok.injEq, Prod.mk.injEq,
          Option.some.injEq] at h
        obtain ⟨h1, h2⟩ := h
        subst h1 h2
        refine ⟨rt, (⟨argList, returnIdd, nameIdd, some rt, b.mCurrentFrame,
          some b.mSymbolTable.mFunTable.length, none⟩ : StmtFunDec),
          rfl, rfl, ?_, rfl, rfl, rfl, hs1, hs4, hmsg, rfl⟩
        simp only [hs3, store]
        exact set_length_append _ _ _

theorem deref_length_append {α : Type} (l : List α) (a : α) :
    deref (l ++ [a]) (some l.length) = .ok a := by
  simp [deref]

theorem PopFrame_same (b b' : BlockScriptBuilder) (h : PopFrame b = .ok b') :
    b'.mSymbolTable = b.mSymbolTable ∧ b'.mFunDecs = b.mFunDecs ∧
      b'.mInFunBody = b.mInFunBody ∧ b'.mDispatched = b.mDispatched := by
  unfold PopFrame at h
  simp only [bind, Except.bind, pure, Except.pure] at h
  split at h
  · cases h
  · cases h
    exact ⟨rfl, rfl, rfl, rfl⟩

theorem BindIntrinsic_ok (b b' : BlockScriptBuilder) (fd : List StmtFunDec) (dec : StmtFunDec)
    (ft : List FunDesc) (desc : FunDesc) (cb : FunCallback)
    (hfd : b.mFunDecs = fd ++ [dec]) (hdesc : dec.mDesc = some ft.length)
    (hft : b.mSymbolTable.mFunTable = ft ++ [desc])
    (h : BindIntrinsic b fd.length cb = .ok b') :
    b'.mSymbolTable.mFunTable = ft ++ [{ desc with mCallback := some cb }] ∧
      b'.mFunDecs = b.mFunDecs ∧ b'.mSymbolTable.mTypes = b.mSymbolTable.mTypes ∧
      b'.mInFunBody = false ∧ b'.mDispatched = b.mDispatched := by
  unfold BindIntrinsic at h
  rcases Bool.eq_false_or_eq_true b.mInFunBody with hin | hin
  · simp only [hin, bind, Except.bind, pure, Except.pure, hfd, deref_length_append, hdesc, hft,
      throw, throwThe, MonadExceptOf.throw, Bool.true_eq_false, if_false] at h
    split at h
    · cases h
    · rename_i b2 hpop
      simp only [Except.ok.injEq] at h
      subst h
      obtain ⟨h1, h2, _, h4⟩ := PopFrame_same _ _ hpop
      refine ⟨?_, ?_, ?_, rfl, h4⟩
      · show b2.mSymbolTable.mFunTable = _
        rw [h1]
        simp only [store]
        exact set_length_append _ _ _
      · show b2.mFunDecs = _
        rw [h2, hfd]
      · show b2.mSymbolTable.mTypes = _
        rw [h1]
  · simp [hin, bind, Except.bind, throw, throwThe, MonadExceptOf.throw] at h

theorem StartNewFunction_true (b b1 : BlockScriptBuilder) (h : StartNewFunction b = (b1, true)) :
    b.mInFunBody = false ∧ b1.mInFunBody = true ∧
      b1.mSymbolTable.mTypes = b.mSymbolTable.mTypes ∧
      b1.mSymbolTable.mFunTable = b.mSymbolTable.mFunTable ∧ b1.mFunDecs = b.mFunDecs ∧
      b1.mDispatched = b.mDispatched := by
  unfold StartNewFunction at h
  rcases Bool.eq_false_or_eq_true b.mInFunBody with hb | hb
  · simp [hb] at h
  · simp only [hb, Bool.false_eq_true, if_false, Prod.mk.injEq, and_true] at h
    subst h
    refine ⟨hb, rfl, ?_, ?_, rfl, rfl⟩
    · simp only [StartNewFrame, SymbolTable.CreateFrame]
      exact (modifyFrame_types _ _ _).1
    · simp only [StartNewFrame, SymbolTable.CreateFrame]
      exact (modifyFrame_types _ _ _).2

theorem CreateIntrinsicFunction_ok (b b' : BlockScriptBuilder) (funName : String)
    (args : List (String × String)) (returnType : String) (cb : FunCallback)
    (h : CreateIntrinsicFunction b funName args returnType cb = .ok (b', true)) :
    ∃ rt argTypes dec, b.mSymbolTable.GetTypeByName returnType = some rt ∧
      args.map (fun a => b.mSymbolTable.GetTypeByName a.1) = argTypes.map some ∧
      b'.mSymbolTable.mFunTable = b.mSymbolTable.mFunTable ++
        [{ mName := funName, mArgTypes := argTypes, mDec := b.mFunDecs.length,
           mCallback := some cb }] ∧
      b'.mFunDecs = b.mFunDecs ++ [dec] ∧ dec.mReturnType = some rt ∧
      b'.mSymbolTable.mTypes = b.mSymbolTable.mTypes ∧
      b'.mInFunBody = false ∧ b'.mDispatched = b.mDispatched ∧
      b.mSymbolTable.mFunTable.any
        (fun d => d.mName == funName && d.mArgTypes == argTypes) = false := by
  simp only [CreateIntrinsicFunction, BlockScriptBuilder.GetTypeByName] at h
  cases hrt : b.mSymbolTable.GetTypeByName returnType with
  | none => simp [hrt] at h
  | some rt =>
    simp only [hrt] at h
    cases hs : StartNewFunction b with
    | mk b1 ok1 =>
      cases ok1 with
      | false => simp [hs] at h
      | true =>
        simp only [hs, bind, Except.bind, pure, Except.pure] at h
        obtain ⟨_, hin1, hty1, hft1, hfd1, hmsg1⟩ := StartNewFunction_true _ _ hs
        cases hda : CreateIntrinsicFunction.declareArgs b1 args with
        | error e => simp [hda] at h
        | ok v =>
          obtain ⟨b2, al⟩ := v
          simp only [hda] at h
          cases al with
          | none => simp at h
          | some l =>
            simp only at h
            obtain ⟨⟨hty2, hft2, hfd2, hin2⟩, hmsg2, hl⟩ := declareArgs_ok _ _ _ _ hda
            cases hfdec : BuildStmtFunDec b2 l returnType funName with
            | error e => simp [hfdec] at h
            | ok w =>
              obtain ⟨b3, fdp⟩ := w
              simp only [hfdec] at h
              cases fdp with
              | none => simp at h
              | some p =>
                simp only at h
                obtain ⟨rt3, dec, hrt3, hp, hfd3, hdrt, hddesc, hft3, hty3, hin3, hmsg3, hany⟩ :=
                  BuildStmtFunDec_ok _ _ _ _ _ _ hfdec
                cases hbi : BindIntrinsic b3 p cb with
                | error e => simp [hbi] at h
                | ok b4 =>
                  simp only [hbi, Except.ok.injEq, Prod.mk.injEq, and_true] at h
                  subst h
                  rw [hp] at hbi
                  obtain ⟨hft4, hfd4, hty4, hin4, hmsg4⟩ :=
                    BindIntrinsic_ok b3 b4 b2.mFunDecs dec b2.mSymbolTable.mFunTable _ cb hfd3
                      hddesc hft3 hbi
                  have hgt : b2.mSymbolTable.GetTypeByName = b.mSymbolTable.GetTypeByName := by
                    funext n
                    simp only [SymbolTable.GetTypeByName, hty2, hty1]
                  have hgt1 : b1.mSymbolTable.GetTypeByName = b.mSymbolTable.GetTypeByName := by
                    funext n
                    simp only [SymbolTable.GetTypeByName, hty1]
                  rw [hgt] at hrt3
                  rw [hrt] at hrt3
                  cases hrt3
                  refine ⟨rt, l.map (fun a => a.mType), dec, rfl, ?_, ?_, ?_, hdrt, ?_, hin4, ?_, ?_⟩
                  · rw [← hgt1, ← hl]; simp [List.map_map]
                  · rw [hft4, hft2, hft1, hp, hfd2, hfd1]
                  · rw [hfd4, hfd3, hfd2, hfd1]
                  · rw [hty4, hty3, hty2, hty1]
                  · rw [hmsg4, hmsg3, hmsg2, hmsg1]
                  · rw [hft2, hft1] at hany; exact hany

theorem collect_ok (types : List TypeDesc) (defs : ArgList) :
    ∀ (k : Nat) (l : List (String × String)),
      BuildStmtStructDef.collect types defs k = .ok (some l) →
      List.Forall₂ (fun (a : ArgDec) (p : String × String) =>
        ∃ T, types[a.mType]? = some T ∧ p.1 = T.mName) defs l := by
  induction defs with
  | nil =>
    intro k l h
    simp only [BuildStmtStructDef.collect, Except.ok.injEq, Option.some.injEq] at h
    subst h
    exact List.Forall₂.nil
  | cons a rest ih =>
    intro k l h
    simp only [BuildStmtStructDef.collect] at h
    split at h
    · simp at h
    · simp only [bind, Except.bind, pure, Except.pure, deref] at h
      cases hT : types[a.mType]? with
      | none => simp [hT] at h
      | some T =>
        simp only [hT] at h
        cases hr : BuildStmtStructDef.collect types rest (k + 1) with
        | error e => simp [hr] at h
        | ok r =>
          simp only [hr, Except.ok.injEq] at h
          cases r with
          | none => simp at h
          | some tl =>
            simp only [Option.map_some', Option.some.injEq] at h
            subst h
            exact List.Forall₂.cons ⟨T, hT, rfl⟩ (ih _ _ hr)

theorem forall2_resolves (st : SymbolTable) (defs : ArgList) :
    ∀ (l : List (String × String)) (argTypes : List TypePtr),
      List.Forall₂ (fun (a : ArgDec) (p : String × String) =>
        ∃ T, st.mTypes[a.mType]? = some T ∧ p.1 = T.mName) defs l →
      l.map (fun a => st.GetTypeByName a.1) = argTypes.map some →
      List.Forall₂ (resolvesTo st) defs argTypes := by
  induction defs with
  | nil =>
    intro l argTypes h hm
    cases h
    cases argTypes with
    | nil => exact List.Forall₂.nil
    | cons x xs => simp at hm
  | cons a rest ih =>
    intro l argTypes h hm
    cases h with
    | cons hp htl =>
      rename_i p l'
      cases argTypes with
      | nil => simp at hm
      | cons x xs =>
        simp only [List.map_cons, List.cons.injEq] at hm
        obtain ⟨T, hT, hname⟩ := hp
        exact List.Forall₂.cons ⟨T, hT, by rw [← hname]; exact hm.1⟩ (ih _ _ htl hm.2)

theorem GetTypeByName_congr (st st' : SymbolTable) (h : st'.mTypes = st.mTypes) :
    st'.GetTypeByName = st.GetTypeByName := by
  funext n
  simp only [SymbolTable.GetTypeByName, h]

theorem GetTypeByName_append_new (st st' : SymbolTable) (name : String) (td : TypeDesc)
    (hst : st'.mTypes = st.mTypes ++ [td])
    (hnone : st.GetTypeByName name = none) (hname : td.mName = name) :
    st'.GetTypeByName name = some st.mTypes.length := by
  unfold SymbolTable.GetTypeByName at hnone ⊢
  simp only at hnone ⊢
  rw [hst]
  have hge : ¬ (List.findIdx (fun t => t.mName == name) st.mTypes < st.mTypes.length) := by
    intro hlt
    simp [hlt] at hnone
  have hidx : List.findIdx (fun t => t.mName == name) (st.mTypes ++ [td]) = st.mTypes.length := by
    rw [List.findIdx_append]
    have h1 : List.findIdx (fun t => t.mName == name) st.mTypes = st.mTypes.length := by
      have := @List.findIdx_le_length _ (fun t : TypeDesc => t.mName == name) st.mTypes
      omega
    simp [h1, List.findIdx_cons, hname]
  rw [hidx]
  simp

theorem resolvesTo_congr (st st' : SymbolTable) (h : st'.mTypes = st.mTypes) (a : ArgDec)
    (r : TypePtr) (hr : resolvesTo st a r) : resolvesTo st' a r := by
  obtain ⟨T, h1, h2⟩ := hr
  exact ⟨T, by rw [h]; exact h1, by rw [GetTypeByName_congr st st' h]; exact h2⟩

theorem unlinkParent_same (b : BlockScriptBuilder) (fi : Option FramePtr) :
    (b.unlinkParent fi).mSymbolTable.mTypes = b.mSymbolTable.mTypes ∧
    (b.unlinkParent fi).mSymbolTable.mFunTable = b.mSymbolTable.mFunTable ∧
    (b.unlinkParent fi).mFunDecs = b.mFunDecs ∧
    (b.unlinkParent fi).mInFunBody = b.mInFunBody ∧
    (b.unlinkParent fi).mDispatched = b.mDispatched := by
  unfold BlockScriptBuilder.unlinkParent
  cases fi with
  | none => exact ⟨rfl, rfl, rfl, rfl, rfl⟩
  | some p => exact ⟨(modifyFrame_types _ _ _).1, (modifyFrame_types _ _ _).2, rfl, rfl, rfl⟩

theorem BuildStmtStructDef_ok (b b' : BlockScriptBuilder) (name : String) (defs : ArgList)
    (d : StmtStructDef) (h : BuildStmtStructDef b name defs = .ok (b', some d)) :
    ∃ S argTypes dec0 dec1,
      b.mSymbolTable.GetTypeByName name = none ∧
      b'.mSymbolTable.mTypes = b.mSymbolTable.mTypes ++ [S] ∧
      S.mName = name ∧ S.mModifier = .M_STRUCT ∧
      List.Forall₂ (resolvesTo b'.mSymbolTable) defs argTypes ∧ defs ≠ [] ∧
      b'.mSymbolTable.mFunTable = b.mSymbolTable.mFunTable ++
        [{ mName := name, mArgTypes := [], mDec := b.mFunDecs.length,
           mCallback := some .StructGenericConstructor },
         { mName := name, mArgTypes := argTypes, mDec := b.mFunDecs.length + 1,
           mCallback := some .StructGenericConstructor }] ∧
      b'.mFunDecs = b.mFunDecs ++ [dec0, dec1] ∧
      dec0.mReturnType = some b.mSymbolTable.mTypes.length ∧
      dec1.mReturnType = some b.mSymbolTable.mTypes.length ∧
      b'.mDispatched = b.mDispatched := by
  unfold BuildStmtStructDef at h
  simp only [BlockScriptBuilder.GetTypeByName] at h
  cases hnone : b.mSymbolTable.GetTypeByName name with
  | some t => simp [hnone, fail] at h
  | none =>
    simp only [hnone, Option.isSome_none, Bool.false_eq_true, if_false] at h
    rcases Bool.eq_false_or_eq_true b.mInFunBody with hin | hin
    · simp [hin, fail] at h
    · simp only [hin, Bool.false_eq_true, if_false, bind, Except.bind, pure, Except.pure] at h
      split at h
      · cases h
      · rename_i b1 hb1
        split at h
        · cases h
        · rename_i b2 hb2
          obtain ⟨⟨e1, e2, e3, e4⟩, _, e5⟩ := updateCurrentFrame_same _ _ _ hb1
          obtain ⟨p1, p2, p3, p4⟩ := PopFrame_same _ _ hb2
          obtain ⟨u1, u2, u3, u4, u5⟩ := unlinkParent_same b2 b.mCurrentFrame
          generalize hb3 : b2.unlinkParent b.mCurrentFrame = b3 at h u1 u2 u3 u4 u5
          have t3 : b3.mSymbolTable.mTypes = b.mSymbolTable.mTypes := by rw [u1, p1, e1]
          have f3 : b3.mSymbolTable.mFunTable = b.mSymbolTable.mFunTable := by rw [u2, p1, e2]
          have d3 : b3.mFunDecs = b.mFunDecs := by rw [u3, p2, e3]
          have m3 : b3.mDispatched = b.mDispatched := by rw [u5, p4, e5]
          obtain ⟨S, hS⟩ : ∃ S : TypeDesc, S =
              { mName := name, mModifier := .M_STRUCT, mModifierProperty := 0,
                mAluEngine := .E_NONE, mChild := none,
                mStructDef := some { mName := name, mArgList := defs,
                                     mFrameInfo := b.mCurrentFrame },
                mByteSize := b3.mSymbolTable.sizeOfNew .M_STRUCT none 0
                  (some { mName := name, mArgList := defs, mFrameInfo := b.mCurrentFrame }) } :=
            ⟨_, rfl⟩
          have hgen : ∀ b6 : BlockScriptBuilder,
              b6 = (b3.createType .M_STRUCT name none 0 .E_NONE
                (some { mName := name, mArgList := defs, mFrameInfo := b.mCurrentFrame })).1 →
              b6.mSymbolTable.mTypes = b.mSymbolTable.mTypes ++ [S] ∧
              b6.mSymbolTable.mFunTable = b.mSymbolTable.mFunTable ∧
              b6.mFunDecs = b.mFunDecs ∧ b6.mDispatched = b.mDispatched := by
            intro b6 h6
            subst h6
            simp only [BlockScriptBuilder.createType, SymbolTable.CreateType, t3, f3, d3, m3, hS]
            exact ⟨trivial, trivial, trivial, trivial⟩
          generalize (b3.createType .M_STRUCT name none 0 .E_NONE
                (some { mName := name, mArgList := defs, mFrameInfo := b.mCurrentFrame })).1 = b6
            at h hgen
          obtain ⟨t6, f6, d6, m6⟩ := hgen b6 rfl
          split at h
          · cases h
          · rename_i v7 h7
            obtain ⟨b7, r7⟩ := v7
            cases r7 with
            | false => simp [throw, throwThe, MonadExceptOf.throw] at h
            | true =>
              obtain ⟨rt7, at7, dec0, hrt7, hat7, hft7, hfd7, hdr7, hty7, hin7, hmsg7, hany7⟩ :=
                CreateIntrinsicFunction_ok _ _ _ _ _ _ h7
              have hat7' : at7 = [] := by
                cases at7 with
                | nil => rfl
                | cons x xs => simp at hat7
              subst hat7'
              by_cases hdefs : defs = []
              · simp [hdefs, throw, throwThe, MonadExceptOf.throw] at h
              · simp only [hdefs, if_false, Bool.true_eq_false, throw, throwThe,
                  MonadExceptOf.throw] at h
                have hrt : rt7 = b.mSymbolTable.mTypes.length := by
                  have := GetTypeByName_append_new b.mSymbolTable b6.mSymbolTable name S t6 hnone
                    (by rw [hS])
                  rw [this] at hrt7
                  exact (Option.some.inj hrt7).symm
                subst hrt
                cases hcol : BuildStmtStructDef.collect b7.mSymbolTable.mTypes defs 0 with
                | error e => simp [hcol] at h
                | ok ol =>
                  cases ol with
                  | none => simp [hcol, fail] at h
                  | some l =>
                    simp only [hcol] at h
                    cases h8 : CreateIntrinsicFunction b7 name l name
                        FunCallback.StructGenericConstructor with
                    | error e => simp [h8] at h
                    | ok v8 =>
                      obtain ⟨b8, r8⟩ := v8
                      cases r8 with
                      | false => simp [h8] at h
                      | true =>
                        simp only [h8, Bool.true_eq_false, if_false, Except.ok.injEq,
                          Prod.mk.injEq, Option.some.injEq] at h
                        obtain ⟨hb', _⟩ := h
                        subst hb'
                        obtain ⟨rt8, at8, dec1, hrt8, hat8, hft8, hfd8, hdr8, hty8, hin8, hmsg8,
                          hany8⟩ := CreateIntrinsicFunction_ok _ _ _ _ _ _ h8
                        have hrt8' : rt8 = b.mSymbolTable.mTypes.length := by
                          rw [GetTypeByName_congr b6.mSymbolTable b7.mSymbolTable hty7,
                            GetTypeByName_append_new b.mSymbolTable b6.mSymbolTable name S t6
                              hnone (by rw [hS])] at hrt8
                          exact (Option.some.inj hrt8).symm
                        subst hrt8'
                        have hfa := forall2_resolves b7.mSymbolTable defs l at8
                          (collect_ok _ _ _ _ hcol) hat8
                        refine ⟨S, at8, dec0, dec1, rfl, ?_, by rw [hS], by rw [hS], ?_, hdefs,
                          ?_, ?_, hdr7, hdr8, ?_⟩
                        · rw [hty8, hty7, t6]
                        · exact hfa.imp (fun a r hr => resolvesTo_congr _ _ hty8 a r hr)
                        · rw [hft8, hft7, f6, hfd7, d6]
                          simp
                        · rw [hfd8, hfd7, d6]
                          simp
                        · rw [hmsg8, hmsg7, m6]

theorem findIdx_append_of_none {α : Type} (p : α → Bool) (l m : List α)
    (h : ∀ x ∈ l, p x = false) : List.findIdx p (l ++ m) = l.length + List.findIdx p m := by
  induction l with
  | nil => simp
  | cons x xs ih =>
    have hx : p x = false := h x (List.mem_cons_self _ _)
    simp only [List.cons_append, List.findIdx_cons, hx, cond_false, List.length_cons]
    rw [ih (fun y hy => h y (List.mem_cons_of_mem _ hy))]
    omega

theorem filter_append_of_none {α : Type} (p : α → Bool) (l m : List α)
    (h : ∀ x ∈ l, p x = false) : (l ++ m).filter p = m.filter p := by
  rw [List.filter_append]
  have : l.filter p = [] := by
    rw [List.filter_eq_nil_iff]
    intro x hx
    simp [h x hx]
  rw [this]
  rfl

theorem findIdx_pair {α : Type} (p : α → Bool) (a c : α) :
    List.findIdx p [a, c] = if p a = true then 0 else if p c = true then 1 else 2 := by
  cases ha : p a <;> cases hc : p c <;> simp [List.findIdx_cons, ha, hc]

theorem getElem?_append_pair_fst {α : Type} (l : List α) (a c : α) :
    (l ++ [a, c])[l.length]? = some a := by
  rw [List.getElem?_append_right (le_refl _)]
  simp

theorem getElem?_append_pair_snd {α : Type} (l : List α) (a c : α) :
    (l ++ [a, c])[l.length + 1]? = some c := by
  rw [List.getElem?_append_right (by omega)]
  simp

/-- After a successful `BuildStmtStructDef` for a structure S in a builder that had no
function named S: the two functions named S, the second with the parameter types that the
names of the member types resolve to, and the calls of S that `BuildFunCall` accepts. -/
theorem BuildStmtStructDef_constructors_by_name (b b' : BlockScriptBuilder) (name : String)
    (defs : ArgList) (d : StmtStructDef)
    (h : BuildStmtStructDef b name defs = .ok (b', some d))
    (hfresh : ∀ f ∈ b.mSymbolTable.mFunTable, f.mName ≠ name) :
    ∃ argTypes S,
      List.Forall₂ (resolvesTo b'.mSymbolTable) defs argTypes ∧
      b'.mSymbolTable.GetTypeByName name = some b.mSymbolTable.mTypes.length ∧
      b'.mSymbolTable.mTypes[b.mSymbolTable.mTypes.length]? = some S ∧
      S.mModifier = .M_STRUCT ∧
      (b'.mSymbolTable.mFunTable.filter (fun f => f.mName == name)).map
        (fun f => f.mArgTypes) = [[], argTypes] ∧
      (∀ f ∈ b'.mSymbolTable.mFunTable, f.mName = name →
        ∃ dec, b'.mFunDecs[f.mDec]? = some dec ∧
          dec.mReturnType = some b.mSymbolTable.mTypes.length) ∧
      ∀ args : ExpList, (∀ e ∈ args, e.GetTypeDesc ≠ none) →
        ((args.map Exp.GetTypeDesc = [] ∨ args.map Exp.GetTypeDesc = argTypes.map some) →
          ∃ k, BuildFunCall b' args name =
            .ok (b', some (.funCall args name (some k) (some b.mSymbolTable.mTypes.length)))) ∧
        (¬ (args.map Exp.GetTypeDesc = [] ∨ args.map Exp.GetTypeDesc = argTypes.map some) →
          BuildFunCall b' args name =
            .ok (BS_ErrorDispatcher b' "No function declaration found.", none)) := by
  obtain ⟨S, argTypes, dec0, dec1, hnone, hty, hSn, hSm, hfa, hdefs, hft, hfd, hr0, hr1, _⟩ :=
    BuildStmtStructDef_ok b b' name defs d h
  have hne : argTypes ≠ [] := by
    intro he
    subst he
    cases hfa
    exact hdefs rfl
  have hpre : ∀ (ats : List (Option TypePtr)), ∀ x ∈ b.mSymbolTable.mFunTable,
      (fun d : FunDesc => d.mName == name && d.mArgTypes.map some == ats) x = false := by
    intro ats x hx
    have := hfresh x hx
    simp [this]
  have hpre' : ∀ x ∈ b.mSymbolTable.mFunTable, (fun f : FunDesc => f.mName == name) x = false := by
    intro x hx
    have := hfresh x hx
    simp [this]
  have hd0 : b'.mFunDecs[b.mFunDecs.length]? = some dec0 := by
    rw [hfd]; exact getElem?_append_pair_fst _ _ _
  have hd1 : b'.mFunDecs[b.mFunDecs.length + 1]? = some dec1 := by
    rw [hfd]; exact getElem?_append_pair_snd _ _ _
  have hf0 : b'.mSymbolTable.mFunTable[b.mSymbolTable.mFunTable.length]? =
      some { mName := name, mArgTypes := [], mDec := b.mFunDecs.length,
             mCallback := some .StructGenericConstructor } := by
    rw [hft]; exact getElem?_append_pair_fst _ _ _
  have hf1 : b'.mSymbolTable.mFunTable[b.mSymbolTable.mFunTable.length + 1]? =
      some { mName := name, mArgTypes := argTypes, mDec := b.mFunDecs.length + 1,
             mCallback := some .StructGenericConstructor } := by
    rw [hft]; exact getElem?_append_pair_snd _ _ _
  refine ⟨argTypes, S, hfa, ?_, ?_, hSm, ?_, ?_, ?_⟩
  · exact GetTypeByName_append_new b.mSymbolTable b'.mSymbolTable name S hty hnone hSn
  · rw [hty]; simp
  · rw [hft, filter_append_of_none _ _ _ hpre']
    simp
  · intro f hf hname
    rw [hft] at hf
    rcases List.mem_append.mp hf with h1 | h1
    · exact absurd hname (hfresh f h1)
    · simp only [List.mem_cons, List.mem_singleton, List.not_mem_nil, or_false] at h1
      rcases h1 with h1 | h1
      · subst h1; exact ⟨dec0, hd0, hr0⟩
      · subst h1; exact ⟨dec1, hd1, hr1⟩
  · intro args htyped
    have hany : args.any (fun e => e.GetTypeDesc.isNone) = false := by
      rw [List.any_eq_false]
      intro e he
      have := htyped e he
      cases hg : e.GetTypeDesc with
      | none => exact absurd hg this
      | some t => simp
    have hfind : b'.mSymbolTable.FindFunctionDescription name (args.map Exp.GetTypeDesc) =
        if args.map Exp.GetTypeDesc = [] then some b.mSymbolTable.mFunTable.length
        else if args.map Exp.GetTypeDesc = argTypes.map some then
          some (b.mSymbolTable.mFunTable.length + 1)
        else none := by
      simp only [SymbolTable.FindFunctionDescription, hft,
        findIdx_append_of_none _ _ _ (hpre (args.map Exp.GetTypeDesc)), findIdx_pair,
        List.length_append, List.length_cons, List.length_nil, beq_self_eq_true, Bool.true_and,
        beq_iff_eq, List.map_nil]
      by_cases h0 : args.map Exp.GetTypeDesc = []
      · simp [h0]
      · by_cases h1 : args.map Exp.GetTypeDesc = argTypes.map some
        · have h0' : ¬ ([] = args.map Exp.GetTypeDesc) := fun e => h0 e.symm
          simp [h0', h1, hne]
        · have h0' : ¬ ([] = args.map Exp.GetTypeDesc) := fun e => h0 e.symm
          have h1' : ¬ (argTypes.map some = args.map Exp.GetTypeDesc) := fun e => h1 e.symm
          simp [h0, h0', h1, h1']
    have hne' : ¬ (argTypes.map some = []) := by simpa using hne
    constructor
    · rintro (hargs | hargs)
      · refine ⟨b.mSymbolTable.mFunTable.length, ?_⟩
        simp only [BuildFunCall, hany, Bool.false_eq_true, if_false, hfind]
        simp only [hargs, if_true,
          deref_some _ _ _ hf0, deref_some _ _ _ hd0, hr0, bind, Except.bind, pure, Except.pure]
      · refine ⟨b.mSymbolTable.mFunTable.length + 1, ?_⟩
        simp only [BuildFunCall, hany, Bool.false_eq_true, if_false, hfind]
        simp only [hargs, hne', if_true, if_false,
          deref_some _ _ _ hf1, deref_some _ _ _ hd1, hr1, bind, Except.bind, pure, Except.pure]
    · intro hnot
      push_neg at hnot
      obtain ⟨hn0, hn1⟩ := hnot
      simp only [BuildFunCall, hany, Bool.false_eq_true, if_false, hfind]
      simp only [hn0, hn1, if_false, fail]

theorem GetTypeByName_append_of_some (st st' : SymbolTable) (extra : List TypeDesc)
    (n : String) (r : TypePtr) (hst : st'.mTypes = st.mTypes ++ extra)
    (h : st.GetTypeByName n = some r) : st'.GetTypeByName n = some r := by
  unfold SymbolTable.GetTypeByName at h ⊢
  simp only at h ⊢
  have hlt : List.findIdx (fun t => t.mName == n) st.mTypes < st.mTypes.length := by
    by_contra hc
    simp [hc] at h
  simp only [hlt, if_true] at h
  rw [hst, List.findIdx_append]
  simp only [hlt, if_true, List.length_append]
  rw [if_pos (by omega)]
  exact h

theorem resolvesTo_append (st st' : SymbolTable) (extra : List TypeDesc)
    (hst : st'.mTypes = st.mTypes ++ extra) (a : ArgDec) (r : TypePtr)
    (h : resolvesTo st a r) : resolvesTo st' a r := by
  obtain ⟨T, h1, h2⟩ := h
  refine ⟨T, ?_, GetTypeByName_append_of_some st st' extra _ _ hst h2⟩
  rw [hst, List.getElem?_append_left (lt_length_of_getElem? _ _ _ h1)]
  exact h1

theorem resolvesTo_unique (st : SymbolTable) (a : ArgDec) (r r' : TypePtr)
    (h : resolvesTo st a r) (h' : resolvesTo st a r') : r = r' := by
  obtain ⟨T, h1, h2⟩ := h
  obtain ⟨T', h1', h2'⟩ := h'
  rw [h1] at h1'
  cases h1'
  rw [h2] at h2'
  exact Option.some.inj h2'

theorem forall2_resolves_self (st : SymbolTable) (defs : ArgList) (argTypes : List TypePtr)
    (h : List.Forall₂ (resolvesTo st) defs argTypes)
    (hself : ∀ a ∈ defs, resolvesTo st a a.mType) :
    argTypes = defs.map (fun a => a.mType) := by
  induction h with
  | nil => rfl
  | @cons a r l1 l2 hhead _ ih =>
    have h1 := resolvesTo_unique st a _ _ hhead (hself a (List.mem_cons_self _ _))
    rw [List.map_cons, h1, ih (fun x hx => hself x (List.mem_cons_of_mem _ hx))]

/-- C7, amended. After a successful `BuildStmtStructDef` for a structure S with members of
types T1..Tn, in a builder that had no function named S and in which every member type is
the type its name resolves to in the catalog: the function table holds exactly two
functions named S, one without parameters and one with parameter types (T1,..,Tn), both
returning the new STRUCT type S; `BuildFunCall(S, args)` with typed arguments returns a call
node of type S when the argument types are () or exactly (T1,..,Tn), and returns null with
"No function declaration found." for every other list of argument types. -/
theorem BuildStmtStructDef_constructors (b b' : BlockScriptBuilder) (name : String)
    (defs : ArgList) (d : StmtStructDef)
    (h : BuildStmtStructDef b name defs = .ok (b', some d))
    (hfresh : ∀ f ∈ b.mSymbolTable.mFunTable, f.mName ≠ name)
    (hself : ∀ a ∈ defs, resolvesTo b.mSymbolTable a a.mType) :
    ∃ S,
      b'.mSymbolTable.GetTypeByName name = some b.mSymbolTable.mTypes.length ∧
      b'.mSymbolTable.mTypes[b.mSymbolTable.mTypes.length]? = some S ∧
      S.mModifier = .M_STRUCT ∧
      (b'.mSymbolTable.mFunTable.filter (fun f => f.mName == name)).map
        (fun f => f.mArgTypes) = [[], defs.map (fun a => a.mType)] ∧
      (∀ f ∈ b'.mSymbolTable.mFunTable, f.mName = name →
        ∃ dec, b'.mFunDecs[f.mDec]? = some dec ∧
          dec.mReturnType = some b.mSymbolTable.mTypes.length) ∧
      ∀ args : ExpList, (∀ e ∈ args, e.GetTypeDesc ≠ none) →
        ((args.map Exp.GetTypeDesc = [] ∨
            args.map Exp.GetTypeDesc = defs.map (fun a => some a.mType)) →
          ∃ k, BuildFunCall b' args name =
            .ok (b', some (.funCall args name (some k) (some b.mSymbolTable.mTypes.length)))) ∧
        (¬ (args.map Exp.GetTypeDesc = [] ∨
            args.map Exp.GetTypeDesc = defs.map (fun a => some a.mType)) →
          BuildFunCall b' args name =
            .ok (BS_ErrorDispatcher b' "No function declaration found.", none)) := by
  obtain ⟨argTypes, S, hfa, h1, h2, h3, h4, h5, h6⟩ :=
    BuildStmtStructDef_constructors_by_name b b' name defs d h hfresh
  obtain ⟨S', _, _, _, _, hty, _⟩ := BuildStmtStructDef_ok b b' name defs d h
  have hargs : argTypes = defs.map (fun a => a.mType) :=
    forall2_resolves_self _ _ _ hfa
      (fun a ha => resolvesTo_append b.mSymbolTable b'.mSymbolTable [_] hty a _ (hself a ha))
  subst hargs
  have hmap : (defs.map (fun a => a.mType)).map some = defs.map (fun a => some a.mType) := by
    simp [List.map_map, Function.comp_def]
  rw [hmap] at h6
  exact ⟨S, h1, h2, h3, h4, h5, h6⟩

/-- Witness of C9: a five-character swizzle on a float4 and `.z` on a float2 are rejected. -/
theorem BuildBinop_swizzle_rejects_witness :
    (∃ b' msg, BuildBinop initialBuilder (.idd "v" 0 0 false (some 4)) .O_DOT
        (Exp.newIdd "xyzwx") = .ok (b', none) ∧
      b'.mDispatched = initialBuilder.mDispatched ++ [msg] ∧
      b'.mErrorCount = initialBuilder.mErrorCount + 1 ∧
      b'.mSymbolTable = initialBuilder.mSymbolTable) ∧
    (∃ b' msg, BuildBinop initialBuilder (.idd "v" 0 0 false (some 2)) .O_DOT
        (Exp.newIdd "z") = .ok (b', none) ∧
      b'.mDispatched = initialBuilder.mDispatched ++ [msg] ∧
      b'.mErrorCount = initialBuilder.mErrorCount + 1 ∧
      b'.mSymbolTable = initialBuilder.mSymbolTable) :=
  ⟨BuildBinop_swizzle_rejects initialBuilder (.idd "v" 0 0 false (some 4)) 4
      (preseededTypes.get ⟨4, by decide⟩) "xyzwx" (-1) (-1) false none rfl rfl rfl
      (Or.inl (by decide)),
   BuildBinop_swizzle_rejects initialBuilder (.idd "v" 0 0 false (some 2)) 2
      (preseededTypes.get ⟨2, by decide⟩) "z" (-1) (-1) false none rfl rfl rfl
      (Or.inr (Or.inr ⟨'z', by decide, 2, by decide, by decide⟩))⟩

/-- Witness of C8: `v.xyz` on a float4 has type float3 (catalog entry 3). -/
theorem BuildBinop_swizzle_type_witness :
    (∃ r R, BuildBinop initialBuilder (.idd "v" 0 0 false (some 4)) .O_DOT
          (.idd "xyz" (-1) (-1) false none) =
        .ok (initialBuilder, some (.binop (.idd "v" 0 0 false (some 4)) .O_DOT
          (.idd "xyz" (-1) 0 false none) (some r))) ∧
      initialBuilder.mSymbolTable.mTypes[r]? = some R ∧
      ("xyz".length = 1 → some r = (preseededTypes.get ⟨4, by decide⟩).mChild) ∧
      (2 ≤ "xyz".length → R.mModifier = .M_VECTOR ∧ R.mModifierProperty = ("xyz".length : Int) ∧
        R.mChild = (preseededTypes.get ⟨4, by decide⟩).mChild)) ∧
    BuildBinop initialBuilder (.idd "v" 0 0 false (some 4)) .O_DOT
        (.idd "xyz" (-1) (-1) false none) =
      .ok (initialBuilder, some (.binop (.idd "v" 0 0 false (some 4)) .O_DOT
        (.idd "xyz" (-1) 0 false none) (some 3))) ∧
    preseededTypes[3]? = some
      { mName := "float3", mModifier := .M_VECTOR, mModifierProperty := 3,
        mAluEngine := .E_FLOAT3, mChild := some 1, mStructDef := none, mByteSize := 12 } :=
  ⟨BuildBinop_swizzle_type initialBuilder [] (.idd "v" 0 0 false (some 4)) 4
      (preseededTypes.get ⟨4, by decide⟩) "xyz" (-1) (-1) false none rfl rfl rfl rfl rfl
      ⟨by decide, by decide⟩
      (by
        intro c hc
        have hc' : c = 'x' ∨ c = 'y' ∨ c = 'z' := by simpa using hc
        rcases hc' with h | h | h <;> subst h
        · exact ⟨0, by decide, by decide⟩
        · exact ⟨1, by decide, by decide⟩
        · exact ⟨2, by decide, by decide⟩),
   rfl, rfl⟩

/-- Witness of C10: `int[3]` creates catalog entry 6, an ARRAY of 3 int, and `int[3][2]`
creates entry 7, an ARRAY of 2 whose child is entry 6. -/
theorem BuildBinop_array_constructor_witness :
    ∃ R b1 out1,
      BuildBinop initialBuilder (.idd "int" (-1) (-1) false none) .O_ACCESS (.imm 3 (some 0)) =
        .ok (b1, some out1) ∧
      out1 = .binop (.idd "int" (-1) (-1) false none) .O_ARRAY_CONSTRUCTOR (.imm 3 (some 0))
               (some initialBuilder.mSymbolTable.mTypes.length) ∧
      b1.mSymbolTable.mTypes = initialBuilder.mSymbolTable.mTypes ++ [R] ∧
      b1.mDispatched = initialBuilder.mDispatched ∧
      R.mModifier = .M_ARRAY ∧ R.mModifierProperty = 3 ∧ R.mChild = some 0 ∧
      ∀ (m : Int), ∃ R2 b2,
        BuildBinop b1 out1 .O_ACCESS (.imm m (some 0)) =
          .ok (b2, some (.binop out1 .O_ARRAY_CONSTRUCTOR (.imm m (some 0))
                    (some (initialBuilder.mSymbolTable.mTypes.length + 1)))) ∧
        b2.mSymbolTable.mTypes = initialBuilder.mSymbolTable.mTypes ++ [R, R2] ∧
        R2.mModifier = .M_ARRAY ∧ R2.mModifierProperty = m ∧
        R2.mChild = some initialBuilder.mSymbolTable.mTypes.length :=
  (BuildBinop_array_constructor initialBuilder "int" (-1) (-1) false none 0 rfl).1 3 0
    (preseededTypes.get ⟨0, by decide⟩) rfl rfl

/-- Counterexample to C7 as stated: after the function `int Pair(float x)` was declared,
defining `struct Pair { a : int; b : int }` succeeds; the function table then holds three
functions named Pair, and the call `Pair(1.0)`, whose argument types are neither () nor
(int, int), returns a call node of type int instead of null, with no message dispatched
(0x3f800000 is the bit pattern of 1.0). -/
theorem BuildStmtStructDef_overload_counterexample :
    ∃ b b' d node,
      overloadRun = .ok b ∧
      BuildStmtStructDef b "Pair" pairFields = .ok (b', some d) ∧
      (b'.mSymbolTable.mFunTable.filter (fun f => f.mName == "Pair")).map
        (fun f => f.mArgTypes) = [[1], [], [0, 0]] ∧
      BuildFunCall b' [.imm 0x3f800000 (some 1)] "Pair" = .ok (b', some node) ∧
      node.GetTypeDesc = some 0 ∧ b'.mDispatched = [] :=
  ⟨_, _, _, _, rfl, rfl, rfl, rfl, rfl, rfl⟩

/-- A structure `S` whose single member has the array type `int[3]` (catalog entry 6, named
"int" after its element type): the full constructor is registered with the parameter type
that the name "int" resolves to, the scalar int (entry 0), so a call of `S` with an argument
of the member's own type finds no declaration. -/
theorem BuildStmtStructDef_array_member_resolves_by_name :
    ∃ b d v,
      arrayFieldRun = .ok (b, some d, v) ∧ v.GetTypeDesc = some 6 ∧
      d.mArgList.map (fun a => a.mType) = [6] ∧
      (b.mSymbolTable.mFunTable.filter (fun f => f.mName == "S")).map
        (fun f => f.mArgTypes) = [[], [0]] ∧
      BuildFunCall b [v] "S" =
        .ok (BS_ErrorDispatcher b "No function declaration found.", none) :=
  ⟨_, _, _, rfl, rfl, rfl, rfl, rfl⟩

/-- Witness of C7, amended: `struct Pair { a : int; b : int }` from the initial builder
registers `Pair()` and `Pair(int, int)`; `Pair(1, 2)` is a call node of type Pair (catalog
entry 6) and `Pair(1)` is rejected with "No function declaration found.". -/
theorem BuildStmtStructDef_constructors_witness :
    BuildStmtStructDef pairBuilder "Pair" pairFields =
      .ok (pairAfter, some { mName := "Pair", mArgList := pairFields, mFrameInfo := some 1 }) ∧
    (pairAfter.mSymbolTable.mFunTable.filter (fun f => f.mName == "Pair")).map
      (fun f => f.mArgTypes) = [[], [0, 0]] ∧
    (∃ k, BuildFunCall pairAfter [.imm 1 (some 0), .imm 2 (some 0)] "Pair" =
      .ok (pairAfter, some (.funCall [.imm 1 (some 0), .imm 2 (some 0)] "Pair" (some k)
        (some 6)))) ∧
    BuildFunCall pairAfter [.imm 1 (some 0)] "Pair" =
      .ok (BS_ErrorDispatcher pairAfter "No function declaration found.", none) := by
  obtain ⟨S, _, _, _, hfilter, _, hcalls⟩ :=
    BuildStmtStructDef_constructors pairBuilder pairAfter "Pair" pairFields
      { mName := "Pair", mArgList := pairFields, mFrameInfo := some 1 } rfl
      (by intro f hf; cases hf)
      (by
        intro a ha
        have ha' : a = { mVar := "a", mType := 0, mOffset := 0 } ∨
            a = { mVar := "b", mType := 0, mOffset := 4 } := by simpa [pairFields] using ha
        rcases ha' with h | h <;> subst h <;>
          exact ⟨preseededTypes.get ⟨0, by decide⟩, rfl, rfl⟩)
  refine ⟨rfl, hfilter, ?_, ?_⟩
  · exact (hcalls [.imm 1 (some 0), .imm 2 (some 0)] (by simp)).1 (Or.inr rfl)
  · exact (hcalls [.imm 1 (some 0)] (by simp)).2 (by decide)

/-! ### Array indexing -/

/-- Outside the array-declaring form `BuildBinop` with `O_ACCESS` is the accessor path of
`BuildBinopArrayAccess`. -/
theorem BuildBinop_access_accessor (b : BlockScriptBuilder) (lhs rhs : Exp)
    (hform : isArrayDeclaringForm b lhs = false) :
    BuildBinop b lhs .O_ACCESS rhs = BuildBinopArrayAccess.accessor b lhs .O_ACCESS rhs := by
  have h1 : BuildBinop b lhs .O_ACCESS rhs = BuildBinopArrayAccess b lhs .O_ACCESS rhs := by
    simp [BuildBinop]
  rw [h1]
  cases lhs with
  | idd n o f g t =>
    simp only [isArrayDeclaringForm] at hform
    cases hn : b.GetTypeByName n with
    | some a => simp [hn] at hform
    | none => simp [BuildBinopArrayAccess, hn]
  | binop l o r t =>
    simp only [isArrayDeclaringForm, decide_eq_false_iff_not] at hform
    unfold BuildBinopArrayAccess
    simp only [ne_eq, not_true_eq_false, if_false]
    split
    · rename_i heq; cases heq
    · rename_i heq; cases heq; exact absurd rfl hform
    · rfl
  | funCall a n d t => simp [BuildBinopArrayAccess]
  | imm v t => simp [BuildBinopArrayAccess]
  | strImm s t => simp [BuildBinopArrayAccess]
  | unop o e t => simp [BuildBinopArrayAccess]


/-- The five outcomes of the accessor path, by the test that decides each. -/
theorem accessor_cases (b : BlockScriptBuilder) (lhs rhs : Exp) (op : Op)
    :
    (lhs.GetTypeDesc = none →
      BuildBinopArrayAccess.accessor b lhs op rhs = fail b "Undefined array.") ∧
    (∀ t1 T1, lhs.GetTypeDesc = some t1 → b.mSymbolTable.mTypes[t1]? = some T1 →
      T1.mModifier ≠ .M_ARRAY →
      BuildBinopArrayAccess.accessor b lhs op rhs =
        fail b "Access [] operator only allowed on array type.") ∧
    (∀ t1 T1, lhs.GetTypeDesc = some t1 → b.mSymbolTable.mTypes[t1]? = some T1 →
      T1.mModifier = .M_ARRAY → rhs.GetTypeDesc = none →
      BuildBinopArrayAccess.accessor b lhs op rhs =
        fail b "Undefined index symbol for array lookup.") ∧
    (∀ t1 T1 t2 T2, lhs.GetTypeDesc = some t1 → b.mSymbolTable.mTypes[t1]? = some T1 →
      T1.mModifier = .M_ARRAY → rhs.GetTypeDesc = some t2 →
      b.mSymbolTable.mTypes[t2]? = some T2 → T2.mAluEngine ≠ .E_INT →
      BuildBinopArrayAccess.accessor b lhs op rhs =
        fail b "Array index must be an integer.") ∧
    (∀ t1 T1 t2 T2, lhs.GetTypeDesc = some t1 → b.mSymbolTable.mTypes[t1]? = some T1 →
      T1.mModifier = .M_ARRAY → rhs.GetTypeDesc = some t2 →
      b.mSymbolTable.mTypes[t2]? = some T2 → T2.mAluEngine = .E_INT →
      BuildBinopArrayAccess.accessor b lhs op rhs =
        .ok (b, some (.binop lhs op rhs T1.mChild))) := by
  refine ⟨?_, ?_, ?_, ?_, ?_⟩
  · intro h
    simp [BuildBinopArrayAccess.accessor, h]
  · intro t1 T1 h1 hT1 hm
    simp [BuildBinopArrayAccess.accessor, h1, deref, hT1, hm, bind, Except.bind]
  · intro t1 T1 h1 hT1 hm h2
    simp [BuildBinopArrayAccess.accessor, h1, deref, hT1, hm, h2, bind, Except.bind]
  · intro t1 T1 t2 T2 h1 hT1 hm h2 hT2 he
    simp [BuildBinopArrayAccess.accessor, h1, deref, hT1, hm, h2, hT2, he, bind, Except.bind]
  · intro t1 T1 t2 T2 h1 hT1 hm h2 hT2 he
    simp [BuildBinopArrayAccess.accessor, h1, deref, hT1, hm, h2, hT2, he, bind, Except.bind,
      pure, Except.pure]


/-- The accessor path returns a node exactly on an indexable pair of operands, and null with
one of its four messages otherwise. -/
theorem accessor_classify (b : BlockScriptBuilder) (lhs rhs : Exp) (op : Op)
    (hl : ∀ t, lhs.GetTypeDesc = some t → t < b.mSymbolTable.mTypes.length)
    (hr : ∀ t, rhs.GetTypeDesc = some t → t < b.mSymbolTable.mTypes.length) :
    (specIndexable b.mSymbolTable.mTypes lhs rhs = true ∧
      ∃ t1 T1, lhs.GetTypeDesc = some t1 ∧ b.mSymbolTable.mTypes[t1]? = some T1 ∧
        BuildBinopArrayAccess.accessor b lhs op rhs =
          .ok (b, some (.binop lhs op rhs T1.mChild))) ∨
    (specIndexable b.mSymbolTable.mTypes lhs rhs = false ∧
      ∃ msg, msg ∈ ["Undefined array.", "Access [] operator only allowed on array type.",
                    "Undefined index symbol for array lookup.",
                    "Array index must be an integer."] ∧
        BuildBinopArrayAccess.accessor b lhs op rhs = .ok (BS_ErrorDispatcher b msg, none)) := by
  obtain ⟨c1, c2, c3, c4, c5⟩ := accessor_cases b lhs rhs op
  cases h1 : lhs.GetTypeDesc with
  | none =>
    exact Or.inr ⟨by simp [specIndexable, h1], _, by simp, c1 h1⟩
  | some t1 =>
    obtain ⟨T1, hT1⟩ : ∃ T1, b.mSymbolTable.mTypes[t1]? = some T1 :=
      ⟨_, List.getElem?_eq_getElem (hl t1 h1)⟩
    by_cases hm : T1.mModifier = .M_ARRAY
    · cases h2 : rhs.GetTypeDesc with
      | none =>
        exact Or.inr ⟨by simp [specIndexable, h1, h2], _, by simp, c3 t1 T1 h1 hT1 hm h2⟩
      | some t2 =>
        obtain ⟨T2, hT2⟩ : ∃ T2, b.mSymbolTable.mTypes[t2]? = some T2 :=
          ⟨_, List.getElem?_eq_getElem (hr t2 h2)⟩
        by_cases he : T2.mAluEngine = .E_INT
        · exact Or.inl ⟨by simp [specIndexable, h1, h2, hT1, hT2, hm, he], t1, T1, rfl, hT1,
            c5 t1 T1 t2 T2 h1 hT1 hm h2 hT2 he⟩
        · exact Or.inr ⟨by simp [specIndexable, h1, h2, hT1, hT2, hm, he], _, by simp,
            c4 t1 T1 t2 T2 h1 hT1 hm h2 hT2 he⟩
    · refine Or.inr ⟨?_, _, by simp, c2 t1 T1 h1 hT1 hm⟩
      cases h2 : rhs.GetTypeDesc with
      | none => simp [specIndexable, h1, h2]
      | some t2 =>
        obtain ⟨T2, hT2⟩ : ∃ T2, b.mSymbolTable.mTypes[t2]? = some T2 :=
          ⟨_, List.getElem?_eq_getElem (hr t2 h2)⟩
        simp [specIndexable, h1, h2, hT1, hT2, hm]

/-- C11. Array indexing. For a left-hand side that is not in the array-declaring form (type
pointers of the operands designate catalog entries), `BuildBinop(lhs, O_ACCESS, rhs)`
returns a node if and only if lhs has a resolved type with modifier ARRAY and rhs has a
resolved type of ALU class INT; the node then has the element (child) type of the array and
the builder is unchanged. Otherwise it returns null after exactly one diagnostic:
"Undefined array." for an untyped lhs, "Access [] operator only allowed on array type." for
a lhs that is no ARRAY, "Undefined index symbol for array lookup." for an untyped rhs,
"Array index must be an integer." for a rhs that is not of class INT. -/
theorem BuildBinop_array_index (b : BlockScriptBuilder) (lhs rhs : Exp)
    (hform : isArrayDeclaringForm b lhs = false)
    (hl : ∀ t, lhs.GetTypeDesc = some t → t < b.mSymbolTable.mTypes.length)
    (hr : ∀ t, rhs.GetTypeDesc = some t → t < b.mSymbolTable.mTypes.length) :
    ((∃ b' e, BuildBinop b lhs .O_ACCESS rhs = .ok (b', some e)) ↔
      specIndexable b.mSymbolTable.mTypes lhs rhs = true) ∧
    (specIndexable b.mSymbolTable.mTypes lhs rhs = true →
      ∃ t1 T1, lhs.GetTypeDesc = some t1 ∧ b.mSymbolTable.mTypes[t1]? = some T1 ∧
        BuildBinop b lhs .O_ACCESS rhs = .ok (b, some (.binop lhs .O_ACCESS rhs T1.mChild))) ∧
    (specIndexable b.mSymbolTable.mTypes lhs rhs = false →
      ∃ msg, msg ∈ ["Undefined array.", "Access [] operator only allowed on array type.",
                    "Undefined index symbol for array lookup.",
                    "Array index must be an integer."] ∧
        BuildBinop b lhs .O_ACCESS rhs = .ok (BS_ErrorDispatcher b msg, none)) ∧
    (lhs.GetTypeDesc = none → BuildBinop b lhs .O_ACCESS rhs = fail b "Undefined array.") ∧
    (∀ t1 T1, lhs.GetTypeDesc = some t1 → b.mSymbolTable.mTypes[t1]? = some T1 →
      T1.mModifier ≠ .M_ARRAY →
      BuildBinop b lhs .O_ACCESS rhs =
        fail b "Access [] operator only allowed on array type.") ∧
    (∀ t1 T1, lhs.GetTypeDesc = some t1 → b.mSymbolTable.mTypes[t1]? = some T1 →
      T1.mModifier = .M_ARRAY → rhs.GetTypeDesc = none →
      BuildBinop b lhs .O_ACCESS rhs = fail b "Undefined index symbol for array lookup.") ∧
    (∀ t1 T1 t2 T2, lhs.GetTypeDesc = some t1 → b.mSymbolTable.mTypes[t1]? = some T1 →
      T1.mModifier = .M_ARRAY → rhs.GetTypeDesc = some t2 →
      b.mSymbolTable.mTypes[t2]? = some T2 → T2.mAluEngine ≠ .E_INT →
      BuildBinop b lhs .O_ACCESS rhs = fail b "Array index must be an integer.") := by
  rw [BuildBinop_access_accessor b lhs rhs hform]
  obtain ⟨c1, c2, c3, c4, _⟩ := accessor_cases b lhs rhs .O_ACCESS
  refine ⟨?_, ?_, ?_, c1, c2, c3, c4⟩
  · rcases accessor_classify b lhs rhs .O_ACCESS hl hr with ⟨hs, t1, T1, _, _, heq⟩ |
      ⟨hs, msg, _, heq⟩
    · exact ⟨fun _ => hs, fun _ => ⟨_, _, heq⟩⟩
    · constructor
      · rintro ⟨b', e, h⟩
        rw [heq] at h
        cases h
      · intro h
        rw [hs] at h
        cases h
  · intro hs
    rcases accessor_classify b lhs rhs .O_ACCESS hl hr with ⟨_, t1, T1, h1, hT1, heq⟩ |
      ⟨hs', _⟩
    · exact ⟨t1, T1, h1, hT1, heq⟩
    · rw [hs] at hs'
      cases hs'
  · intro hs
    rcases accessor_classify b lhs rhs .O_ACCESS hl hr with ⟨hs', _⟩ | ⟨_, msg, hmem, heq⟩
    · rw [hs] at hs'
      cases hs'
    · exact ⟨msg, hmem, heq⟩

/-- Witness of C11: with `arr` of type `int[3]` (catalog entry 6), `arr[0]` has type int
(entry 0) and `arr["x"]` fails with "Array index must be an integer.". -/
theorem BuildBinop_array_index_witness :
    BuildBinop intArrayBuilder (.idd "arr" 0 0 false (some 6)) .O_ACCESS (.imm 0 (some 0)) =
      .ok (intArrayBuilder,
        some (.binop (.idd "arr" 0 0 false (some 6)) .O_ACCESS (.imm 0 (some 0)) (some 0))) ∧
    BuildBinop intArrayBuilder (.idd "arr" 0 0 false (some 6)) .O_ACCESS (.strImm "x" (some 5)) =
      fail intArrayBuilder "Array index must be an integer." :=
  ⟨by
    obtain ⟨t1, T1, h1, hT1, heq⟩ :=
      (BuildBinop_array_index intArrayBuilder (.idd "arr" 0 0 false (some 6)) (.imm 0 (some 0))
        rfl (by intro t h; cases h; decide) (by intro t h; cases h; decide)).2.1 rfl
    cases h1
    cases hT1
    exact heq,
   (BuildBinop_array_index intArrayBuilder (.idd "arr" 0 0 false (some 6))
      (.strImm "x" (some 5)) rfl (by intro t h; cases h; decide)
      (by intro t h; cases h; decide)).2.2.2.2.2.2 6 _ 5 _ rfl rfl rfl rfl rfl (by decide)⟩

/-! ### Reset, StartNewFunction and the early rejections of BuildStmtStructDef -/

/-- C12. `Reset` establishes the begin-ready state and is idempotent. From every builder
state, after `Reset` the error count is 0, the line number 1, there is no AST root and no
assembly, the builder is not inside a function body, the frame table holds exactly one
frame, which is empty, parentless and tagged GLOBAL, and it is the current frame; the
function table and the declaration nodes are empty and the type catalog holds the pre-seeded
types only. `BeginBuild` therefore passes its assertion right after `Reset`, and a second
`Reset` yields the same state. -/
theorem Reset_begin_ready (b : BlockScriptBuilder) :
    (Reset b).mErrorCount = 0 ∧ (Reset b).mCurrentLineNumber = 1 ∧
    (Reset b).mActiveResult.mAst.isNone = true ∧
    (Reset b).mActiveResult.mAsm.mBlocks = none ∧
    (Reset b).mInFunBody = false ∧
    (Reset b).mCurrentFrame = some 0 ∧
    (Reset b).mSymbolTable.mFrames =
      [{ mEntries := [], mTotalSize := 0, mCreatorCategory := .GLOBAL, mParent := none }] ∧
    (Reset b).mSymbolTable.mFunTable = [] ∧
    (Reset b).mSymbolTable.mTypes = preseededTypes ∧
    (Reset b).mFunDecs = [] ∧
    BeginBuild (Reset b) = .ok (notify (Reset b) .OnCompilationBegin) ∧
    Reset (Reset b) = Reset b :=
  ⟨rfl, rfl, rfl, rfl, rfl, rfl, rfl, rfl, rfl, rfl, rfl, rfl⟩

/-- C13. `StartNewFunction` inside a function body returns false and leaves the builder as
it was. Outside a function body it returns true, appends one new frame whose parent is the
previous current frame, makes it the current frame and sets the in-function flag; catalog,
function table, declaration nodes and error state stay as they were. -/
theorem StartNewFunction_contract (b : BlockScriptBuilder) :
    (b.mInFunBody = true → StartNewFunction b = (b, false)) ∧
    (b.mInFunBody = false →
      ∃ b', StartNewFunction b = (b', true) ∧
        b'.mSymbolTable.mFrames = b.mSymbolTable.mFrames ++
          [{ mEntries := [], mTotalSize := 0, mCreatorCategory := .NONE,
             mParent := b.mCurrentFrame }] ∧
        b'.mCurrentFrame = some b.mSymbolTable.mFrames.length ∧
        b'.mInFunBody = true ∧
        b'.mSymbolTable.mTypes = b.mSymbolTable.mTypes ∧
        b'.mSymbolTable.mFunTable = b.mSymbolTable.mFunTable ∧
        b'.mFunDecs = b.mFunDecs ∧ b'.mErrorCount = b.mErrorCount ∧
        b'.mDispatched = b.mDispatched) := by
  constructor
  · intro h
    simp [StartNewFunction, h]
  · intro h
    refine ⟨(StartNewFrame { b with mInFunBody := true }).1, ?_, ?_, rfl, rfl, ?_, ?_,
      rfl, rfl, rfl⟩
    · simp [StartNewFunction, h]
    all_goals
      simp [StartNewFrame, SymbolTable.CreateFrame, SymbolTable.modifyFrame, store]

/-- Witness of C13: from the initial builder `StartNewFunction` opens frame 1 under the
global frame 0; a second call, now inside the function body, returns false and changes
nothing. -/
theorem StartNewFunction_contract_witness :
    (∃ b', StartNewFunction initialBuilder = (b', true) ∧
      b'.mSymbolTable.mFrames = initialBuilder.mSymbolTable.mFrames ++
        [{ mEntries := [], mTotalSize := 0, mCreatorCategory := .NONE, mParent := some 0 }] ∧
      b'.mCurrentFrame = some 1 ∧ b'.mInFunBody = true) ∧
    StartNewFunction (StartNewFunction initialBuilder).1 =
      ((StartNewFunction initialBuilder).1, false) := by
  obtain ⟨b', h, hf, hc, hi, _⟩ := (StartNewFunction_contract initialBuilder).2 rfl
  exact ⟨⟨b', h, hf, hc, hi⟩,
    (StartNewFunction_contract (StartNewFunction initialBuilder).1).1 rfl⟩

/-- C17. `BuildStmtStructDef` returns null with one diagnostic whenever the struct name
already resolves to a type of the catalog ("Struct type is trying to redefine a type.") or
the builder is inside a function body ("Struct definitions not allowed inside function
bodies."); symbol table (types, frames, functions), declaration nodes, current frame and
function-body flag are as they were. -/
theorem BuildStmtStructDef_early_rejections (b : BlockScriptBuilder) (name : String)
    (definitions : ArgList)
    (h : (b.GetTypeByName name).isSome = true ∨ b.mInFunBody = true) :
    ∃ msg, msg = (if (b.GetTypeByName name).isSome = true
                  then "Struct type is trying to redefine a type."
                  else "Struct definitions not allowed inside function bodies.") ∧
      BuildStmtStructDef b name definitions = .ok (BS_ErrorDispatcher b msg, none) ∧
      (BS_ErrorDispatcher b msg).mSymbolTable = b.mSymbolTable ∧
      (BS_ErrorDispatcher b msg).mFunDecs = b.mFunDecs ∧
      (BS_ErrorDispatcher b msg).mCurrentFrame = b.mCurrentFrame ∧
      (BS_ErrorDispatcher b msg).mInFunBody = b.mInFunBody ∧
      (BS_ErrorDispatcher b msg).mDispatched = b.mDispatched ++ [msg] := by
  refine ⟨_, rfl, ?_, rfl, rfl, rfl, rfl, rfl⟩
  by_cases hty : (b.GetTypeByName name).isSome = true
  · simp [BuildStmtStructDef, hty, fail]
  · have hin : b.mInFunBody = true := h.resolve_left hty
    simp [BuildStmtStructDef, hty, hin, fail]

/-- Witness of C17: a second `struct Pair` after the first is rejected as a redefinition, and
a structure definition inside an open function body is rejected; neither changes the symbol
table. -/
theorem BuildStmtStructDef_early_rejections_witness :
    BuildStmtStructDef pairAfter "Pair" pairFields =
      .ok (BS_ErrorDispatcher pairAfter "Struct type is trying to redefine a type.", none) ∧
    BuildStmtStructDef (StartNewFunction initialBuilder).1 "S" pairFields =
      .ok (BS_ErrorDispatcher (StartNewFunction initialBuilder).1
        "Struct definitions not allowed inside function bodies.", none) := by
  obtain ⟨m1, hm1, h1, _⟩ :=
    BuildStmtStructDef_early_rejections pairAfter "Pair" pairFields (Or.inl (by decide))
  obtain ⟨m2, hm2, h2, _⟩ :=
    BuildStmtStructDef_early_rejections (StartNewFunction initialBuilder).1 "S" pairFields
      (Or.inr rfl)
  have e1 : m1 = "Struct type is trying to redefine a type." := by rw [hm1]; decide
  have e2 : m2 = "Struct definitions not allowed inside function bodies." := by
    rw [hm2]; decide
  rw [e1] at h1
  rw [e2] at h2
  exact ⟨h1, h2⟩

/-! ### Struct member access -/

/-- The offset of a member that is the first field is 0. -/
theorem specFieldOffset_cons_eq (types : List TypeDesc) (name : String) (a : ArgDec)
    (tail : ArgList) (ha : a.mVar = name) : specFieldOffset types name (a :: tail) = 0 := by
  have hb : (a.mVar != name) = false := by simp [ha]
  simp [specFieldOffset, List.takeWhile, hb]

/-- A field of another name adds its byte size to the offset of the member. -/
theorem specFieldOffset_cons_ne (types : List TypeDesc) (name : String) (a : ArgDec)
    (tail : ArgList) (T : TypeDesc) (ha : a.mVar ≠ name) (hT : types[a.mType]? = some T) :
    specFieldOffset types name (a :: tail) = T.mByteSize + specFieldOffset types name tail := by
  have hb : (a.mVar != name) = true := by simp [ha]
  simp [specFieldOffset, List.takeWhile, hb, hT]

/-- The member scan stops at the first field of the name, with the sizes of the fields before
it summed onto the start offset. -/
theorem memberScan_found (types : List TypeDesc) (name : String) :
    ∀ (l : ArgList) (off : Int) (fld : ArgDec),
      l.find? (fun a => a.mVar == name) = some fld →
      (∀ a ∈ l, a.mType < types.length) →
      BuildBinop.memberScan types name l off =
        .ok (some fld.mType, off + (specFieldOffset types name l : Int)) := by
  intro l
  induction l with
  | nil => intro off fld h; simp at h
  | cons a tail ih =>
    intro off fld h hv
    by_cases ha : a.mVar = name
    · have hb : (a.mVar == name) = true := by simp [ha]
      have : fld = a := by simpa [List.find?, hb] using h.symm
      subst this
      simp [BuildBinop.memberScan, ha, specFieldOffset_cons_eq types name fld tail ha]
    · have hb : (a.mVar == name) = false := by simp [ha]
      have h' : tail.find? (fun a => a.mVar == name) = some fld := by
        simpa [List.find?, hb] using h
      obtain ⟨T, hT⟩ : ∃ T, types[a.mType]? = some T :=
        ⟨_, List.getElem?_eq_getElem (hv a (List.mem_cons_self _ _))⟩
      have := ih (off + (T.mByteSize : Int)) fld h'
        (fun x hx => hv x (List.mem_cons_of_mem _ hx))
      simp only [BuildBinop.memberScan, ha, if_false, deref, hT, bind, Except.bind, this,
        specFieldOffset_cons_ne types name a tail T ha hT]
      simp [add_assoc]

/-- The member scan of a name that is no field ends with a null type, after all sizes were
summed. -/
theorem memberScan_missing (types : List TypeDesc) (name : String) :
    ∀ (l : ArgList) (off : Int),
      (∀ a ∈ l, a.mVar ≠ name) →
      (∀ a ∈ l, a.mType < types.length) →
      BuildBinop.memberScan types name l off =
        .ok (none, off + (specFieldOffset types name l : Int)) := by
  intro l
  induction l with
  | nil => intro off _ _; simp [BuildBinop.memberScan, specFieldOffset]
  | cons a tail ih =>
    intro off hn hv
    have ha : a.mVar ≠ name := hn a (List.mem_cons_self _ _)
    obtain ⟨T, hT⟩ : ∃ T, types[a.mType]? = some T :=
      ⟨_, List.getElem?_eq_getElem (hv a (List.mem_cons_self _ _))⟩
    have := ih (off + (T.mByteSize : Int)) (fun x hx => hn x (List.mem_cons_of_mem _ hx))
      (fun x hx => hv x (List.mem_cons_of_mem _ hx))
    simp only [BuildBinop.memberScan, ha, if_false, deref, hT, bind, Except.bind, this,
      specFieldOffset_cons_ne types name a tail T ha hT]
    simp [add_assoc]

/-- C14. Struct member access. For an expression `s` whose type is a STRUCT of the catalog
(with its structure definition, whose field types are catalog entries) and a name `f` that
occurs in the field list, `BuildBinop(s, O_DOT, f)` returns a node whose type is the type of
the first field named `f`; the member identifier in it has as offset the sum of the byte
sizes of the fields that precede that field, frame depth 0 and the global flag cleared. The
builder is unchanged. -/
theorem BuildBinop_struct_member (b : BlockScriptBuilder) (s : Exp) (f : String)
    (o fo : Int) (g : Bool) (ty : Option TypePtr)
    (t1 : TypePtr) (T1 : TypeDesc) (sd : StmtStructDef) (fld : ArgDec)
    (hs : s.GetTypeDesc = some t1) (hT1 : b.mSymbolTable.mTypes[t1]? = some T1)
    (hm : T1.mModifier = .M_STRUCT) (hsd : T1.mStructDef = some sd)
    (hfld : sd.mArgList.find? (fun a => a.mVar == f) = some fld)
    (hvalid : ∀ a ∈ sd.mArgList, a.mType < b.mSymbolTable.mTypes.length) :
    BuildBinop b s .O_DOT (.idd f o fo g ty) =
      .ok (b, some (.binop s .O_DOT
        (.idd f (specFieldOffset b.mSymbolTable.mTypes f sd.mArgList) 0 false ty)
        (some fld.mType))) := by
  have hscan := memberScan_found b.mSymbolTable.mTypes f sd.mArgList 0 fld hfld hvalid
  simp [BuildBinop, hs, deref, hT1, hm, hsd, hscan, bind, Except.bind, pure, Except.pure]

/-- What the code does for a name that is no field of the structure: it dispatches "Member
of struct not found." and then still builds and returns the `Binop` node, with a null
type. -/
theorem BuildBinop_struct_unknown_member (b : BlockScriptBuilder) (s : Exp) (name : String)
    (o fo : Int) (g : Bool) (ty : Option TypePtr)
    (t1 : TypePtr) (T1 : TypeDesc) (sd : StmtStructDef)
    (hs : s.GetTypeDesc = some t1) (hT1 : b.mSymbolTable.mTypes[t1]? = some T1)
    (hm : T1.mModifier = .M_STRUCT) (hsd : T1.mStructDef = some sd)
    (hname : ∀ a ∈ sd.mArgList, a.mVar ≠ name)
    (hvalid : ∀ a ∈ sd.mArgList, a.mType < b.mSymbolTable.mTypes.length) :
    BuildBinop b s .O_DOT (.idd name o fo g ty) =
      .ok (BS_ErrorDispatcher b "Member of struct not found.",
        some (.binop s .O_DOT
          (.idd name (specFieldOffset b.mSymbolTable.mTypes name sd.mArgList) 0 false ty)
          none)) := by
  have hscan := memberScan_missing b.mSymbolTable.mTypes name sd.mArgList 0 hname hvalid
  simp [BuildBinop, hs, deref, hT1, hm, hsd, hscan, bind, Except.bind, pure, Except.pure]

/-- Witness of C14: with `p` of type `struct Pair { a : int; b : int }` (catalog entry 6),
`p.b` has type int (entry 0) and the member identifier has offset 4, the size of `a`. -/
theorem BuildBinop_struct_member_witness :
    BuildBinop pairAfter (.idd "p" 0 0 false (some 6)) .O_DOT (Exp.newIdd "b") =
      .ok (pairAfter, some (.binop (.idd "p" 0 0 false (some 6)) .O_DOT
        (.idd "b" 4 0 false none) (some 0))) :=
  BuildBinop_struct_member pairAfter (.idd "p" 0 0 false (some 6)) "b" (-1) (-1) false none 6
    pairType { mName := "Pair", mArgList := pairFields, mFrameInfo := some 1 }
    { mVar := "b", mType := 0, mOffset := 4 } rfl rfl rfl rfl rfl (by decide)

/-- C15, at the failing input. With `p` of type `struct Pair { a : int; b : int }` and `c`
no field of it, `BuildBinop(p, O_DOT, c)` dispatches exactly one diagnostic, "Member of
struct not found.", but does not return null: it returns the node `p.c` with a null type
and the member offset 8. -/
theorem BuildBinop_unknown_member_returns_node :
    BuildBinop pairAfter (.idd "p" 0 0 false (some 6)) .O_DOT (Exp.newIdd "c") =
      .ok (BS_ErrorDispatcher pairAfter "Member of struct not found.",
        some (.binop (.idd "p" 0 0 false (some 6)) .O_DOT (.idd "c" 8 0 false none) none)) ∧
    (BS_ErrorDispatcher pairAfter "Member of struct not found.").mDispatched =
      pairAfter.mDispatched ++ ["Member of struct not found."] :=
  ⟨rfl, rfl⟩


/-! ### Function calls -/

/-- The lookup finds a descriptor when one matches: the first that does. -/
theorem FindFunctionDescription_some (st : SymbolTable) (name : String)
    (argTypes : List (Option TypePtr))
    (h : ∃ d ∈ st.mFunTable, (d.mName == name && d.mArgTypes.map some == argTypes) = true) :
    ∃ k desc, st.FindFunctionDescription name argTypes = some k ∧
      st.mFunTable[k]? = some desc ∧
      (desc.mName == name && desc.mArgTypes.map some == argTypes) = true := by
  have hlt := @List.findIdx_lt_length_of_exists _
    (fun d : FunDesc => d.mName == name && d.mArgTypes.map some == argTypes) st.mFunTable h
  refine ⟨st.mFunTable.findIdx
      (fun d : FunDesc => d.mName == name && d.mArgTypes.map some == argTypes),
    st.mFunTable.get ⟨_, hlt⟩, ?_, ?_, ?_⟩
  · simp only [SymbolTable.FindFunctionDescription, hlt, if_true]
  · exact List.getElem?_eq_getElem hlt
  · exact @List.findIdx_getElem _
      (fun d : FunDesc => d.mName == name && d.mArgTypes.map some == argTypes) st.mFunTable hlt

/-- The lookup returns null when no descriptor matches. -/
theorem FindFunctionDescription_none (st : SymbolTable) (name : String)
    (argTypes : List (Option TypePtr))
    (h : ∀ d ∈ st.mFunTable, (d.mName == name && d.mArgTypes.map some == argTypes) = false) :
    st.FindFunctionDescription name argTypes = none := by
  have := @List.findIdx_eq_length_of_false _
    (fun d : FunDesc => d.mName == name && d.mArgTypes.map some == argTypes) st.mFunTable h
  simp only [SymbolTable.FindFunctionDescription, this, lt_irrefl, if_false]

/-- C16. `BuildFunCall(args, name)`, every descriptor of the function table pointing to a
declaration node. If an argument has no resolved type it returns null with "undefined
parameter passed to function call.". Otherwise it returns a call node if and only if the
function table holds a descriptor with the same name and positionally identical argument
types; the node is then bound to such a descriptor and has the return type of the
declaration of that descriptor, and the builder is unchanged. With no match it returns null
with "No function declaration found.". -/
theorem BuildFunCall_contract (b : BlockScriptBuilder) (args : ExpList) (name : String)
    (hdec : ∀ d ∈ b.mSymbolTable.mFunTable, d.mDec < b.mFunDecs.length) :
    ((∃ e ∈ args, e.GetTypeDesc = none) →
      BuildFunCall b args name = fail b "undefined parameter passed to function call.") ∧
    ((∀ e ∈ args, e.GetTypeDesc ≠ none) →
      ((∃ b' e, BuildFunCall b args name = .ok (b', some e)) ↔
        ∃ d ∈ b.mSymbolTable.mFunTable, specMatches d name args = true) ∧
      ((∃ d ∈ b.mSymbolTable.mFunTable, specMatches d name args = true) →
        ∃ k desc dec, b.mSymbolTable.mFunTable[k]? = some desc ∧
          specMatches desc name args = true ∧ b.mFunDecs[desc.mDec]? = some dec ∧
          BuildFunCall b args name =
            .ok (b, some (.funCall args name (some k) dec.mReturnType))) ∧
      ((∀ d ∈ b.mSymbolTable.mFunTable, specMatches d name args = false) →
        BuildFunCall b args name = fail b "No function declaration found.")) := by
  constructor
  · rintro ⟨e, he, hnone⟩
    have : args.any (fun e => e.GetTypeDesc.isNone) = true :=
      List.any_eq_true.mpr ⟨e, he, by simp [hnone]⟩
    simp [BuildFunCall, this]
  · intro htyped
    have hany : args.any (fun e => e.GetTypeDesc.isNone) = false := by
      rw [Bool.eq_false_iff]
      intro h
      obtain ⟨e, he, hn⟩ := List.any_eq_true.mp h
      exact htyped e he (by simpa using hn)
    have hyes : (∃ d ∈ b.mSymbolTable.mFunTable, specMatches d name args = true) →
        ∃ k desc dec, b.mSymbolTable.mFunTable[k]? = some desc ∧
          specMatches desc name args = true ∧ b.mFunDecs[desc.mDec]? = some dec ∧
          BuildFunCall b args name =
            .ok (b, some (.funCall args name (some k) dec.mReturnType)) := by
      intro h
      obtain ⟨k, desc, hfind, hk, hm⟩ :=
        FindFunctionDescription_some b.mSymbolTable name (args.map Exp.GetTypeDesc) h
      have hmem : desc ∈ b.mSymbolTable.mFunTable := List.getElem?_mem hk
      refine ⟨k, desc, b.mFunDecs.get ⟨desc.mDec, hdec desc hmem⟩, hk, hm,
        List.getElem?_eq_getElem (hdec desc hmem), ?_⟩
      have hd : b.mFunDecs[desc.mDec]? = some (b.mFunDecs.get ⟨desc.mDec, hdec desc hmem⟩) :=
        List.getElem?_eq_getElem (hdec desc hmem)
      simp only [BuildFunCall, hany, hfind, deref, hk, hd, bind, Except.bind, pure,
        Except.pure]
      simp
    have hno : (∀ d ∈ b.mSymbolTable.mFunTable, specMatches d name args = false) →
        BuildFunCall b args name = fail b "No function declaration found." := by
      intro h
      have hfind := FindFunctionDescription_none b.mSymbolTable name
        (args.map Exp.GetTypeDesc) h
      simp only [BuildFunCall, hany, hfind]
      simp
    refine ⟨⟨?_, ?_⟩, hyes, hno⟩
    · rintro ⟨b', e, hres⟩
      by_contra hcon
      have hall : ∀ d ∈ b.mSymbolTable.mFunTable, specMatches d name args = false := by
        intro d hd
        cases hmd : specMatches d name args with
        | false => rfl
        | true => exact absurd ⟨d, hd, hmd⟩ hcon
      rw [hno hall] at hres
      cases hres
    · intro h
      obtain ⟨k, desc, dec, _, _, _, heq⟩ := hyes h
      exact ⟨_, _, heq⟩

/-- Witness of C16: after `struct Pair { a : int; b : int }`, the call `Pair(1, 2)` is bound
to a descriptor `Pair(int, int)` and has the return type of its declaration; the call
`Pair(1.0)` with a float argument matches no descriptor and is rejected. -/
theorem BuildFunCall_contract_witness :
    (∃ k desc dec, pairAfter.mSymbolTable.mFunTable[k]? = some desc ∧
      specMatches desc "Pair" [.imm 1 (some 0), .imm 2 (some 0)] = true ∧
      pairAfter.mFunDecs[desc.mDec]? = some dec ∧
      BuildFunCall pairAfter [.imm 1 (some 0), .imm 2 (some 0)] "Pair" =
        .ok (pairAfter, some (.funCall [.imm 1 (some 0), .imm 2 (some 0)] "Pair" (some k)
          dec.mReturnType))) ∧
    BuildFunCall pairAfter [.imm 1 (some 1)] "Pair" =
      fail pairAfter "No function declaration found." :=
  ⟨((BuildFunCall_contract pairAfter [.imm 1 (some 0), .imm 2 (some 0)] "Pair"
      (by decide)).2 (by simp)).2.1 (by decide),
   ((BuildFunCall_contract pairAfter [.imm 1 (some 1)] "Pair" (by decide)).2
      (by simp)).2.2 (by decide)⟩

/-! ### Missing function bodies at EndBuild -/

/-- The loop of `EndBuild` stops with `true` when some descriptor has neither statement list
nor callback. -/
theorem findMissingBody_true (funDecs : List StmtFunDec) (l : List FunDesc)
    (h : ∀ d ∈ l, d.mDec < funDecs.length)
    (hmiss : ∃ d ∈ l, ∃ dec, funDecs[d.mDec]? = some dec ∧ dec.mStmtList.isNone = true ∧
      d.mCallback = none) :
    EndBuild.findMissingBody funDecs l = .ok true := by
  induction l with
  | nil => obtain ⟨d, hd, _⟩ := hmiss; cases hd
  | cons d rest ih =>
    have hd : d.mDec < funDecs.length := h d (List.mem_cons_self _ _)
    have hget : funDecs[d.mDec]? = some (funDecs[d.mDec]) := List.getElem?_eq_getElem hd
    simp only [EndBuild.findMissingBody, deref_some _ _ _ hget, bind, Except.bind]
    split
    · rfl
    · rename_i hcond
      apply ih (fun x hx => h x (List.mem_cons_of_mem _ hx))
      obtain ⟨d', hd', dec, hdec, hbody, hcb⟩ := hmiss
      rcases List.mem_cons.mp hd' with heq | hmem
      · subst heq
        rw [hget] at hdec
        cases hdec
        exact absurd (by simp [hbody, FunDesc.IsCallback, hcb]) hcond
      · exact ⟨d', hmem, dec, hdec, hbody, hcb⟩

/-- What `EndBuild` does when some registered function has neither a statement list nor a
callback: it returns a result with a null assembly and notifies the listener with success =
false; from an error count of zero it dispatches one "Missing function body." and leaves the
error count at 2, its own increment followed by that of the dispatcher. -/
theorem EndBuild_missing_body (canon : Canonizer) (b : BlockScriptBuilder)
    (hdec : ∀ d ∈ b.mSymbolTable.mFunTable, d.mDec < b.mFunDecs.length)
    (hmiss : ∃ d ∈ b.mSymbolTable.mFunTable, ∃ dec, b.mFunDecs[d.mDec]? = some dec ∧
      dec.mStmtList.isNone = true ∧ d.mCallback = none) :
    ∃ b' result, EndBuild canon b = .ok (b', result) ∧
      result.mAsm.mBlocks = none ∧
      (b.mErrorCount = 0 → b'.mErrorCount = 2 ∧
        b'.mDispatched = b.mDispatched ++ ["Missing function body."] ∧
        b'.mEventListener = b.mEventListener.map (fun l => l ++
          [.OnCompilationError b.mCurrentLineNumber "Missing function body.",
           .OnCompilationEnd false])) ∧
      (b.mErrorCount ≠ 0 → b'.mErrorCount = b.mErrorCount ∧ b'.mDispatched = b.mDispatched ∧
        b'.mEventListener = b.mEventListener.map (fun l => l ++ [.OnCompilationEnd false])) := by
  have hr := findMissingBody_true b.mFunDecs b.mSymbolTable.mFunTable hdec hmiss
  unfold EndBuild
  by_cases h0 : b.mErrorCount = 0
  · simp only [h0, hr, bind, Except.bind, pure, Except.pure, notify, BS_ErrorDispatcher,
      if_true]
    refine ⟨_, _, rfl, by simp, fun _ => ⟨by simp, rfl, ?_⟩, fun h => absurd rfl h⟩
    cases b.mEventListener <;> simp
  · simp only [h0, bind, Except.bind, pure, Except.pure, notify, if_false]
    refine ⟨_, _, rfl, by simp [h0], fun h => False.elim h, fun _ => ⟨rfl, rfl, ?_⟩⟩
    simp [h0]

/-- C20, at the failing input. On the builder with the single function `int f()` left without
body and callback, and an error count of zero, `EndBuild` returns a null assembly, notifies
the listener with success = false and dispatches exactly one "Missing function body.", but
the error count after it is 2, not 1. -/
theorem EndBuild_missing_body_counts_twice :
    ∃ b' result, EndBuild exampleCanonizer bodilessBuilder = .ok (b', result) ∧
      bodilessBuilder.mErrorCount = 0 ∧ b'.mErrorCount = 2 ∧
      result.mAsm.mBlocks = none ∧
      b'.mDispatched = ["Missing function body."] ∧
      b'.mEventListener =
        some [.OnCompilationError 1 "Missing function body.", .OnCompilationEnd false] :=
  ⟨_, _, rfl, rfl, rfl, rfl, rfl, rfl⟩

/-! ### Function declarations and signature uniqueness -/

/-- The collision test of the function table is membership of the signature among the
registered signatures. -/
theorem any_signature (l : List FunDesc) (name : String) (argTypes : List TypePtr) :
    l.any (fun d => d.mName == name && d.mArgTypes == argTypes) = true ↔
      (name, argTypes) ∈ l.map FunDesc.signature := by
  simp only [List.any_eq_true, List.mem_map, FunDesc.signature, Bool.and_eq_true, beq_iff_eq,
    Prod.mk.injEq]

/-- The result of `BuildStmtFunDec` when the current frame exists and the return type
resolves: the duplicate path and the registration path. -/
theorem BuildStmtFunDec_eq (b : BlockScriptBuilder) (argList : ArgList)
    (returnIdd nameIdd : String) (f : FramePtr) (frame : StackFrameInfo) (rt : TypePtr)
    (hcur : b.mCurrentFrame = some f) (hframe : b.mSymbolTable.mFrames[f]? = some frame)
    (hret : b.GetTypeByName returnIdd = some rt) :
    BuildStmtFunDec b argList returnIdd nameIdd =
      if b.mSymbolTable.mFunTable.any
          (fun d => d.mName == nameIdd && d.mArgTypes == argList.map (fun a => a.mType)) then
        .ok (BS_ErrorDispatcher
          { b with
            mFunDecs := b.mFunDecs ++
              [{ mArgList := argList, mReturnIdd := returnIdd, mName := nameIdd,
                 mReturnType := some rt, mFrame := some f, mDesc := none, mStmtList := none }],
            mSymbolTable := { b.mSymbolTable with
              mFrames := b.mSymbolTable.mFrames.set f
                { frame with mCreatorCategory := .FUN_BODY } } }
          "Duplicate function declaration found.", none)
      else
        .ok ({ b with
            mFunDecs := b.mFunDecs ++
              [{ mArgList := argList, mReturnIdd := returnIdd, mName := nameIdd,
                 mReturnType := some rt, mFrame := some f,
                 mDesc := some b.mSymbolTable.mFunTable.length, mStmtList := none }],
            mSymbolTable :=
              { mTypes := b.mSymbolTable.mTypes,
                mFrames := b.mSymbolTable.mFrames.set f
                  { frame with mCreatorCategory := .FUN_BODY },
                mFunTable := b.mSymbolTable.mFunTable ++
                  [{ mName := nameIdd, mArgTypes := argList.map (fun a => a.mType),
                     mDec := b.mFunDecs.length, mCallback := none }] } },
          some b.mFunDecs.length) := by
  cases hany : b.mSymbolTable.mFunTable.any
      (fun d => d.mName == nameIdd && d.mArgTypes == argList.map (fun a => a.mType)) with
  | true =>
    simp [BuildStmtFunDec, hret, BlockScriptBuilder.updateCurrentFrame, hcur, hframe,
      SymbolTable.modifyFrame, SymbolTable.CreateFunctionDescription, store, bind, Except.bind,
      pure, Except.pure, hany, fail]
  | false =>
    simp [BuildStmtFunDec, hret, BlockScriptBuilder.updateCurrentFrame, hcur, hframe,
      SymbolTable.modifyFrame, SymbolTable.CreateFunctionDescription, store, bind, Except.bind,
      pure, Except.pure, hany, set_length_append]

/-- The three outcomes of `BuildStmtFunDec` in a builder whose current frame exists: unknown
return type, duplicate signature, new signature. -/
theorem BuildStmtFunDec_cases (b : BlockScriptBuilder) (argList : ArgList)
    (returnIdd nameIdd : String)
    (hcur : ∃ f, b.mCurrentFrame = some f ∧ f < b.mSymbolTable.mFrames.length) :
    (b.GetTypeByName returnIdd = none →
      BuildStmtFunDec b argList returnIdd nameIdd = fail b "Unknown return type.") ∧
    (∀ rt, b.GetTypeByName returnIdd = some rt →
      (nameIdd, argList.map (fun a => a.mType)) ∈
        b.mSymbolTable.mFunTable.map FunDesc.signature →
      ∃ b', BuildStmtFunDec b argList returnIdd nameIdd = .ok (b', none) ∧
        b'.mDispatched = b.mDispatched ++ ["Duplicate function declaration found."] ∧
        b'.mErrorCount = b.mErrorCount + 1 ∧
        b'.mSymbolTable.mFunTable = b.mSymbolTable.mFunTable ∧
        b'.mCurrentFrame = b.mCurrentFrame ∧
        b'.mSymbolTable.mFrames.length = b.mSymbolTable.mFrames.length) ∧
    (∀ rt, b.GetTypeByName returnIdd = some rt →
      (nameIdd, argList.map (fun a => a.mType)) ∉
        b.mSymbolTable.mFunTable.map FunDesc.signature →
      ∃ b' dec, BuildStmtFunDec b argList returnIdd nameIdd = .ok (b', some b.mFunDecs.length) ∧
        b'.mSymbolTable.mFunTable = b.mSymbolTable.mFunTable ++
          [{ mName := nameIdd, mArgTypes := argList.map (fun a => a.mType),
             mDec := b.mFunDecs.length, mCallback := none }] ∧
        b'.mFunDecs = b.mFunDecs ++ [dec] ∧
        dec.mDesc = some b.mSymbolTable.mFunTable.length ∧
        dec.mReturnType = some rt ∧ dec.mName = nameIdd ∧ dec.mArgList = argList ∧
        b'.mDispatched = b.mDispatched ∧ b'.mErrorCount = b.mErrorCount ∧
        b'.mCurrentFrame = b.mCurrentFrame ∧
        b'.mSymbolTable.mFrames.length = b.mSymbolTable.mFrames.length) := by
  obtain ⟨f, hf, hlt⟩ := hcur
  have hframe : b.mSymbolTable.mFrames[f]? = some (b.mSymbolTable.mFrames.get ⟨f, hlt⟩) :=
    List.getElem?_eq_getElem hlt
  refine ⟨?_, ?_, ?_⟩
  · intro h
    simp [BuildStmtFunDec, h]
  · intro rt hret hmem
    have hany := (any_signature _ _ _).mpr hmem
    rw [BuildStmtFunDec_eq b argList returnIdd nameIdd f _ rt hf hframe hret, if_pos hany]
    exact ⟨_, rfl, rfl, rfl, rfl, rfl, by simp [BS_ErrorDispatcher]⟩
  · intro rt hret hmem
    have hany : ¬ (b.mSymbolTable.mFunTable.any (fun d => d.mName == nameIdd &&
        d.mArgTypes == argList.map (fun a => a.mType)) = true) :=
      fun h => hmem ((any_signature _ _ _).mp h)
    rw [BuildStmtFunDec_eq b argList returnIdd nameIdd f _ rt hf hframe hret, if_neg hany]
    exact ⟨_, _, rfl, rfl, rfl, rfl, rfl, rfl, rfl, rfl, rfl, rfl, by simp⟩

/-- One `BuildStmtFunDec` call returns, keeps the current frame in the frame table and keeps
the registered signatures pairwise distinct. -/
theorem BuildStmtFunDec_step (b : BlockScriptBuilder) (argList : ArgList)
    (returnIdd nameIdd : String)
    (hcur : ∃ f, b.mCurrentFrame = some f ∧ f < b.mSymbolTable.mFrames.length)
    (hnodup : (b.mSymbolTable.mFunTable.map FunDesc.signature).Nodup) :
    ∃ b' r, BuildStmtFunDec b argList returnIdd nameIdd = .ok (b', r) ∧
      (∃ f, b'.mCurrentFrame = some f ∧ f < b'.mSymbolTable.mFrames.length) ∧
      (b'.mSymbolTable.mFunTable.map FunDesc.signature).Nodup := by
  obtain ⟨c1, c2, c3⟩ := BuildStmtFunDec_cases b argList returnIdd nameIdd hcur
  cases hret : b.GetTypeByName returnIdd with
  | none => exact ⟨_, _, c1 hret, hcur, hnodup⟩
  | some rt =>
    by_cases hmem : (nameIdd, argList.map (fun a => a.mType)) ∈
        b.mSymbolTable.mFunTable.map FunDesc.signature
    · obtain ⟨b', h, _, _, hft, hc, hlen⟩ := c2 rt hret hmem
      refine ⟨b', none, h, ?_, ?_⟩
      · rw [hc, hlen]; exact hcur
      · rw [hft]; exact hnodup
    · obtain ⟨b', dec, h, hft, _, _, _, _, _, _, _, hc, hlen⟩ := c3 rt hret hmem
      refine ⟨b', _, h, ?_, ?_⟩
      · rw [hc, hlen]; exact hcur
      · rw [hft, List.map_append, List.nodup_append]
        refine ⟨hnodup, List.nodup_singleton _, ?_⟩
        intro x hx hx'
        rw [List.map_singleton, List.mem_singleton] at hx'
        subst hx'
        exact hmem hx

/-- A sequence of `BuildStmtFunDec` calls returns and keeps the registered signatures pairwise
distinct. -/
theorem runFunDecs_invariant (calls : List (ArgList × String × String)) :
    ∀ b : BlockScriptBuilder,
      (∃ f, b.mCurrentFrame = some f ∧ f < b.mSymbolTable.mFrames.length) →
      (b.mSymbolTable.mFunTable.map FunDesc.signature).Nodup →
      ∃ b', runFunDecs b calls = .ok b' ∧
        (∃ f, b'.mCurrentFrame = some f ∧ f < b'.mSymbolTable.mFrames.length) ∧
        (b'.mSymbolTable.mFunTable.map FunDesc.signature).Nodup := by
  induction calls with
  | nil => intro b hc hn; exact ⟨b, rfl, hc, hn⟩
  | cons c rest ih =>
    intro b hc hn
    obtain ⟨argList, returnIdd, nameIdd⟩ := c
    obtain ⟨b1, r, h1, hc1, hn1⟩ := BuildStmtFunDec_step b argList returnIdd nameIdd hc hn
    obtain ⟨b', h', hc', hn'⟩ := ih b1 hc1 hn1
    exact ⟨b', by simp only [runFunDecs, h1, bind, Except.bind, h'], hc', hn'⟩

/-- C19, amended. Function-signature uniqueness is an invariant of the builder: from `Reset`
of any builder, every sequence of `BuildStmtFunDec` calls returns, and in the state it
reaches no two descriptors of the function table share the same (name, parameter-type
list). In such a state a further declaration with an unknown return type returns null with
"Unknown return type."; one with a resolvable return type whose signature is already
registered returns null with "Duplicate function declaration found." and leaves the function
table as it was; one with a resolvable return type and a new signature is registered: a
descriptor with that signature is appended, it points to the new declaration node, the node
points back to it and carries the return type, and the signatures stay pairwise distinct. -/
theorem BuildStmtFunDec_signature_unique (b0 : BlockScriptBuilder)
    (calls : List (ArgList × String × String)) :
    ∃ b, runFunDecs (Reset b0) calls = .ok b ∧
      (b.mSymbolTable.mFunTable.map FunDesc.signature).Nodup ∧
      ∀ (argList : ArgList) (returnIdd nameIdd : String),
        (b.GetTypeByName returnIdd = none →
          BuildStmtFunDec b argList returnIdd nameIdd = fail b "Unknown return type.") ∧
        (∀ rt, b.GetTypeByName returnIdd = some rt →
          (nameIdd, argList.map (fun a => a.mType)) ∈
            b.mSymbolTable.mFunTable.map FunDesc.signature →
          ∃ b', BuildStmtFunDec b argList returnIdd nameIdd = .ok (b', none) ∧
            b'.mDispatched = b.mDispatched ++ ["Duplicate function declaration found."] ∧
            b'.mSymbolTable.mFunTable = b.mSymbolTable.mFunTable) ∧
        (∀ rt, b.GetTypeByName returnIdd = some rt →
          (nameIdd, argList.map (fun a => a.mType)) ∉
            b.mSymbolTable.mFunTable.map FunDesc.signature →
          ∃ b' dec, BuildStmtFunDec b argList returnIdd nameIdd =
              .ok (b', some b.mFunDecs.length) ∧
            b'.mSymbolTable.mFunTable = b.mSymbolTable.mFunTable ++
              [{ mName := nameIdd, mArgTypes := argList.map (fun a => a.mType),
                 mDec := b.mFunDecs.length, mCallback := none }] ∧
            b'.mFunDecs = b.mFunDecs ++ [dec] ∧
            dec.mDesc = some b.mSymbolTable.mFunTable.length ∧
            dec.mReturnType = some rt ∧ dec.mName = nameIdd ∧ dec.mArgList = argList ∧
            b'.mDispatched = b.mDispatched ∧
            (b'.mSymbolTable.mFunTable.map FunDesc.signature).Nodup) := by
  obtain ⟨b, hrun, hcur, hnodup⟩ := runFunDecs_invariant calls (Reset b0)
    ⟨0, rfl, Nat.zero_lt_one⟩ (List.nodup_nil)
  refine ⟨b, hrun, hnodup, ?_⟩
  intro argList returnIdd nameIdd
  obtain ⟨c1, c2, c3⟩ := BuildStmtFunDec_cases b argList returnIdd nameIdd hcur
  refine ⟨c1, ?_, ?_⟩
  · intro rt hret hmem
    obtain ⟨b', h, hd, _, hft, _⟩ := c2 rt hret hmem
    exact ⟨b', h, hd, hft⟩
  · intro rt hret hmem
    obtain ⟨b', dec, h, hft, hfd, hdesc, hrt, hn, hal, hd, _⟩ := c3 rt hret hmem
    refine ⟨b', dec, h, hft, hfd, hdesc, hrt, hn, hal, hd, ?_⟩
    rw [hft, List.map_append, List.nodup_append]
    refine ⟨hnodup, List.nodup_singleton _, ?_⟩
    intro x hx hx'
    rw [List.map_singleton, List.mem_singleton] at hx'
    subst hx'
    exact hmem hx

/-- Counterexample to C19 as stated: after `int f()` was declared from `Reset`, a declaration
`foo f()` has the registered signature (f, no parameters), yet the diagnostic is "Unknown
return type." and not "Duplicate function declaration found.": the return type is looked up
before the signature is compared. -/
theorem BuildStmtFunDec_duplicate_counterexample :
    ∃ b, runFunDecs (Reset emptyBuilder) [([], "int", "f")] = .ok b ∧
      ("f", []) ∈ b.mSymbolTable.mFunTable.map FunDesc.signature ∧
      BuildStmtFunDec b [] "foo" "f" = .ok (BS_ErrorDispatcher b "Unknown return type.", none) ∧
      (BS_ErrorDispatcher b "Unknown return type.").mDispatched = ["Unknown return type."] :=
  ⟨_, rfl, by decide, rfl, rfl⟩

/-! ### The member cap of BuildStmtStructDef -/

/-- A type the catalog lookup returns is an entry of the catalog. -/
theorem GetTypeByName_lt (st : SymbolTable) (name : String) (t : TypePtr)
    (h : st.GetTypeByName name = some t) : t < st.mTypes.length := by
  simp only [SymbolTable.GetTypeByName] at h
  split at h
  · cases h; assumption
  · cases h

/-- The name of a type of the catalog resolves. -/
theorem GetTypeByName_isSome_of_mem (st : SymbolTable) (T : TypeDesc) (hT : T ∈ st.mTypes) :
    (st.GetTypeByName T.mName).isSome = true := by
  have hlt := @List.findIdx_lt_length_of_exists _ (fun t : TypeDesc => t.mName == T.mName)
    st.mTypes ⟨T, hT, by simp⟩
  simp [SymbolTable.GetTypeByName, hlt]

/-- The result of `BuildArgDec` for a name the current frame does not declare. -/
theorem BuildArgDec_fresh_eq (b : BlockScriptBuilder) (var : String) (t : TypePtr)
    (f : FramePtr) (frame : StackFrameInfo) (td : TypeDesc)
    (hcur : b.mCurrentFrame = some f) (hframe : b.mSymbolTable.mFrames[f]? = some frame)
    (htype : b.mSymbolTable.mTypes[t]? = some td)
    (hnone : frame.FindDeclaration var = none) :
    BuildArgDec b var (some t) =
      .ok ({ b with mSymbolTable := { b.mSymbolTable with
              mFrames := b.mSymbolTable.mFrames.set f
                { frame with
                  mEntries := frame.mEntries ++
                    [{ mName := var, mType := t, mOffset := (frame.mTotalSize : Int),
                       mIsArg := true }],
                  mTotalSize := frame.mTotalSize + td.mByteSize } } },
           some ⟨var, t, (frame.mTotalSize : Int)⟩) := by
  simp only [BuildArgDec, RegisterStackMember, hcur, deref_some _ _ _ hframe, hnone,
    allocate_eq b var t true f frame td hcur hframe htype, bind, Except.bind, pure,
    Except.pure]

/-- The parameter loop of `CreateIntrinsicFunction` succeeds for distinct parameter names that
the open frame does not declare and type names that resolve. -/
theorem declareArgs_succeeds (args : List (String × String)) :
    ∀ (b : BlockScriptBuilder) (f : FramePtr) (frame : StackFrameInfo),
      b.mCurrentFrame = some f → b.mSymbolTable.mFrames[f]? = some frame →
      (∀ a ∈ args, frame.FindDeclaration a.2 = none) →
      (args.map Prod.snd).Nodup →
      (∀ a ∈ args, (b.GetTypeByName a.1).isSome = true) →
      ∃ b' l, CreateIntrinsicFunction.declareArgs b args = .ok (b', some l) ∧
        b'.mCurrentFrame = some f ∧ f < b'.mSymbolTable.mFrames.length := by
  induction args with
  | nil =>
    intro b f frame hcur hframe _ _ _
    exact ⟨b, [], rfl, hcur, lt_length_of_getElem? _ _ _ hframe⟩
  | cons a rest ih =>
    intro b f frame hcur hframe hfree hnodup hres
    obtain ⟨typeName, argName⟩ := a
    obtain ⟨t, ht⟩ := Option.isSome_iff_exists.mp (hres (typeName, argName)
      (List.mem_cons_self _ _))
    have htlt : t < b.mSymbolTable.mTypes.length := GetTypeByName_lt _ _ _ ht
    have htd : b.mSymbolTable.mTypes[t]? = some (b.mSymbolTable.mTypes.get ⟨t, htlt⟩) :=
      List.getElem?_eq_getElem htlt
    have hfresh : frame.FindDeclaration argName = none :=
      hfree (typeName, argName) (List.mem_cons_self _ _)
    have hstep := BuildArgDec_fresh_eq b argName t f frame _ hcur hframe htd hfresh
    have hflt : f < b.mSymbolTable.mFrames.length := lt_length_of_getElem? _ _ _ hframe
    rw [List.map_cons, List.nodup_cons] at hnodup
    have hframe' : (b.mSymbolTable.mFrames.set f
        { frame with
          mEntries := frame.mEntries ++
            [{ mName := argName, mType := t, mOffset := (frame.mTotalSize : Int),
               mIsArg := true }],
          mTotalSize := frame.mTotalSize +
            (b.mSymbolTable.mTypes.get ⟨t, htlt⟩).mByteSize })[f]? =
        some { frame with
          mEntries := frame.mEntries ++
            [{ mName := argName, mType := t, mOffset := (frame.mTotalSize : Int),
               mIsArg := true }],
          mTotalSize := frame.mTotalSize +
            (b.mSymbolTable.mTypes.get ⟨t, htlt⟩).mByteSize } := by
      simp [hflt]
    obtain ⟨b', l, hrest, hc', hl'⟩ := ih
      { b with mSymbolTable := { b.mSymbolTable with
          mFrames := b.mSymbolTable.mFrames.set f
            { frame with
              mEntries := frame.mEntries ++
                [{ mName := argName, mType := t, mOffset := (frame.mTotalSize : Int),
                   mIsArg := true }],
              mTotalSize := frame.mTotalSize +
                (b.mSymbolTable.mTypes.get ⟨t, htlt⟩).mByteSize } } }
      f
      { frame with
        mEntries := frame.mEntries ++
          [{ mName := argName, mType := t, mOffset := (frame.mTotalSize : Int),
             mIsArg := true }],
        mTotalSize := frame.mTotalSize +
          (b.mSymbolTable.mTypes.get ⟨t, htlt⟩).mByteSize }
      hcur hframe'
      (by
        intro x hx
        have hx1 := hfree x (List.mem_cons_of_mem _ hx)
        have hx2 : x.2 ∈ rest.map Prod.snd := List.mem_map_of_mem Prod.snd hx
        have hne : argName ≠ x.2 := by
          intro h
          apply hnodup.1
          simpa [h] using hx2
        simp only [StackFrameInfo.FindDeclaration] at hx1 ⊢
        simp [List.find?_append, hx1, hne])
      hnodup.2
      (fun x hx => hres x (List.mem_cons_of_mem _ hx))
    refine ⟨b', ⟨argName, t, (frame.mTotalSize : Int)⟩ :: l, ?_, hc', hl'⟩
    have ht' : b.GetTypeByName typeName = some t := ht
    simp only [CreateIntrinsicFunction.declareArgs, ht', hstep, bind, Except.bind, hrest, pure,
      Except.pure, Option.map]

/-- `BindIntrinsic` returns inside a function body, for a declaration node that is linked to a
descriptor and a current frame of the frame table. -/
theorem BindIntrinsic_succeeds (b : BlockScriptBuilder) (p : FunDecPtr) (cb : FunCallback)
    (dec : StmtFunDec) (k : FunDescPtr) (desc : FunDesc) (f : FramePtr)
    (hin : b.mInFunBody = true) (hdec : b.mFunDecs[p]? = some dec) (hk : dec.mDesc = some k)
    (hdesc : b.mSymbolTable.mFunTable[k]? = some desc)
    (hcur : b.mCurrentFrame = some f) (hf : f < b.mSymbolTable.mFrames.length) :
    ∃ b', BindIntrinsic b p cb = .ok b' := by
  have hframe : b.mSymbolTable.mFrames[f]? = some (b.mSymbolTable.mFrames.get ⟨f, hf⟩) :=
    List.getElem?_eq_getElem hf
  simp [BindIntrinsic, hin, deref, hdec, hk, hdesc, PopFrame, hcur, hframe, bind, Except.bind,
    pure, Except.pure]

/-- Outside a function body `StartNewFunction` opens a frame under the current frame. -/
theorem StartNewFunction_opens (b : BlockScriptBuilder) (h : b.mInFunBody = false) :
    ∃ b', StartNewFunction b = (b', true) ∧
      b'.mSymbolTable.mFrames = b.mSymbolTable.mFrames ++
        [{ mEntries := [], mTotalSize := 0, mCreatorCategory := .NONE,
           mParent := b.mCurrentFrame }] ∧
      b'.mCurrentFrame = some b.mSymbolTable.mFrames.length ∧
      b'.mInFunBody = true ∧
      b'.mSymbolTable.mTypes = b.mSymbolTable.mTypes ∧
      b'.mSymbolTable.mFunTable = b.mSymbolTable.mFunTable ∧
      b'.mFunDecs = b.mFunDecs := by
  refine ⟨(StartNewFrame { b with mInFunBody := true }).1, ?_, ?_, rfl, rfl, ?_, ?_, rfl⟩
  · simp [StartNewFunction, h]
  all_goals
    simp [StartNewFrame, SymbolTable.CreateFrame, SymbolTable.modifyFrame, store]

/-- `CreateIntrinsicFunction` returns true outside a function body when the return type and
the parameter type names resolve, the parameter names are distinct and no registered
function of that name has as many parameters. -/
theorem CreateIntrinsicFunction_succeeds (b : BlockScriptBuilder) (funName : String)
    (args : List (String × String)) (returnType : String) (cb : FunCallback) (rt : TypePtr)
    (hin : b.mInFunBody = false)
    (hret : b.GetTypeByName returnType = some rt)
    (hnodup : (args.map Prod.snd).Nodup)
    (hres : ∀ a ∈ args, (b.GetTypeByName a.1).isSome = true)
    (hfree : ∀ d ∈ b.mSymbolTable.mFunTable, d.mName = funName →
      d.mArgTypes.length ≠ args.length) :
    ∃ b', CreateIntrinsicFunction b funName args returnType cb = .ok (b', true) := by
  obtain ⟨b1, hstart, hframes1, hcur1, hin1, htypes1, hft1, hfd1⟩ :=
    StartNewFunction_opens b hin
  have hn : b.GetTypeByName = b1.GetTypeByName := by
    funext n
    exact (congrFun (GetTypeByName_congr b.mSymbolTable b1.mSymbolTable htypes1) n).symm
  have hframe1 : b1.mSymbolTable.mFrames[b.mSymbolTable.mFrames.length]? =
      some { mEntries := [], mTotalSize := 0, mCreatorCategory := .NONE,
             mParent := b.mCurrentFrame } := by
    rw [hframes1]; simp
  obtain ⟨b2, l, hargs, hcur2, hlt2⟩ := declareArgs_succeeds args b1 _ _ hcur1 hframe1
    (fun a _ => rfl) hnodup (fun a ha => hn ▸ hres a ha)
  obtain ⟨⟨htypes2, hft2, hfd2, hin2⟩, _, hl⟩ := declareArgs_ok args b1 b2 l hargs
  have hlen : l.length = args.length := by
    have := congrArg List.length hl
    simpa using this
  have hret2 : b2.GetTypeByName returnType = some rt := by
    have : b2.GetTypeByName = b.GetTypeByName := by
      funext n
      exact congrFun (GetTypeByName_congr b.mSymbolTable b2.mSymbolTable
        (htypes2.trans htypes1)) n
    rw [this]; exact hret
  have hnew : (funName, l.map (fun a => a.mType)) ∉
      b2.mSymbolTable.mFunTable.map FunDesc.signature := by
    intro hmem
    obtain ⟨d, hd, hsig⟩ := List.mem_map.mp hmem
    simp only [FunDesc.signature, Prod.mk.injEq] at hsig
    rw [hft2, hft1] at hd
    apply hfree d hd hsig.1
    rw [hsig.2, List.length_map, hlen]
  obtain ⟨b3, dec, hdec, hft3, hfd3, hdesc3, _, _, _, _, _, hcur3, hlen3⟩ :=
    (BuildStmtFunDec_cases b2 l returnType funName ⟨_, hcur2, hlt2⟩).2.2 rt hret2 hnew
  obtain ⟨_, _, _, _, _, _, _, _, _, hin3, _⟩ :=
    BuildStmtFunDec_ok b2 b3 l returnType funName _ hdec
  obtain ⟨b4, hbind⟩ := BindIntrinsic_succeeds b3 b2.mFunDecs.length cb dec
    b2.mSymbolTable.mFunTable.length _ (b.mSymbolTable.mFrames.length)
    (by rw [hin3, hin2, hin1]) (by rw [hfd3]; simp) hdesc3
    (by rw [hft3]; simp; rfl) (by rw [hcur3, hcur2]) (by rw [hlen3]; exact hlt2)
  refine ⟨b4, ?_⟩
  simp only [CreateIntrinsicFunction, hret, hstart, hargs, hdec, hbind, bind, Except.bind,
    pure, Except.pure]

/-- The member loop of `BuildStmtStructDef` collects every member of a list that fits under
the cap. -/
theorem collect_small (types : List TypeDesc) :
    ∀ (defs : ArgList) (k : Nat), k + defs.length ≤ MAX_CHILD_MEMBERS →
      (∀ a ∈ defs, a.mType < types.length) →
      ∃ l, BuildStmtStructDef.collect types defs k = .ok (some l) ∧
        l.map Prod.snd = defs.map (fun a => a.mVar) ∧
        ∀ p ∈ l, ∃ T ∈ types, p.1 = T.mName := by
  intro defs
  induction defs with
  | nil => intro k _ _; exact ⟨[], rfl, rfl, fun p hp => by cases hp⟩
  | cons a tail ih =>
    intro k hk hv
    have hlt : ¬ k ≥ MAX_CHILD_MEMBERS := by
      simp only [List.length_cons] at hk
      omega
    have ha : a.mType < types.length := hv a (List.mem_cons_self _ _)
    have hT : types[a.mType]? = some (types.get ⟨a.mType, ha⟩) := List.getElem?_eq_getElem ha
    obtain ⟨l, hl, hsnd, hfst⟩ := ih (k + 1)
      (by simp only [List.length_cons] at hk; omega)
      (fun x hx => hv x (List.mem_cons_of_mem _ hx))
    refine ⟨((types.get ⟨a.mType, ha⟩).mName, a.mVar) :: l, ?_, ?_, ?_⟩
    · simp only [BuildStmtStructDef.collect, hlt, if_false, deref, hT, hl, bind, Except.bind,
        pure, Except.pure, Option.map]
    · simp [hsnd]
    · intro p hp
      rcases List.mem_cons.mp hp with h | h
      · exact ⟨_, List.get_mem _ _ _, by rw [h]⟩
      · exact hfst p h

/-- The member loop of `BuildStmtStructDef` returns null for a list that exceeds the cap. -/
theorem collect_big (types : List TypeDesc) :
    ∀ (defs : ArgList) (k : Nat), MAX_CHILD_MEMBERS < k + defs.length →
      k ≤ MAX_CHILD_MEMBERS → (∀ a ∈ defs, a.mType < types.length) →
      BuildStmtStructDef.collect types defs k = .ok none := by
  intro defs
  induction defs with
  | nil => intro k h1 h2 _; simp only [List.length_nil] at h1; omega
  | cons a tail ih =>
    intro k h1 h2 hv
    by_cases hk : k ≥ MAX_CHILD_MEMBERS
    · simp only [BuildStmtStructDef.collect, hk, if_true]
    · have ha : a.mType < types.length := hv a (List.mem_cons_self _ _)
      have hT : types[a.mType]? = some (types.get ⟨a.mType, ha⟩) :=
        List.getElem?_eq_getElem ha
      have := ih (k + 1) (by simp only [List.length_cons] at h1; omega) (by omega)
        (fun x hx => hv x (List.mem_cons_of_mem _ hx))
      simp only [BuildStmtStructDef.collect, hk, if_false, deref, hT, this, bind, Except.bind,
        pure, Except.pure, Option.map]

/-- `CreateIntrinsicFunction` returns true outside a function body when the return type and
the parameter type names resolve, the parameter names are distinct and no registered
function has the name together with the resolved parameter types. -/
theorem CreateIntrinsicFunction_registers (b : BlockScriptBuilder) (funName : String)
    (args : List (String × String)) (returnType : String) (cb : FunCallback) (rt : TypePtr)
    (hin : b.mInFunBody = false)
    (hret : b.GetTypeByName returnType = some rt)
    (hnodup : (args.map Prod.snd).Nodup)
    (hres : ∀ a ∈ args, (b.GetTypeByName a.1).isSome = true)
    (hfree : ∀ d ∈ b.mSymbolTable.mFunTable, d.mName = funName →
      d.mArgTypes.map some ≠ args.map (fun a => b.mSymbolTable.GetTypeByName a.1)) :
    ∃ b', CreateIntrinsicFunction b funName args returnType cb = .ok (b', true) := by
  obtain ⟨b1, hstart, hframes1, hcur1, hin1, htypes1, hft1, hfd1⟩ :=
    StartNewFunction_opens b hin
  have hn : b.GetTypeByName = b1.GetTypeByName := by
    funext n
    exact (congrFun (GetTypeByName_congr b.mSymbolTable b1.mSymbolTable htypes1) n).symm
  have hframe1 : b1.mSymbolTable.mFrames[b.mSymbolTable.mFrames.length]? =
      some { mEntries := [], mTotalSize := 0, mCreatorCategory := .NONE,
             mParent := b.mCurrentFrame } := by
    rw [hframes1]; simp
  obtain ⟨b2, l, hargs, hcur2, hlt2⟩ := declareArgs_succeeds args b1 _ _ hcur1 hframe1
    (fun a _ => rfl) hnodup (fun a ha => hn ▸ hres a ha)
  obtain ⟨⟨htypes2, hft2, hfd2, hin2⟩, _, hl⟩ := declareArgs_ok args b1 b2 l hargs
  have hret2 : b2.GetTypeByName returnType = some rt := by
    have : b2.GetTypeByName = b.GetTypeByName := by
      funext n
      exact congrFun (GetTypeByName_congr b.mSymbolTable b2.mSymbolTable
        (htypes2.trans htypes1)) n
    rw [this]; exact hret
  have hnew : (funName, l.map (fun a => a.mType)) ∉
      b2.mSymbolTable.mFunTable.map FunDesc.signature := by
    intro hmem
    obtain ⟨d, hd, hsig⟩ := List.mem_map.mp hmem
    simp only [FunDesc.signature, Prod.mk.injEq] at hsig
    rw [hft2, hft1] at hd
    apply hfree d hd hsig.1
    rw [hsig.2, List.map_map]
    have hn' : b1.mSymbolTable.GetTypeByName = b.mSymbolTable.GetTypeByName :=
      GetTypeByName_congr b.mSymbolTable b1.mSymbolTable htypes1
    rw [← hn']
    exact hl
  obtain ⟨b3, dec, hdec, hft3, hfd3, hdesc3, _, _, _, _, _, hcur3, hlen3⟩ :=
    (BuildStmtFunDec_cases b2 l returnType funName ⟨_, hcur2, hlt2⟩).2.2 rt hret2 hnew
  obtain ⟨_, _, _, _, _, _, _, _, _, hin3, _⟩ :=
    BuildStmtFunDec_ok b2 b3 l returnType funName _ hdec
  obtain ⟨b4, hbind⟩ := BindIntrinsic_succeeds b3 b2.mFunDecs.length cb dec
    b2.mSymbolTable.mFunTable.length _ (b.mSymbolTable.mFrames.length)
    (by rw [hin3, hin2, hin1]) (by rw [hfd3]; simp) hdesc3
    (by rw [hft3]; simp; rfl) (by rw [hcur3, hcur2]) (by rw [hlen3]; exact hlt2)
  refine ⟨b4, ?_⟩
  simp only [CreateIntrinsicFunction, hret, hstart, hargs, hdec, hbind, bind, Except.bind,
    pure, Except.pure]

/-- The member loop of `BuildStmtStructDef` on a list that fits under the cap: the collected
type names resolve to the parameter types of the full constructor. -/
theorem collect_small_types (st : SymbolTable) :
    ∀ (defs : ArgList) (k : Nat), k + defs.length ≤ MAX_CHILD_MEMBERS →
      (∀ a ∈ defs, a.mType < st.mTypes.length) →
      ∃ l, BuildStmtStructDef.collect st.mTypes defs k = .ok (some l) ∧
        l.map Prod.snd = defs.map (fun a => a.mVar) ∧
        l.map (fun p => st.GetTypeByName p.1) = constructorTypes st defs ∧
        ∀ p ∈ l, ∃ T ∈ st.mTypes, p.1 = T.mName := by
  intro defs
  induction defs with
  | nil => intro k _ _; exact ⟨[], rfl, rfl, rfl, fun p hp => by cases hp⟩
  | cons a tail ih =>
    intro k hk hv
    have hlt : ¬ k ≥ MAX_CHILD_MEMBERS := by
      simp only [List.length_cons] at hk
      omega
    have ha : a.mType < st.mTypes.length := hv a (List.mem_cons_self _ _)
    have hT : st.mTypes[a.mType]? = some (st.mTypes.get ⟨a.mType, ha⟩) :=
      List.getElem?_eq_getElem ha
    obtain ⟨l, hl, hsnd, hres, hfst⟩ := ih (k + 1)
      (by simp only [List.length_cons] at hk; omega)
      (fun x hx => hv x (List.mem_cons_of_mem _ hx))
    refine ⟨((st.mTypes.get ⟨a.mType, ha⟩).mName, a.mVar) :: l, ?_, ?_, ?_, ?_⟩
    · simp only [BuildStmtStructDef.collect, hlt, if_false, deref, hT, hl, bind, Except.bind,
        pure, Except.pure, Option.map]
    · simp [hsnd]
    · simp only [constructorTypes, List.map_cons, hT] at hres ⊢
      rw [hres]
    · intro p hp
      rcases List.mem_cons.mp hp with h | h
      · exact ⟨_, List.get_mem _ _ _, by rw [h]⟩
      · exact hfst p h

/-- Appending entries to the catalog does not change the parameter types of the full
constructor of members whose types are entries of the old catalog. -/
theorem constructorTypes_append (st st' : SymbolTable) (extra : List TypeDesc)
    (hst : st'.mTypes = st.mTypes ++ extra) (defs : ArgList)
    (hv : ∀ a ∈ defs, a.mType < st.mTypes.length) :
    constructorTypes st' defs = constructorTypes st defs := by
  simp only [constructorTypes]
  apply List.map_congr_left
  intro a ha
  have hlt := hv a ha
  have hT : st.mTypes[a.mType]? = some (st.mTypes.get ⟨a.mType, hlt⟩) :=
    List.getElem?_eq_getElem hlt
  have hT' : st'.mTypes[a.mType]? = some (st.mTypes.get ⟨a.mType, hlt⟩) := by
    rw [hst, List.getElem?_append_left hlt]; exact hT
  simp only [hT, hT']
  obtain ⟨r, hr⟩ := Option.isSome_iff_exists.mp
    (GetTypeByName_isSome_of_mem st _ (List.get_mem _ _ _))
  rw [hr, GetTypeByName_append_of_some st st' extra _ r hst hr]

/-- C18, amended. The structure field count is capped at 255. Outside a function body, with a
fresh type name, in a builder whose current frame exists and in which no function with the
name of the structure and no parameters is registered, for a field list whose member types
are catalog entries: `BuildStmtStructDef` succeeds and returns the definition node, without
a diagnostic, for every field list of 1 to 255 members whose names are pairwise distinct and
for which no function with the name of the structure and the parameter types that the type
names of the members resolve to is registered; and it returns null with the diagnostic
"Too many members in structure" for every field list of more than 255 members. -/
theorem BuildStmtStructDef_member_cap (b : BlockScriptBuilder) (name : String)
    (definitions : ArgList) (f : FramePtr) (frame : StackFrameInfo)
    (hcur : b.mCurrentFrame = some f) (hframe : b.mSymbolTable.mFrames[f]? = some frame)
    (hin : b.mInFunBody = false) (hfresh : b.GetTypeByName name = none)
    (hnoempty : ∀ d ∈ b.mSymbolTable.mFunTable, d.mName = name → d.mArgTypes ≠ [])
    (htypes : ∀ a ∈ definitions, a.mType < b.mSymbolTable.mTypes.length) :
    (1 ≤ definitions.length → definitions.length ≤ 255 →
      (definitions.map (fun a => a.mVar)).Nodup →
      (∀ d ∈ b.mSymbolTable.mFunTable, d.mName = name →
        d.mArgTypes.map some ≠ constructorTypes b.mSymbolTable definitions) →
      ∃ b', BuildStmtStructDef b name definitions =
          .ok (b', some { mName := name, mArgList := definitions, mFrameInfo := some f }) ∧
        b'.mDispatched = b.mDispatched) ∧
    (255 < definitions.length →
      ∃ b', BuildStmtStructDef b name definitions = .ok (b', none) ∧
        b'.mDispatched = b.mDispatched ++ ["Too many members in structure"]) := by
  have hflt : f < b.mSymbolTable.mFrames.length := lt_length_of_getElem? _ _ _ hframe
  obtain ⟨st1, hst1⟩ : ∃ st1 : SymbolTable, st1 =
      b.mSymbolTable.modifyFrame f (fun f => { f with mCreatorCategory := .STRUCT_DEF }) :=
    ⟨_, rfl⟩
  have h1 : b.updateCurrentFrame (fun f => { f with mCreatorCategory := .STRUCT_DEF }) =
      .ok { b with mSymbolTable := st1 } := by
    rw [hst1]
    simp only [BlockScriptBuilder.updateCurrentFrame, hcur, hframe]
  have h2 : PopFrame { b with mSymbolTable := st1 } =
      .ok { b with mSymbolTable := st1, mCurrentFrame := frame.mParent } := by
    rw [hst1]
    simp [PopFrame, deref, hcur, SymbolTable.modifyFrame, hframe, store, hflt, bind,
      Except.bind, pure, Except.pure]
  have hst1t : st1.mTypes = b.mSymbolTable.mTypes ∧ st1.mFunTable = b.mSymbolTable.mFunTable := by
    rw [hst1]; exact modifyFrame_types _ _ _
  have hfresh' : (b.GetTypeByName name).isSome = false := by simp [hfresh]
  have hb6 : ∃ b6 : BlockScriptBuilder,
      b6 = ((({ b with mSymbolTable := st1, mCurrentFrame := frame.mParent } :
            BlockScriptBuilder).unlinkParent (some f)).createType .M_STRUCT name none 0 .E_NONE
              (some { mName := name, mArgList := definitions, mFrameInfo := some f })).1 :=
    ⟨_, rfl⟩
  obtain ⟨b6, hb6⟩ := hb6
  obtain ⟨S, htypes6⟩ : ∃ S, b6.mSymbolTable.mTypes = b.mSymbolTable.mTypes ++ [S] ∧
      S.mName = name := by
    rw [hb6]
    simp only [BlockScriptBuilder.createType, SymbolTable.CreateType,
      BlockScriptBuilder.unlinkParent, (modifyFrame_types _ _ _).1, hst1t.1]
    exact ⟨_, rfl, rfl⟩
  have hft6 : b6.mSymbolTable.mFunTable = b.mSymbolTable.mFunTable := by
    rw [hb6]
    simp only [BlockScriptBuilder.createType, SymbolTable.CreateType,
      BlockScriptBuilder.unlinkParent, (modifyFrame_types _ _ _).2, hst1t.2]
  have hin6 : b6.mInFunBody = false := by rw [hb6]; exact hin
  have hd6 : b6.mDispatched = b.mDispatched := by rw [hb6]; rfl
  have hname6 : b6.GetTypeByName name = some b.mSymbolTable.mTypes.length :=
    GetTypeByName_append_new b.mSymbolTable b6.mSymbolTable name S htypes6.1 hfresh htypes6.2
  obtain ⟨b7, h7⟩ := CreateIntrinsicFunction_registers b6 name [] name
    .StructGenericConstructor _ hin6 hname6 List.nodup_nil (fun a ha => by cases ha)
    (fun d hd hdn hmap => hnoempty d (hft6 ▸ hd) hdn (by simpa using hmap))
  obtain ⟨rt, argTypes, dec, _, hargs7, hft7, _, _, htypes7, hin7, hd7, _⟩ :=
    CreateIntrinsicFunction_ok b6 b7 name [] name .StructGenericConstructor h7
  have hargTypes : argTypes = [] := by
    cases argTypes with
    | nil => rfl
    | cons a t => simp at hargs7
  subst hargTypes
  have hname7 : b7.GetTypeByName name = some b.mSymbolTable.mTypes.length := by
    have : b7.mSymbolTable.GetTypeByName = b6.mSymbolTable.GetTypeByName :=
      GetTypeByName_congr b6.mSymbolTable b7.mSymbolTable htypes7
    exact (congrFun this name).trans hname6
  have htypes67 : b7.mSymbolTable.mTypes = b.mSymbolTable.mTypes ++ [S] := by
    rw [htypes7, htypes6.1]
  have hvalid7 : ∀ a ∈ definitions, a.mType < b7.mSymbolTable.mTypes.length := by
    intro a ha
    rw [htypes67, List.length_append]
    exact Nat.lt_add_right _ (htypes a ha)
  simp only [hin, hcur] at h1 h2 hb6
  constructor
  · intro hone hmax hnames hnofull
    have hne : definitions ≠ [] := by
      intro h; rw [h] at hone; simp at hone
    obtain ⟨l, hl, hsnd, hsig, hfst⟩ := collect_small_types b7.mSymbolTable definitions 0
      (by simp only [MAX_CHILD_MEMBERS]; omega) hvalid7
    have hlen : l.length = definitions.length := by
      have := congrArg List.length hsnd
      simpa using this
    rw [constructorTypes_append b.mSymbolTable b7.mSymbolTable [S] htypes67 definitions
      htypes] at hsig
    obtain ⟨b8, h8⟩ := CreateIntrinsicFunction_registers b7 name l name
      .StructGenericConstructor _ hin7 hname7 (hsnd ▸ hnames)
      (fun p hp => by
        obtain ⟨T, hT, hpT⟩ := hfst p hp
        rw [hpT]
        exact GetTypeByName_isSome_of_mem b7.mSymbolTable T hT)
      (fun d hd hdn hmap => by
        rw [hft7, hft6] at hd
        rw [hsig] at hmap
        rcases List.mem_append.mp hd with h | h
        · exact hnofull d h hdn hmap
        · rw [List.mem_singleton] at h
          have := congrArg List.length hmap
          rw [h] at this
          simp only [List.map_nil, List.length_nil, constructorTypes, List.length_map] at this
          omega)
    obtain ⟨_, _, _, _, _, _, _, _, _, _, hd8, _⟩ :=
      CreateIntrinsicFunction_ok b7 b8 name l name .StructGenericConstructor h8
    refine ⟨b8, ?_, by rw [hd8, hd7, hd6]⟩
    simp only [BuildStmtStructDef, hfresh', hin, Bool.false_eq_true, if_false, h1, hcur, h2,
      ← hb6, h7, hne, hl, h8, bind, Except.bind, pure, Except.pure, throw, throwThe,
      MonadExceptOf.throw]
    simp
  · intro hbig
    have hne : definitions ≠ [] := by
      intro h; rw [h] at hbig; simp at hbig
    have hc := collect_big b7.mSymbolTable.mTypes definitions 0
      (by simp only [MAX_CHILD_MEMBERS]; omega) (Nat.zero_le _) hvalid7
    refine ⟨BS_ErrorDispatcher b7 "Too many members in structure", ?_, ?_⟩
    · simp only [BuildStmtStructDef, hfresh', hin, Bool.false_eq_true, if_false, h1, hcur, h2,
        ← hb6, h7, hne, hc, bind, Except.bind, pure, Except.pure, throw, throwThe,
        MonadExceptOf.throw]
      simp [fail]
    · simp only [BS_ErrorDispatcher, hd7, hd6]

/-- The member names of `manyFields` are pairwise distinct. -/
theorem manyFields_nodup (n : Nat) : ((manyFields n).map (fun a => a.mVar)).Nodup := by
  simp only [manyFields, List.map_map]
  refine (List.nodup_range n).map ?_
  intro i j h
  have := congrArg String.length h
  simpa [String.length] using this

/-- Every member of `manyFields` has type int. -/
theorem manyFields_types (n : Nat) : ∀ a ∈ manyFields n, a.mType = 0 := by
  intro a ha
  simp only [manyFields, List.mem_map] at ha
  obtain ⟨i, _, rfl⟩ := ha
  rfl

/-- The length of `manyFields n` is `n`. -/
theorem manyFields_length (n : Nat) : (manyFields n).length = n := by
  simp [manyFields]

/-- Witness of C18, amended: from the builder that holds the frame of a structure body,
`struct Pair { a : int; b : int }` and a structure of 255 members succeed, and a structure of
256 members is rejected with "Too many members in structure"; after the function
`int Pair(float x)` was declared, `struct Pair { a : int; b : int }` succeeds as well. -/
theorem BuildStmtStructDef_member_cap_witness :
    (∃ b', BuildStmtStructDef pairBuilder "Pair" pairFields =
        .ok (b', some { mName := "Pair", mArgList := pairFields, mFrameInfo := some 1 }) ∧
      b'.mDispatched = pairBuilder.mDispatched) ∧
    (∃ b', BuildStmtStructDef pairBuilder "Big" (manyFields 255) =
        .ok (b', some { mName := "Big", mArgList := manyFields 255, mFrameInfo := some 1 }) ∧
      b'.mDispatched = pairBuilder.mDispatched) ∧
    (∃ b', BuildStmtStructDef pairBuilder "Big" (manyFields 256) = .ok (b', none) ∧
      b'.mDispatched = pairBuilder.mDispatched ++ ["Too many members in structure"]) ∧
    (overloadRun = .ok overloadBuilder ∧
      ∃ b', BuildStmtStructDef overloadBuilder "Pair" pairFields =
          .ok (b', some { mName := "Pair", mArgList := pairFields, mFrameInfo := some 2 }) ∧
        b'.mDispatched = overloadBuilder.mDispatched) :=
  ⟨(BuildStmtStructDef_member_cap pairBuilder "Pair" pairFields 1 _ rfl rfl rfl (by decide)
      (by intro d hd; cases hd) (by decide)).1 (by decide) (by decide) (by decide)
      (by intro d hd; cases hd),
   (BuildStmtStructDef_member_cap pairBuilder "Big" (manyFields 255) 1 _ rfl rfl rfl
      (by decide) (by intro d hd; cases hd)
      (fun a ha => by rw [manyFields_types 255 a ha]; decide)).1
      (by rw [manyFields_length]; decide) (by rw [manyFields_length])
      (manyFields_nodup 255) (by intro d hd; cases hd),
   (BuildStmtStructDef_member_cap pairBuilder "Big" (manyFields 256) 1 _ rfl rfl rfl
      (by decide) (by intro d hd; cases hd)
      (fun a ha => by rw [manyFields_types 256 a ha]; decide)).2
      (by rw [manyFields_length]; decide),
   rfl,
   (BuildStmtStructDef_member_cap overloadBuilder "Pair" pairFields 2 _ rfl rfl rfl
      (by decide) (by decide) (by decide)).1 (by decide) (by decide) (by decide)
      (by decide)⟩

/-- Counterexample to C18 as stated, outside a function body and with a fresh type name in
each case. After the function `int Pair()` was declared, `BuildStmtStructDef` for
`struct Pair { a : int; b : int }` does not succeed, and for 256 members it does not return
null: registering the empty constructor `Pair()` collides with the function and the
assertion on its result fails. After the function `int Pair(int x, int y)` was declared,
`struct Pair { a : int; b : int }` does not succeed: registering the constructor
`Pair(int, int)` collides. With no function registered, a field list of two members that are
both named `a` does not succeed: the second parameter of the constructor is a duplicate
declaration in its frame. -/
theorem BuildStmtStructDef_clash_counterexample :
    (∃ b, constructorClashRun = .ok b ∧ b.mInFunBody = false ∧
      b.GetTypeByName "Pair" = none ∧ pairFields.length = 2 ∧
      b.mSymbolTable.mFunTable.map FunDesc.signature = [("Pair", [])] ∧
      BuildStmtStructDef b "Pair" pairFields = .error .assertion ∧
      BuildStmtStructDef b "Pair" (manyFields 256) = .error .assertion) ∧
    (∃ b, fullClashRun = .ok b ∧ b.mInFunBody = false ∧
      b.GetTypeByName "Pair" = none ∧
      b.mSymbolTable.mFunTable.map FunDesc.signature = [("Pair", [0, 0])] ∧
      BuildStmtStructDef b "Pair" pairFields = .error .assertion) ∧
    (pairBuilder.mInFunBody = false ∧ pairBuilder.GetTypeByName "S" = none ∧
      pairBuilder.mSymbolTable.mFunTable = [] ∧ twinFields.length = 2 ∧
      BuildStmtStructDef pairBuilder "S" twinFields = .error .assertion) :=
  ⟨⟨_, rfl, rfl, by decide, rfl, rfl, rfl, rfl⟩,
   ⟨_, rfl, rfl, by decide, rfl, rfl⟩,
   ⟨rfl, by decide, rfl, rfl, rfl⟩⟩

/-! ### Identifier flags, branch frames, operators on untyped classes -/

/-- The loop of `BuildIdd` never sets the global flag: the identifier it returns carries the
flag `false` of the fresh identifier. -/
theorem walk_never_global (frames : List StackFrameInfo) (name : String) :
    ∀ (fuel : Nat) (cur : Option FramePtr) (depth : Int) (o f : Int) (t : Option TypePtr)
      (e : Exp),
      BuildIdd.walk frames name fuel cur depth (.idd name o f false t) = .ok e →
      ∃ o' f' t', e = .idd name o' f' false t' := by
  intro fuel
  induction fuel with
  | zero =>
    intro cur depth o f t e h
    cases cur with
    | none => simp only [BuildIdd.walk] at h; cases h; exact ⟨_, _, _, rfl⟩
    | some p => simp [BuildIdd.walk] at h
  | succ n ih =>
    intro cur depth o f t e h
    cases cur with
    | none => simp only [BuildIdd.walk] at h; cases h; exact ⟨_, _, _, rfl⟩
    | some p =>
      simp only [BuildIdd.walk, deref, bind, Except.bind] at h
      cases hf : frames[p]? with
      | none => simp [hf] at h
      | some info =>
        simp only [hf] at h
        cases hd : info.FindDeclaration name with
        | none =>
          simp only [hd] at h
          exact ih _ _ _ _ _ _ h
        | some found =>
          simp only [hd, pure, Except.pure] at h
          cases h
          exact ⟨found.mOffset, depth, some found.mType, by simp⟩

/-- Whatever `BuildIdd` returns is an identifier whose global flag is `false`. -/
theorem BuildIdd_never_global (b : BlockScriptBuilder) (name : String) (e : Exp)
    (h : BuildIdd b name = .ok e) : ∃ o f t, e = .idd name o f false t :=
  walk_never_global _ _ _ _ _ _ _ _ _ h

/-- C22, at the failing input. With `a : int` declared in the GLOBAL frame, which is parentless
and is the current frame, `BuildIdd("a")` resolves to that declaration (offset 0, frame depth
0, type int) but the identifier is not flagged global: the flag is set from the test
`currentFrame == 0` inside the loop over non-null frames. -/
theorem BuildIdd_global_flag_never_set :
    declaredBuilder.mCurrentFrame = some 0 ∧
    declaredBuilder.mSymbolTable.mFrames.map (fun f => (f.mCreatorCategory, f.mParent)) =
      [(.GLOBAL, none)] ∧
    BuildIdd declaredBuilder "a" = .ok (.idd "a" 0 0 false (some 0)) :=
  ⟨rfl, rfl, rfl⟩

/-- For a type of ALU class NONE the assertion of `IsBinopValid` fails, for every operator. -/
theorem IsBinopValid_none (type : TypeDesc) (op : Op) (h : type.mAluEngine = .E_NONE) :
    IsBinopValid type op = .error .assertion := by
  unfold IsBinopValid
  cases op <;> simp [h, AluEngine.toInt]

/-- C25, at the failing inputs. The structure type `Pair` has ALU class NONE; `IsBinopValid`
on it does not return false but fails its ALU-class assertion, and so do `p + q` on two
operands of type `Pair` and `u == w` on two operands of the array type `int[3]`: no null
node and no diagnostic are returned. -/
theorem BuildBinop_struct_arithmetic_asserts :
    pairType.mAluEngine = .E_NONE ∧
    IsBinopValid pairType .O_PLUS = .error .assertion ∧
    BuildBinop pairAfter (.idd "p" 0 0 false (some 6)) .O_PLUS (.idd "q" 8 0 false (some 6)) =
      .error .assertion ∧
    BuildBinop intArrayBuilder (.idd "u" 0 0 false (some 6)) .O_EQ
      (.idd "w" 12 0 false (some 6)) = .error .assertion :=
  ⟨rfl, rfl, rfl, rfl⟩

/-- C30. The array constructor does not validate the element count. For an identifier whose
name resolves to a type E and every immediate n whose type is of ALU class INT, positive,
zero or negative, `BuildBinop(identifier, O_ACCESS, n)` succeeds without a diagnostic and
appends to the catalog an ARRAY type with child E whose modifier property is n; the node
returned is the array constructor typed with it. -/
theorem BuildBinop_array_count_unchecked (b : BlockScriptBuilder) (name : String) (o fo : Int)
    (g : Bool) (ty : Option TypePtr) (E : TypePtr) (n : Int) (u : TypePtr) (U : TypeDesc)
    (hE : b.GetTypeByName name = some E)
    (hU : b.mSymbolTable.mTypes[u]? = some U) (hint : U.mAluEngine = .E_INT) :
    ∃ R b1,
      BuildBinop b (.idd name o fo g ty) .O_ACCESS (.imm n (some u)) =
        .ok (b1, some (.binop (.idd name (-1) (-1) g ty) .O_ARRAY_CONSTRUCTOR (.imm n (some u))
          (some b.mSymbolTable.mTypes.length))) ∧
      b1.mSymbolTable.mTypes = b.mSymbolTable.mTypes ++ [R] ∧
      R.mModifier = .M_ARRAY ∧ R.mModifierProperty = n ∧ R.mChild = some E ∧
      b1.mDispatched = b.mDispatched ∧ b1.mErrorCount = b.mErrorCount := by
  have hbad : BuildBinopArrayAccess.badSize b.mSymbolTable.mTypes (.imm n (some u)) =
      .ok false := by
    simp [BuildBinopArrayAccess.badSize, Exp.GetExpType, deref_some _ _ _ hU, hint, bind,
      Except.bind, pure, Except.pure]
  refine ⟨{ mName := name, mModifier := .M_ARRAY, mModifierProperty := n, mAluEngine := .E_NONE,
            mChild := some E, mStructDef := none,
            mByteSize := b.mSymbolTable.sizeOfNew .M_ARRAY (some E) n none },
    { b with mSymbolTable := (b.mSymbolTable.CreateArrayType name (some E) n).1 }, ?_, rfl, rfl,
    rfl, rfl, rfl, rfl⟩
  simp [BuildBinop, BuildBinopArrayAccess, hE, hbad, SymbolTable.CreateArrayType,
    SymbolTable.CreateType, Exp.GetExpType, BuildBinopArrayAccess.arrayCount, bind,
    Except.bind, pure, Except.pure]

/-- Witness of C30: `int[0]` and `int[-5]` from the initial builder both create an ARRAY type
(catalog entry 6) with element count 0 and -5. -/
theorem BuildBinop_array_count_unchecked_witness :
    (∃ R b1,
      BuildBinop initialBuilder (Exp.newIdd "int") .O_ACCESS (.imm 0 (some 0)) =
        .ok (b1, some (.binop (Exp.newIdd "int") .O_ARRAY_CONSTRUCTOR (.imm 0 (some 0))
          (some 6))) ∧
      b1.mSymbolTable.mTypes = preseededTypes ++ [R] ∧
      R.mModifier = .M_ARRAY ∧ R.mModifierProperty = 0 ∧ R.mChild = some 0) ∧
    (∃ R b1,
      BuildBinop initialBuilder (Exp.newIdd "int") .O_ACCESS (.imm (-5) (some 0)) =
        .ok (b1, some (.binop (Exp.newIdd "int") .O_ARRAY_CONSTRUCTOR (.imm (-5) (some 0))
          (some 6))) ∧
      b1.mSymbolTable.mTypes = preseededTypes ++ [R] ∧
      R.mModifier = .M_ARRAY ∧ R.mModifierProperty = -5 ∧ R.mChild = some 0) := by
  constructor
  · obtain ⟨R, b1, h, ht, hm, hp, hc, _⟩ :=
      BuildBinop_array_count_unchecked initialBuilder "int" (-1) (-1) false none 0 0 0
        (preseededTypes.get ⟨0, by decide⟩) (by decide) rfl rfl
    exact ⟨R, b1, h, ht, hm, hp, hc⟩
  · obtain ⟨R, b1, h, ht, hm, hp, hc, _⟩ :=
      BuildBinop_array_count_unchecked initialBuilder "int" (-1) (-1) false none 0 (-5) 0
        (preseededTypes.get ⟨0, by decide⟩) (by decide) rfl rfl
    exact ⟨R, b1, h, ht, hm, hp, hc⟩

/-- A generic operator on two operands of the same type of ALU class NONE reaches
`IsBinopValid` and fails its assertion. -/
theorem BuildBinop_none_class_asserts (b : BlockScriptBuilder) (x y : Exp) (op : Op)
    (t : TypePtr) (T : TypeDesc)
    (hop : op ≠ .O_SET ∧ op ≠ .O_DOT ∧ op ≠ .O_ACCESS)
    (hx : x.GetTypeDesc = some t) (hy : y.GetTypeDesc = some t)
    (hT : b.mSymbolTable.mTypes[t]? = some T) (hnone : T.mAluEngine = .E_NONE) :
    BuildBinop b x op y = .error .assertion := by
  have h1 := AttemptTypePromotion_eq b.mSymbolTable.mTypes x t t T T hx hT hT
  have h2 := AttemptTypePromotion_eq b.mSymbolTable.mTypes y t t T T hy hT hT
  simp only [hnone, specWidens, Bool.false_eq_true, if_false] at h1 h2
  have hv : IsBinopValid T op = .error .assertion := by
    unfold IsBinopValid
    cases op <;> simp [hnone, AluEngine.toInt]
  simp [BuildBinop, hop.1, hop.2.1, hop.2.2, hx, hy, h1, h2, deref, hT, hv, bind, Except.bind]

/-- C27. Every `O_DOT` whose left operand is itself an `O_DOT` node typed with a VECTOR type of
the catalog returns null with "Nested swizzle access not allowed.", whether that left
operand is a swizzle or a struct member access. -/
theorem BuildBinop_dot_of_dot_rejected (b : BlockScriptBuilder) (l r : Exp) (name : String)
    (o fo : Int) (g : Bool) (ty : Option TypePtr) (t1 : TypePtr) (T1 : TypeDesc)
    (hT1 : b.mSymbolTable.mTypes[t1]? = some T1) (hvec : T1.mModifier = .M_VECTOR) :
    BuildBinop b (.binop l .O_DOT r (some t1)) .O_DOT (.idd name o fo g ty) =
      .ok (BS_ErrorDispatcher b "Nested swizzle access not allowed.", none) := by
  simp [BuildBinop, deref, hT1, hvec, Exp.isBinopWith, fail, bind, Except.bind]

/-- Witness of C27: for a structure `S` with a float4 member `v` and `s` of type `S`, the member
access `s.v` is built with type float4, and `(s.v).x` is rejected with "Nested swizzle
access not allowed." although `s.v` is no swizzle. -/
theorem BuildBinop_dot_of_dot_rejected_witness :
    ∃ b, vectorFieldRun =
        .ok (b, some (.binop (.idd "s" 0 0 false (some 6)) .O_DOT (.idd "v" 0 0 false none)
          (some 4))) ∧
      (b.mSymbolTable.mTypes[4]?).map (fun T => (T.mName, T.mModifier)) =
        some ("float4", .M_VECTOR) ∧
      (b.mSymbolTable.mTypes[6]?).map (fun T => (T.mName, T.mModifier)) =
        some ("S", .M_STRUCT) ∧
      BuildBinop b (.binop (.idd "s" 0 0 false (some 6)) .O_DOT (.idd "v" 0 0 false none)
          (some 4)) .O_DOT (Exp.newIdd "x") =
        .ok (BS_ErrorDispatcher b "Nested swizzle access not allowed.", none) := by
  refine ⟨_, rfl, rfl, rfl, ?_⟩
  exact BuildBinop_dot_of_dot_rejected _ _ _ "x" (-1) (-1) false none 4
    (preseededTypes.get ⟨4, by decide⟩) rfl rfl

/-- C23, amended. In a builder whose current frame exists: `BuildStmtIfElse(exp, ifBlock, tail,
frame)` records the supplied frame in the statement, tags it IF STATEMENT when it is the
current frame, and does not pop: the current frame pointer is as it was. `BuildStmtWhile`
records the frame current at the call, tags it LOOP, and leaves the current frame equal to
the parent of that frame. -/
theorem BuildStmtIfElse_while_frames (b : BlockScriptBuilder) (exp : Exp)
    (block : Option StmtList) (tail : Option Stmt) (frame : Option FramePtr)
    (f : FramePtr) (F : StackFrameInfo)
    (hcur : b.mCurrentFrame = some f) (hF : b.mSymbolTable.mFrames[f]? = some F) :
    (∃ b', BuildStmtIfElse b exp block tail frame = .ok (b', .stmtIfElse exp block tail frame) ∧
      b'.mCurrentFrame = b.mCurrentFrame ∧
      (frame = b.mCurrentFrame →
        b'.mSymbolTable.mFrames[f]? = some { F with mCreatorCategory := .IF_STMT })) ∧
    (∃ b', BuildStmtWhile b exp block = .ok (b', .stmtWhile exp block (some f)) ∧
      b'.mSymbolTable.mFrames[f]? = some { F with mCreatorCategory := .LOOP } ∧
      b'.mCurrentFrame = F.mParent) := by
  have hlt : f < b.mSymbolTable.mFrames.length := lt_length_of_getElem? _ _ _ hF
  constructor
  · refine ⟨{ b with mSymbolTable := { b.mSymbolTable with
        mFrames := b.mSymbolTable.mFrames.set f { F with mCreatorCategory := .IF_STMT } } },
      ?_, rfl, ?_⟩
    · simp [BuildStmtIfElse, BlockScriptBuilder.updateCurrentFrame, hcur, hF,
        SymbolTable.modifyFrame, store, bind, Except.bind, pure, Except.pure]
    · intro _
      simp [hlt]
  · refine ⟨{ b with
        mSymbolTable := { b.mSymbolTable with
          mFrames := b.mSymbolTable.mFrames.set f { F with mCreatorCategory := .LOOP } },
        mCurrentFrame := F.mParent }, ?_, ?_, rfl⟩
    · simp [BuildStmtWhile, BlockScriptBuilder.updateCurrentFrame, hcur, hF, PopFrame, deref,
        SymbolTable.modifyFrame, store, hlt, bind, Except.bind, pure, Except.pure]
    · simp [hlt]

/-- Counterexample to C23 as stated. With the branch frame 1 (parent: the global frame 0)
current, `BuildStmtIfElse` with the opening frame 1 leaves frame 1 current, not the
enclosing frame 0. After the frame was popped first, `BuildStmtIfElse` with the opening
frame 1 tags the current frame 0 (the global frame) IF STATEMENT and leaves the opening
frame untagged. -/
theorem BuildStmtIfElse_no_pop_counterexample :
    branchBuilder.mCurrentFrame = some 1 ∧
    branchBuilder.mSymbolTable.mFrames.map (fun f => (f.mCreatorCategory, f.mParent)) =
      [(.GLOBAL, none), (.NONE, some 0)] ∧
    (∃ b' s, BuildStmtIfElse branchBuilder (.imm 1 (some 0)) (some []) none (some 1) =
        .ok (b', s) ∧ b'.mCurrentFrame = some 1) ∧
    (∃ b1 b' s, PopFrame branchBuilder = .ok b1 ∧ b1.mCurrentFrame = some 0 ∧
      BuildStmtIfElse b1 (.imm 1 (some 0)) (some []) none (some 1) = .ok (b', s) ∧
      b'.mCurrentFrame = some 0 ∧
      b'.mSymbolTable.mFrames.map (fun f => (f.mCreatorCategory, f.mParent)) =
        [(.IF_STMT, none), (.NONE, some 0)]) :=
  ⟨rfl, rfl, ⟨_, _, rfl, rfl⟩, ⟨_, _, _, rfl, rfl, rfl, rfl, rfl⟩⟩

/-- Witness of C23, amended: with the branch frame 1 current, `BuildStmtIfElse` keeps frame 1
current and `BuildStmtWhile` pops to frame 0. -/
theorem BuildStmtIfElse_while_frames_witness :
    (∃ b', BuildStmtIfElse branchBuilder (.imm 1 (some 0)) (some []) none (some 1) =
        .ok (b', .stmtIfElse (.imm 1 (some 0)) (some []) none (some 1)) ∧
      b'.mCurrentFrame = some 1) ∧
    (∃ b', BuildStmtWhile branchBuilder (.imm 1 (some 0)) (some []) =
        .ok (b', .stmtWhile (.imm 1 (some 0)) (some []) (some 1)) ∧
      b'.mCurrentFrame = some 0) := by
  obtain ⟨⟨b1, h1, hc1, _⟩, ⟨b2, h2, _, hc2⟩⟩ :=
    BuildStmtIfElse_while_frames branchBuilder (.imm 1 (some 0)) (some []) none (some 1) 1
      (branchBuilder.mSymbolTable.mFrames.get ⟨1, by decide⟩) rfl rfl
  exact ⟨⟨b1, h1, hc1⟩, ⟨b2, h2, hc2⟩⟩

/-- A `BuildStmtFunDec` call that returns with a resolvable return type had a current frame
of the frame table. -/
theorem BuildStmtFunDec_frame_of_ok (b b' : BlockScriptBuilder) (argList : ArgList)
    (returnIdd nameIdd : String) (r : Option FunDecPtr) (rt : TypePtr)
    (hret : b.GetTypeByName returnIdd = some rt)
    (h : BuildStmtFunDec b argList returnIdd nameIdd = .ok (b', r)) :
    ∃ f F, b.mCurrentFrame = some f ∧ b.mSymbolTable.mFrames[f]? = some F := by
  cases hcur : b.mCurrentFrame with
  | none =>
    simp [BuildStmtFunDec, hret, BlockScriptBuilder.updateCurrentFrame, hcur, bind,
      Except.bind] at h
  | some f =>
    cases hF : b.mSymbolTable.mFrames[f]? with
    | none =>
      simp [BuildStmtFunDec, hret, BlockScriptBuilder.updateCurrentFrame, hcur, hF, bind,
        Except.bind] at h
    | some F => exact ⟨f, F, rfl, hF⟩

/-- C29. `BuildStmtFunDec` changes neither the current frame pointer nor the function-body
flag, whatever it returns. After a call made inside a function body a following
`StartNewFunction` returns false and changes nothing, and a following `BuildStmtStructDef`
of a name that is no type is rejected with "Struct definitions not allowed inside function
bodies.". When it returns null the diagnostic is "Unknown return type." with the symbol
table untouched, or "Duplicate function declaration found." with the current frame already
tagged FUNCTION BODY. -/
theorem BuildStmtFunDec_keeps_frame (b b' : BlockScriptBuilder) (argList : ArgList)
    (returnIdd nameIdd : String) (r : Option FunDecPtr)
    (h : BuildStmtFunDec b argList returnIdd nameIdd = .ok (b', r)) :
    b'.mCurrentFrame = b.mCurrentFrame ∧ b'.mInFunBody = b.mInFunBody ∧
    (b.mInFunBody = true →
      StartNewFunction b' = (b', false) ∧
      ∀ (n : String) (defs : ArgList), b'.GetTypeByName n = none →
        BuildStmtStructDef b' n defs =
          .ok (BS_ErrorDispatcher b' "Struct definitions not allowed inside function bodies.",
               none)) ∧
    (r = none → b.GetTypeByName returnIdd = none →
      b'.mDispatched = b.mDispatched ++ ["Unknown return type."] ∧
      b'.mSymbolTable = b.mSymbolTable) ∧
    (r = none → (b.GetTypeByName returnIdd).isSome = true →
      b'.mDispatched = b.mDispatched ++ ["Duplicate function declaration found."] ∧
      ∃ f F, b.mCurrentFrame = some f ∧ b'.mSymbolTable.mFrames[f]? = some F ∧
        F.mCreatorCategory = .FUN_BODY) := by
  have key : b'.mCurrentFrame = b.mCurrentFrame ∧ b'.mInFunBody = b.mInFunBody ∧
      (r = none → b.GetTypeByName returnIdd = none →
        b'.mDispatched = b.mDispatched ++ ["Unknown return type."] ∧
        b'.mSymbolTable = b.mSymbolTable) ∧
      (r = none → (b.GetTypeByName returnIdd).isSome = true →
        b'.mDispatched = b.mDispatched ++ ["Duplicate function declaration found."] ∧
        ∃ f F, b.mCurrentFrame = some f ∧ b'.mSymbolTable.mFrames[f]? = some F ∧
          F.mCreatorCategory = .FUN_BODY) := by
    cases hret : b.GetTypeByName returnIdd with
    | none =>
      simp only [BuildStmtFunDec, hret, fail] at h
      cases h
      refine ⟨rfl, rfl, ?_, ?_⟩
      · intro _ _
        exact ⟨rfl, rfl⟩
      · intro _ hs
        simp at hs
    | some rt =>
      obtain ⟨f, F, hcur, hF⟩ :=
        BuildStmtFunDec_frame_of_ok b b' argList returnIdd nameIdd r rt hret h
      have hlt : f < b.mSymbolTable.mFrames.length := lt_length_of_getElem? _ _ _ hF
      rw [BuildStmtFunDec_eq b argList returnIdd nameIdd f F rt hcur hF hret] at h
      split at h
      · cases h
        refine ⟨rfl, rfl, ?_, ?_⟩
        · intro _ hn
          cases hn
        · intro _ _
          refine ⟨rfl, f, { F with mCreatorCategory := .FUN_BODY }, hcur, ?_, rfl⟩
          simp [BS_ErrorDispatcher, hlt]
      · cases h
        refine ⟨rfl, rfl, ?_, ?_⟩
        · intro hr
          cases hr
        · intro hr
          cases hr
  obtain ⟨k1, k2, k3, k4⟩ := key
  refine ⟨k1, k2, ?_, k3, k4⟩
  intro hin
  have hin' : b'.mInFunBody = true := k2.trans hin
  refine ⟨by simp [StartNewFunction, hin'], ?_⟩
  intro n defs hn
  have hn' : (b'.GetTypeByName n).isSome = false := by simp [hn]
  simp [BuildStmtStructDef, hn', hin', fail]

/-- Witness of C29: after `int f()` and a second `StartNewFunction` (frame 2), a second
declaration `int f()` returns null as a duplicate; the builder is still inside the function
body with frame 2 current and tagged FUNCTION BODY, `StartNewFunction` returns false and a
structure definition is rejected. -/
theorem BuildStmtFunDec_keeps_frame_witness :
    ∃ b b', redeclareRun = .ok b ∧ b.mInFunBody = true ∧ b.mCurrentFrame = some 2 ∧
      BuildStmtFunDec b [] "int" "f" = .ok (b', none) ∧
      b'.mCurrentFrame = some 2 ∧ b'.mInFunBody = true ∧
      StartNewFunction b' = (b', false) ∧
      BuildStmtStructDef b' "S" pairFields =
        .ok (BS_ErrorDispatcher b' "Struct definitions not allowed inside function bodies.",
             none) ∧
      b'.mDispatched = ["Duplicate function declaration found."] ∧
      (b'.mSymbolTable.mFrames[2]?).map (fun F => F.mCreatorCategory) = some .FUN_BODY := by
  obtain ⟨b, hb⟩ : ∃ b, redeclareRun = .ok b := ⟨_, rfl⟩
  obtain ⟨b', hb'⟩ : ∃ b', BuildStmtFunDec b [] "int" "f" = .ok (b', none) := by
    cases hb
    exact ⟨_, rfl⟩
  have hin : b.mInFunBody = true := by cases hb; rfl
  have hcur : b.mCurrentFrame = some 2 := by cases hb; rfl
  obtain ⟨k1, k2, k3, _, k5⟩ := BuildStmtFunDec_keeps_frame b b' [] "int" "f" none hb'
  obtain ⟨hstart, hstruct⟩ := k3 hin
  obtain ⟨hmsg, f, F, hf, hF, hcat⟩ := k5 rfl (by cases hb; rfl)
  have hf2 : f = 2 := by rw [hcur] at hf; cases hf; rfl
  subst hf2
  refine ⟨b, b', hb, hin, hcur, hb', k1.trans hcur, k2.trans hin, hstart, ?_, ?_, ?_⟩
  · apply hstruct
    have : b'.mSymbolTable.mTypes = preseededTypes := by
      cases hb
      cases hb'
      rfl
    simp only [BlockScriptBuilder.GetTypeByName, SymbolTable.GetTypeByName, this]
    decide
  · rw [hmsg]
    cases hb
    rfl
  · rw [hF, Option.map, hcat]

/-! ### Name resolution -/

/-- Past the root every further hop stays null. -/
theorem ancestorFrame_none (frames : List StackFrameInfo) (k : Nat) :
    ancestorFrame frames k none = none := by
  cases k <;> rfl

/-- Hops compose: `i + m` hops are `m` hops from the frame reached after `i` hops. -/
theorem ancestorFrame_add (frames : List StackFrameInfo) :
    ∀ (i m : Nat) (cur : Option FramePtr),
      ancestorFrame frames (i + m) cur = ancestorFrame frames m (ancestorFrame frames i cur) := by
  intro i
  induction i with
  | zero => intro m cur; simp [ancestorFrame]
  | succ i ih =>
    intro m cur
    cases cur with
    | none => simp [ancestorFrame_none]
    | some p =>
      have : i + 1 + m = (i + m) + 1 := by omega
      rw [this]
      simp only [ancestorFrame]
      cases frames[p]? with
      | none => simp [ancestorFrame_none]
      | some F => exact ih m F.mParent

/-- A parent chain whose first `m` frames exist and are pairwise distinct has at most as
many frames as the frame table. -/
theorem chain_bound (frames : List StackFrameInfo) (cur : Option FramePtr) (m : Nat)
    (hvalid : ∀ j, j < m → ∃ q, ancestorFrame frames j cur = some q ∧ q < frames.length)
    (hdist : ∀ i j, i < j → j < m → ancestorFrame frames i cur ≠ ancestorFrame frames j cur) :
    m ≤ frames.length := by
  choose q hq using hvalid
  let g : Fin m → Fin frames.length := fun j => ⟨q j.1 j.2, (hq j.1 j.2).2⟩
  have hinj : Function.Injective g := by
    intro x y hxy
    have hval : q x.1 x.2 = q y.1 y.2 := congrArg Fin.val hxy
    by_contra hne
    have hne' : x.1 ≠ y.1 := fun h => hne (Fin.ext h)
    rcases Nat.lt_or_gt_of_ne hne' with h | h
    · exact hdist x.1 y.1 h y.2 (by rw [(hq x.1 x.2).1, (hq y.1 y.2).1, hval])
    · exact hdist y.1 x.1 h x.2 (by rw [(hq x.1 x.2).1, (hq y.1 y.2).1, hval])
  have := Fintype.card_le_of_injective g hinj
  simpa using this

/-- The loop of `BuildIdd`, given enough fuel, stops at the first frame of the chain that
declares the name, with the hops counted onto the start depth. -/
theorem walk_found (frames : List StackFrameInfo) (name : String) (idd : Exp) :
    ∀ (k fuel : Nat) (cur : Option FramePtr) (depth : Int) (p : FramePtr)
      (F : StackFrameInfo) (e : Entry),
      k < fuel → ancestorFrame frames k cur = some p → frames[p]? = some F →
      F.FindDeclaration name = some e →
      (∀ j, j < k → ∃ q G, ancestorFrame frames j cur = some q ∧ frames[q]? = some G ∧
        G.FindDeclaration name = none) →
      BuildIdd.walk frames name fuel cur depth idd =
        .ok (.idd name e.mOffset (depth + (k : Int)) false (some e.mType)) := by
  intro k
  induction k with
  | zero =>
    intro fuel cur depth p F e hfuel hanc hF he _
    simp only [ancestorFrame] at hanc
    obtain ⟨fuel', rfl⟩ := Nat.exists_eq_succ_of_ne_zero (Nat.not_eq_zero_of_lt hfuel)
    subst hanc
    simp [BuildIdd.walk, deref, hF, he, bind, Except.bind, pure, Except.pure]
  | succ k ih =>
    intro fuel cur depth p F e hfuel hanc hF he hmin
    obtain ⟨fuel', rfl⟩ := Nat.exists_eq_succ_of_ne_zero (Nat.not_eq_zero_of_lt hfuel)
    obtain ⟨q, G, hq, hG, hGn⟩ := hmin 0 (Nat.succ_pos k)
    simp only [ancestorFrame] at hq
    subst hq
    have hanc' : ancestorFrame frames k G.mParent = some p := by
      simpa only [ancestorFrame, hG] using hanc
    have hmin' : ∀ j, j < k → ∃ q G', ancestorFrame frames j G.mParent = some q ∧
        frames[q]? = some G' ∧ G'.FindDeclaration name = none := by
      intro j hj
      obtain ⟨q', G', h1, h2, h3⟩ := hmin (j + 1) (Nat.succ_lt_succ hj)
      exact ⟨q', G', by simpa only [ancestorFrame, hG] using h1, h2, h3⟩
    have := ih fuel' G.mParent (depth + 1) p F e (Nat.lt_of_succ_lt_succ hfuel) hanc' hF he hmin'
    simp only [BuildIdd.walk, deref, hG, hGn, bind, Except.bind, this]
    have harith : depth + 1 + (k : Int) = depth + ((k + 1 : Nat) : Int) := by
      push_cast
      ring
    rw [harith]

/-- The loop of `BuildIdd`, given enough fuel, returns the identifier untouched when the
chain ends and none of its frames declares the name. -/
theorem walk_unfound (frames : List StackFrameInfo) (name : String) (idd : Exp) :
    ∀ (n fuel : Nat) (cur : Option FramePtr) (depth : Int),
      n ≤ fuel → ancestorFrame frames n cur = none →
      (∀ j, j < n → ∃ q G, ancestorFrame frames j cur = some q ∧ frames[q]? = some G ∧
        G.FindDeclaration name = none) →
      BuildIdd.walk frames name fuel cur depth idd = .ok idd := by
  intro n
  induction n with
  | zero =>
    intro fuel cur depth _ hanc _
    simp only [ancestorFrame] at hanc
    subst hanc
    cases fuel <;> rfl
  | succ n ih =>
    intro fuel cur depth hfuel hanc hmin
    obtain ⟨fuel', rfl⟩ := Nat.exists_eq_succ_of_ne_zero (Nat.not_eq_zero_of_lt hfuel)
    obtain ⟨q, G, hq, hG, hGn⟩ := hmin 0 (Nat.succ_pos n)
    simp only [ancestorFrame] at hq
    subst hq
    have hanc' : ancestorFrame frames n G.mParent = none := by
      simpa only [ancestorFrame, hG] using hanc
    have hmin' : ∀ j, j < n → ∃ q G', ancestorFrame frames j G.mParent = some q ∧
        frames[q]? = some G' ∧ G'.FindDeclaration name = none := by
      intro j hj
      obtain ⟨q', G', h1, h2, h3⟩ := hmin (j + 1) (Nat.succ_lt_succ hj)
      exact ⟨q', G', by simpa only [ancestorFrame, hG] using h1, h2, h3⟩
    have := ih fuel' G.mParent (depth + 1) (Nat.le_of_succ_le_succ hfuel) hanc' hmin'
    simp only [BuildIdd.walk, deref, hG, hGn, bind, Except.bind, this]

/-- C21. `BuildIdd(name)` resolves by walking from the current frame to the root, in a frame
table in which every frame pointer on the parent chain designates a frame. If `k` is the
least number of parent hops to a frame that declares the name, the identifier returned has
frame depth `k` and the offset and type of the entry of that frame, so the innermost
declaration shadows outer ones. If the chain ends and none of its frames declares the name,
the identifier returned has no type and stays unbound (offset and depth -1). `BuildIdd`
returns only the node: the builder and its frame table are not changed. -/
theorem BuildIdd_resolves (b : BlockScriptBuilder) (name : String)
    (hwf : ∀ k p, ancestorFrame b.mSymbolTable.mFrames k b.mCurrentFrame = some p →
      p < b.mSymbolTable.mFrames.length) :
    (∀ (k : Nat) (p : FramePtr) (F : StackFrameInfo) (e : Entry),
      ancestorFrame b.mSymbolTable.mFrames k b.mCurrentFrame = some p →
      b.mSymbolTable.mFrames[p]? = some F → F.FindDeclaration name = some e →
      (∀ j q G, j < k → ancestorFrame b.mSymbolTable.mFrames j b.mCurrentFrame = some q →
        b.mSymbolTable.mFrames[q]? = some G → G.FindDeclaration name = none) →
      BuildIdd b name = .ok (.idd name e.mOffset (k : Int) false (some e.mType))) ∧
    ((∃ n, ancestorFrame b.mSymbolTable.mFrames n b.mCurrentFrame = none) →
      (∀ k q G, ancestorFrame b.mSymbolTable.mFrames k b.mCurrentFrame = some q →
        b.mSymbolTable.mFrames[q]? = some G → G.FindDeclaration name = none) →
      BuildIdd b name = .ok (.idd name (-1) (-1) false none)) := by
  constructor
  · intro k p F e hanc hF he hmin
    -- every frame before hop k exists and does not declare the name
    have hbefore : ∀ j, j < k → ∃ q G,
        ancestorFrame b.mSymbolTable.mFrames j b.mCurrentFrame = some q ∧
        b.mSymbolTable.mFrames[q]? = some G ∧ G.FindDeclaration name = none := by
      intro j hj
      cases hj' : ancestorFrame b.mSymbolTable.mFrames j b.mCurrentFrame with
      | none =>
        have := ancestorFrame_add b.mSymbolTable.mFrames j (k - j) b.mCurrentFrame
        rw [hj', ancestorFrame_none, show j + (k - j) = k by omega, hanc] at this
        cases this
      | some q =>
        have hq := hwf j q hj'
        exact ⟨q, _, rfl, List.getElem?_eq_getElem hq,
          hmin j q _ hj hj' (List.getElem?_eq_getElem hq)⟩
    have hlen : k + 1 ≤ b.mSymbolTable.mFrames.length := by
      apply chain_bound b.mSymbolTable.mFrames b.mCurrentFrame (k + 1)
      · intro j hj
        rcases Nat.lt_succ_iff_lt_or_eq.mp hj with h | h
        · obtain ⟨q, G, h1, h2, _⟩ := hbefore j h
          exact ⟨q, h1, lt_length_of_getElem? _ _ _ h2⟩
        · subst h
          exact ⟨p, hanc, lt_length_of_getElem? _ _ _ hF⟩
      · intro i j hij hj heq
        have hjk : j ≤ k := Nat.lt_succ_iff.mp hj
        have h1 := ancestorFrame_add b.mSymbolTable.mFrames i (k - j) b.mCurrentFrame
        have h2 := ancestorFrame_add b.mSymbolTable.mFrames j (k - j) b.mCurrentFrame
        rw [heq, ← h2, show j + (k - j) = k by omega, hanc] at h1
        obtain ⟨q, G, h3, h4, h5⟩ := hbefore (i + (k - j)) (by omega)
        rw [h1] at h3
        cases h3
        rw [hF] at h4
        cases h4
        rw [he] at h5
        cases h5
    have := walk_found b.mSymbolTable.mFrames name (Exp.newIdd name) k
      b.mSymbolTable.mFrames.length b.mCurrentFrame 0 p F e hlen hanc hF he hbefore
    simpa [BuildIdd] using this
  · rintro ⟨n0, hn0⟩ hnone
    classical
    have hex : ∃ n, ancestorFrame b.mSymbolTable.mFrames n b.mCurrentFrame = none := ⟨n0, hn0⟩
    obtain ⟨hn, hleast⟩ := Nat.find_spec hex, fun m (hm : m < Nat.find hex) => Nat.find_min hex hm
    have hbefore : ∀ j, j < Nat.find hex → ∃ q G,
        ancestorFrame b.mSymbolTable.mFrames j b.mCurrentFrame = some q ∧
        b.mSymbolTable.mFrames[q]? = some G ∧ G.FindDeclaration name = none := by
      intro j hj
      cases hj' : ancestorFrame b.mSymbolTable.mFrames j b.mCurrentFrame with
      | none => exact absurd hj' (hleast j hj)
      | some q =>
        have hq := hwf j q hj'
        exact ⟨q, _, rfl, List.getElem?_eq_getElem hq,
          hnone j q _ hj' (List.getElem?_eq_getElem hq)⟩
    have hlen : Nat.find hex ≤ b.mSymbolTable.mFrames.length := by
      apply chain_bound b.mSymbolTable.mFrames b.mCurrentFrame
      · intro j hj
        obtain ⟨q, G, h1, h2, _⟩ := hbefore j hj
        exact ⟨q, h1, lt_length_of_getElem? _ _ _ h2⟩
      · intro i j hij hj heq
        have h1 := ancestorFrame_add b.mSymbolTable.mFrames i (Nat.find hex - j) b.mCurrentFrame
        have h2 := ancestorFrame_add b.mSymbolTable.mFrames j (Nat.find hex - j) b.mCurrentFrame
        rw [heq, ← h2, show j + (Nat.find hex - j) = Nat.find hex by omega, hn] at h1
        exact hleast (i + (Nat.find hex - j)) (by omega) h1
    exact walk_unfound b.mSymbolTable.mFrames name (Exp.newIdd name) (Nat.find hex)
      b.mSymbolTable.mFrames.length b.mCurrentFrame 0 hlen hn hbefore

/-- The parent chain of `shadowBuilder`: frame 1, then frame 0, then the end. -/
theorem shadowBuilder_chain (k : Nat) (p : FramePtr)
    (h : ancestorFrame shadowBuilder.mSymbolTable.mFrames k shadowBuilder.mCurrentFrame =
      some p) : (k = 0 ∧ p = 1) ∨ (k = 1 ∧ p = 0) := by
  match k, h with
  | 0, h => left; exact ⟨rfl, by cases h; rfl⟩
  | 1, h => right; exact ⟨rfl, by cases h; rfl⟩
  | k + 2, h =>
    have : ancestorFrame shadowBuilder.mSymbolTable.mFrames (k + 2)
        shadowBuilder.mCurrentFrame = none := ancestorFrame_none _ k
    rw [this] at h
    cases h

/-- Witness of C21: in `shadowBuilder`, `x` resolves in the current frame (depth 0, type
float), `a` resolves one hop up in the global frame (depth 1, offset 4, type int), and `zz`
stays unbound. -/
theorem BuildIdd_resolves_witness :
    BuildIdd shadowBuilder "x" = .ok (.idd "x" 0 0 false (some 1)) ∧
    BuildIdd shadowBuilder "a" = .ok (.idd "a" 4 1 false (some 0)) ∧
    BuildIdd shadowBuilder "zz" = .ok (.idd "zz" (-1) (-1) false none) := by
  have hwf : ∀ k p, ancestorFrame shadowBuilder.mSymbolTable.mFrames k
      shadowBuilder.mCurrentFrame = some p → p < shadowBuilder.mSymbolTable.mFrames.length := by
    intro k p h
    rcases shadowBuilder_chain k p h with ⟨_, hp⟩ | ⟨_, hp⟩ <;> subst hp <;> decide
  refine ⟨?_, ?_, ?_⟩
  · exact (BuildIdd_resolves shadowBuilder "x" hwf).1 0 1
      (shadowBuilder.mSymbolTable.mFrames.get ⟨1, by decide⟩)
      { mName := "x", mType := 1, mOffset := 0, mIsArg := false } rfl rfl rfl
      (fun j q G hj _ _ => absurd hj (Nat.not_lt_zero j))
  · exact (BuildIdd_resolves shadowBuilder "a" hwf).1 1 0
      (shadowBuilder.mSymbolTable.mFrames.get ⟨0, by decide⟩)
      { mName := "a", mType := 0, mOffset := 4, mIsArg := false } rfl rfl rfl
      (fun j q G hj h1 h2 => by
        rcases shadowBuilder_chain j q h1 with ⟨_, hq⟩ | ⟨hj1, _⟩
        · subst hq
          cases h2
          rfl
        · omega)
  · exact (BuildIdd_resolves shadowBuilder "zz" hwf).2 ⟨2, rfl⟩
      (fun k q G h1 h2 => by
        rcases shadowBuilder_chain k q h1 with ⟨_, hq⟩ | ⟨_, hq⟩ <;> subst hq <;> cases h2 <;> rfl)

/-! ### Symmetry of the generic operators -/

/-- Widening is one-directional. -/
theorem specWidens_asymm (A B : AluEngine) (h : specWidens A B = true) :
    specWidens B A = false := by
  cases A <;> cases B <;> simp_all [specWidens]

/-- No class widens to itself. -/
theorem specWidens_irrefl (A : AluEngine) : specWidens A A = false := by
  cases A <;> rfl

/-- The generic branch of `BuildBinop` on typed operands: the left operand is promoted toward
the right type, else the right operand toward the left type, else the two types must be
the same descriptor; then the operator is tested on the common type. -/
theorem BuildBinop_generic_eq (b : BlockScriptBuilder) (x y : Exp) (op : Op)
    (s t : TypePtr) (S T : TypeDesc)
    (hop : op ≠ .O_SET ∧ op ≠ .O_DOT ∧ op ≠ .O_ACCESS)
    (hx : x.GetTypeDesc = some s) (hS : b.mSymbolTable.mTypes[s]? = some S)
    (hy : y.GetTypeDesc = some t) (hT : b.mSymbolTable.mTypes[t]? = some T) :
    BuildBinop b x op y =
      if specWidens S.mAluEngine T.mAluEngine = true then
        BuildBinop.genericTail b (.unop .O_IMPLICIT_CAST x (some t)) op y t T
      else if specWidens T.mAluEngine S.mAluEngine = true then
        BuildBinop.genericTail b x op (.unop .O_IMPLICIT_CAST y (some s)) s S
      else if s = t then BuildBinop.genericTail b x op y s S
      else fail b "Incompatible types not allowed on operation." := by
  have h1 := AttemptTypePromotion_eq b.mSymbolTable.mTypes x s t S T hx hS hT
  by_cases hw : specWidens S.mAluEngine T.mAluEngine = true
  · have h2 := AttemptTypePromotion_eq b.mSymbolTable.mTypes y t t T T hy hT hT
    simp only [hw, if_true] at h1
    simp only [specWidens_irrefl, Bool.false_eq_true, if_false] at h2
    simp [BuildBinop, hop.1, hop.2.1, hop.2.2, hx, hy, h1, h2, hw, deref, hT,
      BuildBinop.genericTail, bind, Except.bind]
  · simp only [hw, if_false] at h1
    have h2 := AttemptTypePromotion_eq b.mSymbolTable.mTypes y t s T S hy hT hS
    by_cases hw' : specWidens T.mAluEngine S.mAluEngine = true
    · simp only [hw', if_true] at h2
      simp [BuildBinop, hop.1, hop.2.1, hop.2.2, hx, hy, h1, h2, hw, hw', deref, hS,
        BuildBinop.genericTail, bind, Except.bind]
    · simp only [hw', if_false] at h2
      by_cases hst : s = t
      · subst hst
        have hST : S = T := by
          rw [hS] at hT
          exact Option.some.inj hT
        subst hST
        simp [BuildBinop, hop.1, hop.2.1, hop.2.2, hx, hy, h1, h2, hw, deref, hS,
          BuildBinop.genericTail, bind, Except.bind]
      · simp [BuildBinop, hop.1, hop.2.1, hop.2.2, hx, hy, h1, h2, hw, hw', hst, deref, hS,
          BuildBinop.genericTail, bind, Except.bind]

/-- The last step of the generic branch returns a node exactly when the operator is valid
for the common type, and then the node over the promoted operands, typed with it. -/
theorem genericTail_node (b : BlockScriptBuilder) (l r : Exp) (op : Op) (ty : TypePtr)
    (TY : TypeDesc) :
    (IsBinopValid TY op = .ok true →
      BuildBinop.genericTail b l op r ty TY = .ok (b, some (.binop l op r (some ty)))) ∧
    (∀ B' e, BuildBinop.genericTail b l op r ty TY = .ok (B', some e) →
      IsBinopValid TY op = .ok true ∧ B' = b ∧ e = .binop l op r (some ty)) := by
  constructor
  · intro h
    simp [BuildBinop.genericTail, h, bind, Except.bind, pure, Except.pure]
  · intro B' e h
    cases hv : IsBinopValid TY op with
    | error err => simp [BuildBinop.genericTail, hv, bind, Except.bind] at h
    | ok v =>
      cases v with
      | false => simp [BuildBinop.genericTail, hv, fail, bind, Except.bind] at h
      | true =>
        simp [BuildBinop.genericTail, hv, bind, Except.bind, pure, Except.pure] at h
        exact ⟨rfl, h.1.symm, h.2.symm⟩

/-- C26. Type checking of the generic binary operators is symmetric. For an operator other than
`=`, `.` and `[]` and two expressions whose types are catalog entries, `BuildBinop(x, op, y)`
returns a node if and only if `BuildBinop(y, op, x)` does. When both do, the two nodes have
the same type, the operands in them are the promoted `x` and `y` (each the expression itself
or its implicit cast), swapped, and both operands have that same type; the builder is
unchanged. The result type is the common operand type also for comparison and logical
operators. -/
theorem BuildBinop_generic_symmetric (b : BlockScriptBuilder) (x y : Exp) (op : Op)
    (s t : TypePtr) (S T : TypeDesc)
    (hop : op ≠ .O_SET ∧ op ≠ .O_DOT ∧ op ≠ .O_ACCESS)
    (hx : x.GetTypeDesc = some s) (hS : b.mSymbolTable.mTypes[s]? = some S)
    (hy : y.GetTypeDesc = some t) (hT : b.mSymbolTable.mTypes[t]? = some T) :
    ((∃ B' e, BuildBinop b x op y = .ok (B', some e)) ↔
      (∃ B' e, BuildBinop b y op x = .ok (B', some e))) ∧
    (∀ B1 e1 B2 e2, BuildBinop b x op y = .ok (B1, some e1) →
      BuildBinop b y op x = .ok (B2, some e2) →
      ∃ l r ty, e1 = .binop l op r (some ty) ∧ e2 = .binop r op l (some ty) ∧
        l.GetTypeDesc = some ty ∧ r.GetTypeDesc = some ty ∧
        (l = x ∨ l = .unop .O_IMPLICIT_CAST x (some ty)) ∧
        (r = y ∨ r = .unop .O_IMPLICIT_CAST y (some ty)) ∧
        B1 = b ∧ B2 = b) := by
  have hf := BuildBinop_generic_eq b x y op s t S T hop hx hS hy hT
  have hb := BuildBinop_generic_eq b y x op t s T S hop hy hT hx hS
  by_cases hw : specWidens S.mAluEngine T.mAluEngine = true
  · have hw' := specWidens_asymm _ _ hw
    simp only [hw, if_true] at hf
    simp only [hw', hw, Bool.false_eq_true, if_false, if_true] at hb
    rw [hf, hb]
    constructor
    · constructor
      · rintro ⟨B', e, h⟩
        exact ⟨_, _, (genericTail_node b _ _ op t T).1 ((genericTail_node b _ _ op t T).2 B' e h).1⟩
      · rintro ⟨B', e, h⟩
        exact ⟨_, _, (genericTail_node b _ _ op t T).1 ((genericTail_node b _ _ op t T).2 B' e h).1⟩
    · intro B1 e1 B2 e2 h1 h2
      obtain ⟨_, hB1, he1⟩ := (genericTail_node b _ _ op t T).2 B1 e1 h1
      obtain ⟨_, hB2, he2⟩ := (genericTail_node b _ _ op t T).2 B2 e2 h2
      exact ⟨_, _, t, he1, he2, rfl, hy, Or.inr rfl, Or.inl rfl, hB1, hB2⟩
  · by_cases hw' : specWidens T.mAluEngine S.mAluEngine = true
    · simp only [hw, hw', Bool.false_eq_true, if_false, if_true] at hf
      simp only [hw', if_true] at hb
      rw [hf, hb]
      constructor
      · constructor
        · rintro ⟨B', e, h⟩
          exact ⟨_, _, (genericTail_node b _ _ op s S).1
            ((genericTail_node b _ _ op s S).2 B' e h).1⟩
        · rintro ⟨B', e, h⟩
          exact ⟨_, _, (genericTail_node b _ _ op s S).1
            ((genericTail_node b _ _ op s S).2 B' e h).1⟩
      · intro B1 e1 B2 e2 h1 h2
        obtain ⟨_, hB1, he1⟩ := (genericTail_node b _ _ op s S).2 B1 e1 h1
        obtain ⟨_, hB2, he2⟩ := (genericTail_node b _ _ op s S).2 B2 e2 h2
        exact ⟨_, _, s, he1, he2, hx, rfl, Or.inl rfl, Or.inr rfl, hB1, hB2⟩
    · simp only [hw, hw', Bool.false_eq_true, if_false] at hf hb
      by_cases hst : s = t
      · subst hst
        have hST : S = T := by
          rw [hS] at hT
          exact Option.some.inj hT
        subst hST
        simp only [if_true] at hf hb
        rw [hf, hb]
        constructor
        · constructor
          · rintro ⟨B', e, h⟩
            exact ⟨_, _, (genericTail_node b _ _ op s S).1
              ((genericTail_node b _ _ op s S).2 B' e h).1⟩
          · rintro ⟨B', e, h⟩
            exact ⟨_, _, (genericTail_node b _ _ op s S).1
              ((genericTail_node b _ _ op s S).2 B' e h).1⟩
        · intro B1 e1 B2 e2 h1 h2
          obtain ⟨_, hB1, he1⟩ := (genericTail_node b _ _ op s S).2 B1 e1 h1
          obtain ⟨_, hB2, he2⟩ := (genericTail_node b _ _ op s S).2 B2 e2 h2
          exact ⟨_, _, s, he1, he2, hx, hy, Or.inl rfl, Or.inl rfl, hB1, hB2⟩
      · have hts : ¬ t = s := fun h => hst h.symm
        simp only [hst, hts, if_false] at hf hb
        rw [hf, hb]
        constructor
        · constructor <;> rintro ⟨B', e, h⟩ <;> simp [fail] at h
        · intro B1 e1 B2 e2 h1
          simp [fail] at h1

/-- Witness of C26: `1 + 2.0` and `2.0 + 1` both succeed with type float, the int operand
cast, and the comparison `1.0 < 2.0` of two floats succeeds with type float. -/
theorem BuildBinop_generic_symmetric_witness :
    ((∃ B' e, BuildBinop initialBuilder (.imm 1 (some 0)) .O_PLUS (.imm 2 (some 1)) =
        .ok (B', some e)) ↔
      (∃ B' e, BuildBinop initialBuilder (.imm 2 (some 1)) .O_PLUS (.imm 1 (some 0)) =
        .ok (B', some e))) ∧
    BuildBinop initialBuilder (.imm 1 (some 0)) .O_PLUS (.imm 2 (some 1)) =
      .ok (initialBuilder, some (.binop (.unop .O_IMPLICIT_CAST (.imm 1 (some 0)) (some 1))
        .O_PLUS (.imm 2 (some 1)) (some 1))) ∧
    BuildBinop initialBuilder (.imm 2 (some 1)) .O_PLUS (.imm 1 (some 0)) =
      .ok (initialBuilder, some (.binop (.imm 2 (some 1)) .O_PLUS
        (.unop .O_IMPLICIT_CAST (.imm 1 (some 0)) (some 1)) (some 1))) ∧
    BuildBinop initialBuilder (.imm 1 (some 1)) .O_LT (.imm 2 (some 1)) =
      .ok (initialBuilder, some (.binop (.imm 1 (some 1)) .O_LT (.imm 2 (some 1)) (some 1))) :=
  ⟨(BuildBinop_generic_symmetric initialBuilder (.imm 1 (some 0)) (.imm 2 (some 1)) .O_PLUS 0 1
      (preseededTypes.get ⟨0, by decide⟩) (preseededTypes.get ⟨1, by decide⟩)
      (by decide) rfl rfl rfl rfl).1, rfl, rfl, rfl⟩

/-! ### Frames and types after a structure definition -/

/-- A frame table agrees with itself. -/
theorem framesAgree_refl (n : FramePtr) (fr : List StackFrameInfo) : framesAgree n fr fr :=
  ⟨rfl, fun _ _ => rfl, fun F h => ⟨F, h, rfl⟩⟩

/-- Agreement outside a frame composes. -/
theorem framesAgree_trans {n : FramePtr} {a b c : List StackFrameInfo}
    (h1 : framesAgree n a b) (h2 : framesAgree n b c) : framesAgree n a c := by
  refine ⟨h2.1.trans h1.1, fun i hi => (h2.2.1 i hi).trans (h1.2.1 i hi), ?_⟩
  intro F hF
  obtain ⟨F1, hF1, hp1⟩ := h1.2.2 F hF
  obtain ⟨F2, hF2, hp2⟩ := h2.2.2 F1 hF1
  exact ⟨F2, hF2, hp2.trans hp1⟩

/-- Replacing the frame `n` by one with the same parent link keeps the agreement. -/
theorem framesAgree_set (n : FramePtr) (fr : List StackFrameInfo) (F G : StackFrameInfo)
    (hF : fr[n]? = some F) (hG : G.mParent = F.mParent) : framesAgree n fr (fr.set n G) := by
  have hlt : n < fr.length := lt_length_of_getElem? _ _ _ hF
  refine ⟨by simp, ?_, ?_⟩
  · intro i hi
    simp [List.getElem?_set, Ne.symm hi]
  · intro F' hF'
    rw [hF] at hF'
    cases hF'
    exact ⟨G, by simp [hlt], hG⟩

/-- An update of the current frame that keeps its parent link touches no other frame. -/
theorem updateCurrentFrame_frames (b b' : BlockScriptBuilder)
    (g : StackFrameInfo → StackFrameInfo) (n : FramePtr)
    (hg : ∀ F, (g F).mParent = F.mParent) (hcur : b.mCurrentFrame = some n)
    (h : b.updateCurrentFrame g = .ok b') :
    framesAgree n b.mSymbolTable.mFrames b'.mSymbolTable.mFrames := by
  unfold BlockScriptBuilder.updateCurrentFrame at h
  rw [hcur] at h
  simp only at h
  cases hF : b.mSymbolTable.mFrames[n]? with
  | none => simp [hF] at h
  | some F =>
    simp only [hF, Except.ok.injEq] at h
    subst h
    simp only [SymbolTable.modifyFrame, hF, store]
    exact framesAgree_set n _ F (g F) hF (hg F)

/-- An allocation touches only the current frame and keeps its parent link. -/
theorem allocate_frames (b b' : BlockScriptBuilder) (name : String) (t : TypePtr)
    (isArg : Bool) (off : Int) (n : FramePtr) (hcur : b.mCurrentFrame = some n)
    (h : b.allocate name t isArg = .ok (b', off)) :
    framesAgree n b.mSymbolTable.mFrames b'.mSymbolTable.mFrames := by
  unfold BlockScriptBuilder.allocate at h
  simp only [bind, Except.bind, pure, Except.pure] at h
  split at h
  · cases h
  · split at h
    · cases h
    · split at h
      · cases h
      · rename_i b1 hb1
        simp only [Except.ok.injEq, Prod.mk.injEq] at h
        obtain ⟨h1, _⟩ := h
        subst h1
        exact updateCurrentFrame_frames b b1 _ n (fun F => by simp [StackFrameInfo.Allocate]) hcur hb1

/-- `BuildArgDec` touches only the current frame and keeps its parent link. -/
theorem BuildArgDec_frames (b b' : BlockScriptBuilder) (var : String) (t : TypePtr)
    (r : Option ArgDec) (n : FramePtr) (hcur : b.mCurrentFrame = some n)
    (h : BuildArgDec b var (some t) = .ok (b', r)) :
    framesAgree n b.mSymbolTable.mFrames b'.mSymbolTable.mFrames := by
  unfold BuildArgDec at h
  simp only [bind, Except.bind, pure, Except.pure, RegisterStackMember] at h
  split at h
  · cases h
  · split at h
    · simp only [fail, Except.ok.injEq, Prod.mk.injEq] at h
      obtain ⟨h1, _⟩ := h
      subst h1
      exact framesAgree_refl _ _
    · split at h
      · cases h
      · rename_i v hv
        obtain ⟨b1, off⟩ := v
        simp only [Except.ok.injEq, Prod.mk.injEq] at h
        obtain ⟨h1, _⟩ := h
        subst h1
        exact allocate_frames _ _ _ _ _ _ n hcur hv

/-- The parameter loop of `CreateIntrinsicFunction` touches only the current frame, keeps
its parent link and keeps it current. -/
theorem declareArgs_frames (args : List (String × String)) :
    ∀ (b b' : BlockScriptBuilder) (l : ArgList) (n : FramePtr),
      b.mCurrentFrame = some n →
      CreateIntrinsicFunction.declareArgs b args = .ok (b', some l) →
      framesAgree n b.mSymbolTable.mFrames b'.mSymbolTable.mFrames ∧
        b'.mCurrentFrame = some n := by
  induction args with
  | nil =>
    intro b b' l n hcur h
    simp only [CreateIntrinsicFunction.declareArgs, Except.ok.injEq, Prod.mk.injEq,
      Option.some.injEq] at h
    obtain ⟨h1, _⟩ := h
    subst h1
    exact ⟨framesAgree_refl _ _, hcur⟩
  | cons a rest ih =>
    intro b b' l n hcur h
    obtain ⟨typeName, argName⟩ := a
    simp only [CreateIntrinsicFunction.declareArgs, BlockScriptBuilder.GetTypeByName] at h
    cases ht : b.mSymbolTable.GetTypeByName typeName with
    | none => simp [ht] at h
    | some t =>
      simp only [ht, bind, Except.bind, pure, Except.pure] at h
      cases hd : BuildArgDec b argName (some t) with
      | error e => simp [hd] at h
      | ok v =>
        obtain ⟨b1, r⟩ := v
        simp only [hd] at h
        cases r with
        | none => simp at h
        | some a1 =>
          simp only at h
          cases hrest : CreateIntrinsicFunction.declareArgs b1 rest with
          | error e => simp [hrest] at h
          | ok w =>
            obtain ⟨b2, tail⟩ := w
            simp only [hrest, Except.ok.injEq, Prod.mk.injEq] at h
            obtain ⟨h1, h2⟩ := h
            subst h1
            cases tail with
            | none => simp at h2
            | some tl =>
              have hf1 := BuildArgDec_frames _ _ _ _ _ n hcur hd
              obtain ⟨_, hc1, _⟩ := BuildArgDec_same _ _ _ _ _ hd
              obtain ⟨hf2, hc2⟩ := ih b1 b2 tl n (hc1.trans hcur) hrest
              exact ⟨framesAgree_trans hf1 hf2, hc2⟩

/-- `BuildStmtFunDec` touches only the current frame, keeps its parent link and keeps it
current. -/
theorem BuildStmtFunDec_frames (b b' : BlockScriptBuilder) (argList : ArgList)
    (returnIdd nameIdd : String) (r : Option FunDecPtr) (n : FramePtr)
    (hcur : b.mCurrentFrame = some n)
    (h : BuildStmtFunDec b argList returnIdd nameIdd = .ok (b', r)) :
    framesAgree n b.mSymbolTable.mFrames b'.mSymbolTable.mFrames ∧
      b'.mCurrentFrame = some n := by
  cases hret : b.GetTypeByName returnIdd with
  | none =>
    simp only [BuildStmtFunDec, hret, fail, Except.ok.injEq, Prod.mk.injEq] at h
    obtain ⟨h1, _⟩ := h
    subst h1
    exact ⟨framesAgree_refl _ _, hcur⟩
  | some rt =>
    obtain ⟨f, F, hf, hF⟩ :=
      BuildStmtFunDec_frame_of_ok b b' argList returnIdd nameIdd r rt hret h
    have hfn : f = n := by rw [hcur] at hf; cases hf; rfl
    subst hfn
    rw [BuildStmtFunDec_eq b argList returnIdd nameIdd f F rt hcur hF hret] at h
    split at h
    · simp only [Except.ok.injEq, Prod.mk.injEq] at h
      obtain ⟨h1, _⟩ := h
      subst h1
      exact ⟨framesAgree_set f _ F _ hF rfl, hcur⟩
    · simp only [Except.ok.injEq, Prod.mk.injEq] at h
      obtain ⟨h1, _⟩ := h
      subst h1
      exact ⟨framesAgree_set f _ F _ hF rfl, hcur⟩

/-- `BindIntrinsic` leaves the frame table as it is and pops to the parent of the current
frame. -/
theorem BindIntrinsic_frames (b b' : BlockScriptBuilder) (p : FunDecPtr) (cb : FunCallback)
    (n : FramePtr) (F : StackFrameInfo) (hcur : b.mCurrentFrame = some n)
    (hF : b.mSymbolTable.mFrames[n]? = some F) (h : BindIntrinsic b p cb = .ok b') :
    b'.mSymbolTable.mFrames = b.mSymbolTable.mFrames ∧ b'.mCurrentFrame = F.mParent := by
  unfold BindIntrinsic at h
  simp only [bind, Except.bind, pure, Except.pure] at h
  split at h
  · cases h
  · split at h
    · cases h
    · split at h
      · cases h
      · split at h
        · cases h
        · split at h
          · cases h
          · rename_i b2 hpop
            simp only [Except.ok.injEq] at h
            subst h
            simp only [PopFrame, deref, hcur, hF, bind, Except.bind, pure, Except.pure,
              Except.ok.injEq] at hpop
            subst hpop
            exact ⟨rfl, rfl⟩

/-- The four builder calls of a `CreateIntrinsicFunction` that returns true. -/
theorem CreateIntrinsicFunction_steps (b b' : BlockScriptBuilder) (funName : String)
    (args : List (String × String)) (returnType : String) (cb : FunCallback)
    (h : CreateIntrinsicFunction b funName args returnType cb = .ok (b', true)) :
    ∃ b1 b2 l b3 p, StartNewFunction b = (b1, true) ∧
      CreateIntrinsicFunction.declareArgs b1 args = .ok (b2, some l) ∧
      BuildStmtFunDec b2 l returnType funName = .ok (b3, some p) ∧
      BindIntrinsic b3 p cb = .ok b' := by
  simp only [CreateIntrinsicFunction, BlockScriptBuilder.GetTypeByName] at h
  cases hrt : b.mSymbolTable.GetTypeByName returnType with
  | none => simp [hrt] at h
  | some rt =>
    simp only [hrt] at h
    cases hs : StartNewFunction b with
    | mk b1 ok1 =>
      cases ok1 with
      | false => simp [hs] at h
      | true =>
        simp only [hs, bind, Except.bind, pure, Except.pure] at h
        cases hda : CreateIntrinsicFunction.declareArgs b1 args with
        | error e => simp [hda] at h
        | ok v =>
          obtain ⟨b2, al⟩ := v
          simp only [hda] at h
          cases al with
          | none => simp at h
          | some l =>
            simp only at h
            cases hfdec : BuildStmtFunDec b2 l returnType funName with
            | error e => simp [hfdec] at h
            | ok w =>
              obtain ⟨b3, fdp⟩ := w
              simp only [hfdec] at h
              cases fdp with
              | none => simp at h
              | some p =>
                simp only at h
                cases hbi : BindIntrinsic b3 p cb with
                | error e => simp [hbi] at h
                | ok b4 =>
                  simp only [hbi, Except.ok.injEq, Prod.mk.injEq, and_true] at h
                  subst h
                  exact ⟨b1, b2, l, b3, p, rfl, hda, hfdec, hbi⟩

/-- A `CreateIntrinsicFunction` that returns true leaves the current frame pointer and the
frames that existed before as they were. -/
theorem CreateIntrinsicFunction_frames (b b' : BlockScriptBuilder) (funName : String)
    (args : List (String × String)) (returnType : String) (cb : FunCallback)
    (h : CreateIntrinsicFunction b funName args returnType cb = .ok (b', true)) :
    b'.mCurrentFrame = b.mCurrentFrame ∧
      ∀ i, i < b.mSymbolTable.mFrames.length →
        b'.mSymbolTable.mFrames[i]? = b.mSymbolTable.mFrames[i]? := by
  obtain ⟨b1, b2, l, b3, p, hs, hda, hfd, hbi⟩ :=
    CreateIntrinsicFunction_steps b b' funName args returnType cb h
  obtain ⟨hin, _⟩ := StartNewFunction_true b b1 hs
  obtain ⟨b1', hs', hfr1, hcur1, _⟩ := StartNewFunction_opens b hin
  rw [hs] at hs'
  cases hs'
  obtain ⟨ag2, hcur2⟩ := declareArgs_frames args b1 b2 l _ hcur1 hda
  obtain ⟨ag3, hcur3⟩ := BuildStmtFunDec_frames b2 b3 l returnType funName _ _ hcur2 hfd
  have ag := framesAgree_trans ag2 ag3
  have hnew : b1.mSymbolTable.mFrames[b.mSymbolTable.mFrames.length]? =
      some { mEntries := [], mTotalSize := 0, mCreatorCategory := .NONE,
             mParent := b.mCurrentFrame } := by
    rw [hfr1]; simp
  obtain ⟨F3, hF3, hp3⟩ := ag.2.2 _ hnew
  obtain ⟨hfr4, hcur4⟩ := BindIntrinsic_frames b3 b' p cb _ F3 hcur3 hF3 hbi
  refine ⟨hcur4.trans hp3, ?_⟩
  intro i hi
  rw [hfr4, ag.2.1 i (Nat.ne_of_lt hi), hfr1, List.getElem?_append_left hi]

/-- The steps of a `BuildStmtStructDef` call that passes the two early tests and returns:
the frame current at the call is tagged, popped and unlinked, the type is created, the
empty constructor is registered; then either the member list exceeds the cap, or the full
constructor is registered. -/
theorem BuildStmtStructDef_steps (b b' : BlockScriptBuilder) (name : String)
    (defs : ArgList) (r : Option StmtStructDef)
    (hfresh : b.GetTypeByName name = none) (hin : b.mInFunBody = false)
    (h : BuildStmtStructDef b name defs = .ok (b', r)) :
    ∃ f F b6 b7 S, b.mCurrentFrame = some f ∧ b.mSymbolTable.mFrames[f]? = some F ∧
      b6.mSymbolTable.mFrames[f]? =
        some { F with mCreatorCategory := .STRUCT_DEF, mParent := none } ∧
      b6.mSymbolTable.mFrames.length = b.mSymbolTable.mFrames.length ∧
      b6.mCurrentFrame = F.mParent ∧
      b6.mSymbolTable.mTypes = b.mSymbolTable.mTypes ++ [S] ∧
      S.mName = name ∧ S.mModifier = .M_STRUCT ∧ S.mAluEngine = .E_NONE ∧
      S.mStructDef = some { mName := name, mArgList := defs, mFrameInfo := some f } ∧
      b6.mSymbolTable.mFunTable = b.mSymbolTable.mFunTable ∧
      b6.mFunDecs = b.mFunDecs ∧
      b6.mDispatched = b.mDispatched ∧
      CreateIntrinsicFunction b6 name [] name .StructGenericConstructor = .ok (b7, true) ∧
      defs ≠ [] ∧
      ((BuildStmtStructDef.collect b7.mSymbolTable.mTypes defs 0 = .ok none ∧ r = none ∧
          b' = BS_ErrorDispatcher b7 "Too many members in structure") ∨
       (∃ l, BuildStmtStructDef.collect b7.mSymbolTable.mTypes defs 0 = .ok (some l) ∧
          CreateIntrinsicFunction b7 name l name .StructGenericConstructor = .ok (b', true) ∧
          r = some { mName := name, mArgList := defs, mFrameInfo := some f })) := by
  have hfresh' : (b.GetTypeByName name).isSome = false := by simp [hfresh]
  cases hcur : b.mCurrentFrame with
  | none =>
    simp [BuildStmtStructDef, hfresh', hin, BlockScriptBuilder.updateCurrentFrame, hcur, bind,
      Except.bind] at h
  | some f =>
    cases hF : b.mSymbolTable.mFrames[f]? with
    | none =>
      simp [BuildStmtStructDef, hfresh', hin, BlockScriptBuilder.updateCurrentFrame, hcur, hF,
        bind, Except.bind] at h
    | some F =>
      have hflt : f < b.mSymbolTable.mFrames.length := lt_length_of_getElem? _ _ _ hF
      obtain ⟨st1, hst1⟩ : ∃ st1 : SymbolTable, st1 =
          b.mSymbolTable.modifyFrame f (fun f => { f with mCreatorCategory := .STRUCT_DEF }) :=
        ⟨_, rfl⟩
      have h1 : b.updateCurrentFrame (fun f => { f with mCreatorCategory := .STRUCT_DEF }) =
          .ok { b with mSymbolTable := st1 } := by
        rw [hst1]
        simp only [BlockScriptBuilder.updateCurrentFrame, hcur, hF]
      have h2 : PopFrame { b with mSymbolTable := st1 } =
          .ok { b with mSymbolTable := st1, mCurrentFrame := F.mParent } := by
        rw [hst1]
        simp [PopFrame, deref, hcur, SymbolTable.modifyFrame, hF, store, hflt, bind,
          Except.bind, pure, Except.pure]
      have hst1t : st1.mTypes = b.mSymbolTable.mTypes ∧
          st1.mFunTable = b.mSymbolTable.mFunTable := by
        rw [hst1]; exact modifyFrame_types _ _ _
      have hst1f : st1.mFrames = b.mSymbolTable.mFrames.set f
          { F with mCreatorCategory := .STRUCT_DEF } := by
        rw [hst1]
        simp only [SymbolTable.modifyFrame, hF, store]
      obtain ⟨b6, hb6⟩ : ∃ b6 : BlockScriptBuilder,
          b6 = ((({ b with mSymbolTable := st1, mCurrentFrame := F.mParent } :
                BlockScriptBuilder).unlinkParent (some f)).createType .M_STRUCT name none 0
                  .E_NONE
                  (some { mName := name, mArgList := defs, mFrameInfo := some f })).1 :=
        ⟨_, rfl⟩
      have hfr6 : b6.mSymbolTable.mFrames =
          (b.mSymbolTable.mFrames.set f { F with mCreatorCategory := .STRUCT_DEF }).set f
            { F with mCreatorCategory := .STRUCT_DEF, mParent := none } := by
        rw [hb6]
        simp [BlockScriptBuilder.createType, SymbolTable.CreateType,
          BlockScriptBuilder.unlinkParent, SymbolTable.modifyFrame, hst1f, store, hflt]
      obtain ⟨S, htypes6, hS1, hS2, hS3, hS4⟩ : ∃ S,
          b6.mSymbolTable.mTypes = b.mSymbolTable.mTypes ++ [S] ∧
          S.mName = name ∧ S.mModifier = .M_STRUCT ∧ S.mAluEngine = .E_NONE ∧
          S.mStructDef = some { mName := name, mArgList := defs, mFrameInfo := some f } := by
        rw [hb6]
        simp only [BlockScriptBuilder.createType, SymbolTable.CreateType,
          BlockScriptBuilder.unlinkParent, (modifyFrame_types _ _ _).1, hst1t.1]
        exact ⟨_, rfl, rfl, rfl, rfl, rfl⟩
      have hft6 : b6.mSymbolTable.mFunTable = b.mSymbolTable.mFunTable := by
        rw [hb6]
        simp only [BlockScriptBuilder.createType, SymbolTable.CreateType,
          BlockScriptBuilder.unlinkParent, (modifyFrame_types _ _ _).2, hst1t.2]
      have hfd6 : b6.mFunDecs = b.mFunDecs := by rw [hb6]; rfl
      have hd6 : b6.mDispatched = b.mDispatched := by rw [hb6]; rfl
      have hcur6 : b6.mCurrentFrame = F.mParent := by rw [hb6]; rfl
      simp only [hin, hcur] at h1 h2 hb6
      simp only [BuildStmtStructDef, hfresh', hin, Bool.false_eq_true, if_false, h1, hcur, h2,
        ← hb6, bind, Except.bind, pure, Except.pure, throw, throwThe,
        MonadExceptOf.throw] at h
      cases h7 : CreateIntrinsicFunction b6 name [] name .StructGenericConstructor with
      | error e => simp [h7] at h
      | ok v7 =>
        obtain ⟨b7, r7⟩ := v7
        cases r7 with
        | false => simp [h7] at h
        | true =>
          simp only [h7, Bool.true_eq_false, if_false] at h
          by_cases hne : defs = []
          · simp [hne] at h
          · simp only [hne, if_false] at h
            refine ⟨f, F, b6, b7, S, rfl, hF, ?_, ?_, hcur6, htypes6, hS1, hS2, hS3, hS4, hft6,
              hfd6, hd6, h7, hne, ?_⟩
            · rw [hfr6]; simp [hflt]
            · rw [hfr6]; simp
            · cases hc : BuildStmtStructDef.collect b7.mSymbolTable.mTypes defs 0 with
              | error e => simp [hc] at h
              | ok members =>
                cases members with
                | none =>
                  simp only [hc, fail, Except.ok.injEq, Prod.mk.injEq] at h
                  exact Or.inl ⟨rfl, h.2.symm, h.1.symm⟩
                | some l =>
                  simp only [hc] at h
                  cases h8 : CreateIntrinsicFunction b7 name l name
                      .StructGenericConstructor with
                  | error e => simp [h8] at h
                  | ok v8 =>
                    obtain ⟨b8, r8⟩ := v8
                    cases r8 with
                    | false => simp [h8] at h
                    | true =>
                      simp only [h8, Bool.true_eq_false, if_false, Except.ok.injEq,
                        Prod.mk.injEq] at h
                      obtain ⟨hb8, hr8⟩ := h
                      subst hb8
                      exact Or.inr ⟨l, rfl, h8, hr8.symm⟩

/-- A `BuildStmtStructDef` call whose outcome is neither of the two early rejections was
made with a fresh name outside a function body. -/
theorem BuildStmtStructDef_premises (b b' : BlockScriptBuilder) (name : String)
    (defs : ArgList) (r : Option StmtStructDef)
    (h : BuildStmtStructDef b name defs = .ok (b', r))
    (hnot : b' ≠ BS_ErrorDispatcher b "Struct type is trying to redefine a type." ∨ r ≠ none)
    (hnot' : b' ≠ BS_ErrorDispatcher b "Struct definitions not allowed inside function bodies."
      ∨ r ≠ none) :
    b.GetTypeByName name = none ∧ b.mInFunBody = false := by
  cases hn : b.GetTypeByName name with
  | some t =>
    simp only [BuildStmtStructDef, hn, Option.isSome_some, if_true, fail, Except.ok.injEq,
      Prod.mk.injEq] at h
    rcases hnot with h1 | h1
    · exact absurd h.1.symm h1
    · exact absurd h.2.symm h1
  | none =>
    refine ⟨rfl, ?_⟩
    rcases Bool.eq_false_or_eq_true b.mInFunBody with hin | hin
    · simp only [BuildStmtStructDef, hn, Option.isSome_none, Bool.false_eq_true, if_false, hin,
        if_true, fail, Except.ok.injEq, Prod.mk.injEq] at h
      rcases hnot' with h1 | h1
      · exact absurd h.1.symm h1
      · exact absurd h.2.symm h1
    · exact hin

/-- C24. After every successful `BuildStmtStructDef(name, fields)`: the frame that was current
at the call is recorded in the definition node returned; in the frame table it is tagged
STRUCTURE DEFINITION, has no parent link and is otherwise unchanged; the current frame of the
builder is the former parent of that frame; and the name resolves in the catalog to a type
with modifier STRUCT, ALU class NONE and a back-reference to the definition returned. -/
theorem BuildStmtStructDef_frame_and_type (b b' : BlockScriptBuilder) (name : String)
    (defs : ArgList) (d : StmtStructDef)
    (h : BuildStmtStructDef b name defs = .ok (b', some d)) :
    ∃ f F t S, b.mCurrentFrame = some f ∧ b.mSymbolTable.mFrames[f]? = some F ∧
      d = { mName := name, mArgList := defs, mFrameInfo := some f } ∧
      b'.mSymbolTable.mFrames[f]? =
        some { F with mCreatorCategory := .STRUCT_DEF, mParent := none } ∧
      b'.mCurrentFrame = F.mParent ∧
      b'.GetTypeByName name = some t ∧ b'.mSymbolTable.mTypes[t]? = some S ∧
      S.mModifier = .M_STRUCT ∧ S.mAluEngine = .E_NONE ∧ S.mStructDef = some d := by
  obtain ⟨hfresh, hin⟩ := BuildStmtStructDef_premises b b' name defs (some d) h
    (Or.inr (by simp)) (Or.inr (by simp))
  obtain ⟨f, F, b6, b7, S, hcur, hF, hfr6, hlen6, hcur6, hty6, hS1, hS2, hS3, hS4, _, _, _, h7,
    _, hcases⟩ := BuildStmtStructDef_steps b b' name defs (some d) hfresh hin h
  rcases hcases with ⟨_, hr, _⟩ | ⟨l, _, h8, hr⟩
  · cases hr
  · have hflt : f < b.mSymbolTable.mFrames.length := lt_length_of_getElem? _ _ _ hF
    obtain ⟨hc7, hp7⟩ := CreateIntrinsicFunction_frames b6 b7 name [] name _ h7
    obtain ⟨hc8, hp8⟩ := CreateIntrinsicFunction_frames b7 b' name l name _ h8
    have hfr7 : b7.mSymbolTable.mFrames[f]? =
        some { F with mCreatorCategory := .STRUCT_DEF, mParent := none } := by
      rw [hp7 f (by rw [hlen6]; exact hflt), hfr6]
    have hfr8 : b'.mSymbolTable.mFrames[f]? =
        some { F with mCreatorCategory := .STRUCT_DEF, mParent := none } := by
      rw [hp8 f (lt_length_of_getElem? _ _ _ hfr7), hfr7]
    obtain ⟨_, _, _, _, _, _, _, _, hty7, _⟩ :=
      CreateIntrinsicFunction_ok b6 b7 name [] name _ h7
    obtain ⟨_, _, _, _, _, _, _, _, hty8, _⟩ :=
      CreateIntrinsicFunction_ok b7 b' name l name _ h8
    have htypes : b'.mSymbolTable.mTypes = b.mSymbolTable.mTypes ++ [S] := by
      rw [hty8, hty7, hty6]
    have hname : b'.GetTypeByName name = some b.mSymbolTable.mTypes.length :=
      GetTypeByName_append_new b.mSymbolTable b'.mSymbolTable name S htypes hfresh hS1
    have hd : d = { mName := name, mArgList := defs, mFrameInfo := some f } :=
      (Option.some.inj hr)
    refine ⟨f, F, b.mSymbolTable.mTypes.length, S, hcur, hF, hd, hfr8,
      (hc8.trans hc7).trans hcur6, hname, ?_, hS2, hS3, by rw [hS4, hd]⟩
    rw [htypes]
    simp

/-- The member loop of `BuildStmtStructDef` returns null only for a list that exceeds the
cap. -/
theorem collect_none_big (types : List TypeDesc) :
    ∀ (defs : ArgList) (k : Nat), BuildStmtStructDef.collect types defs k = .ok none →
      MAX_CHILD_MEMBERS < k + defs.length := by
  intro defs
  induction defs with
  | nil => intro k h; simp [BuildStmtStructDef.collect] at h
  | cons a tail ih =>
    intro k h
    by_cases hk : k ≥ MAX_CHILD_MEMBERS
    · simp only [List.length_cons]; omega
    · simp only [BuildStmtStructDef.collect, hk, if_false, bind, Except.bind, pure,
        Except.pure] at h
      cases hd : deref types (some a.mType) with
      | error e => simp [hd] at h
      | ok td =>
        simp only [hd] at h
        cases hr : BuildStmtStructDef.collect types tail (k + 1) with
        | error e => simp [hr] at h
        | ok rest =>
          cases rest with
          | some l => simp [hr] at h
          | none =>
            have := ih (k + 1) hr
            simp only [List.length_cons]
            omega

/-- C28. Rejection for too many members is not atomic. When `BuildStmtStructDef` returns null
with "Too many members in structure", the field list has more than 255 members, the name was
fresh, and yet afterwards the name resolves in the catalog to a STRUCT type, the
zero-argument constructor is registered in the function table, the frame that was current at
the call is tagged STRUCTURE DEFINITION and detached, the current frame is its former
parent, and every further `BuildStmtStructDef` of the same name is rejected with "Struct type
is trying to redefine a type.". -/
theorem BuildStmtStructDef_too_many_not_atomic (b b' : BlockScriptBuilder) (name : String)
    (defs : ArgList) (h : BuildStmtStructDef b name defs = .ok (b', none))
    (hmsg : b'.mDispatched = b.mDispatched ++ ["Too many members in structure"]) :
    255 < defs.length ∧
    ∃ f F t S, b.mCurrentFrame = some f ∧ b.mSymbolTable.mFrames[f]? = some F ∧
      b.GetTypeByName name = none ∧
      b'.GetTypeByName name = some t ∧ b'.mSymbolTable.mTypes[t]? = some S ∧
      S.mModifier = .M_STRUCT ∧
      b'.mSymbolTable.mFunTable = b.mSymbolTable.mFunTable ++
        [{ mName := name, mArgTypes := [], mDec := b.mFunDecs.length,
           mCallback := some .StructGenericConstructor }] ∧
      b'.mSymbolTable.mFrames[f]? =
        some { F with mCreatorCategory := .STRUCT_DEF, mParent := none } ∧
      b'.mCurrentFrame = F.mParent ∧
      ∀ defs2, BuildStmtStructDef b' name defs2 =
        .ok (BS_ErrorDispatcher b' "Struct type is trying to redefine a type.", none) := by
  have hne : ∀ m : String, m ≠ "Too many members in structure" →
      b' ≠ BS_ErrorDispatcher b m := by
    intro m hm heq
    rw [heq] at hmsg
    simp only [BS_ErrorDispatcher, List.append_cancel_left_eq, List.cons.injEq, and_true] at hmsg
    exact hm hmsg
  obtain ⟨hfresh, hin⟩ := BuildStmtStructDef_premises b b' name defs none h
    (Or.inl (hne _ (by decide))) (Or.inl (hne _ (by decide)))
  obtain ⟨f, F, b6, b7, S, hcur, hF, hfr6, hlen6, hcur6, hty6, hS1, hS2, _, _, hft6, hfd6, _, h7,
    _, hcases⟩ := BuildStmtStructDef_steps b b' name defs none hfresh hin h
  rcases hcases with ⟨hc, _, hb'⟩ | ⟨l, _, _, hr⟩
  · have hflt : f < b.mSymbolTable.mFrames.length := lt_length_of_getElem? _ _ _ hF
    obtain ⟨hc7, hp7⟩ := CreateIntrinsicFunction_frames b6 b7 name [] name _ h7
    obtain ⟨rt, argTypes, dec, _, hargs7, hft7, _, _, hty7, _⟩ :=
      CreateIntrinsicFunction_ok b6 b7 name [] name _ h7
    have hargTypes : argTypes = [] := by
      cases argTypes with
      | nil => rfl
      | cons a t => simp at hargs7
    subst hargTypes
    have htypes : b'.mSymbolTable.mTypes = b.mSymbolTable.mTypes ++ [S] := by
      rw [hb']
      show b7.mSymbolTable.mTypes = _
      rw [hty7, hty6]
    have hname : b'.GetTypeByName name = some b.mSymbolTable.mTypes.length :=
      GetTypeByName_append_new b.mSymbolTable b'.mSymbolTable name S htypes hfresh hS1
    have hbig := collect_none_big _ _ _ hc
    refine ⟨by simpa [MAX_CHILD_MEMBERS] using hbig, f, F, b.mSymbolTable.mTypes.length, S, hcur,
      hF, hfresh, hname, by rw [htypes]; simp, hS2, ?_, ?_, ?_, ?_⟩
    · rw [hb']
      show b7.mSymbolTable.mFunTable = _
      rw [hft7, hft6, hfd6]
    · rw [hb']
      show b7.mSymbolTable.mFrames[f]? = _
      rw [hp7 f (by rw [hlen6]; exact hflt), hfr6]
    · rw [hb']
      show b7.mCurrentFrame = _
      rw [hc7, hcur6]
    · intro defs2
      have : (b'.GetTypeByName name).isSome = true := by rw [hname]; rfl
      simp [BuildStmtStructDef, this, fail]
  · cases hr

/-- Witness of C24: `struct Pair { a : int; b : int }` in `pairBuilder`, whose current frame 1
has the parent 0: afterwards frame 0 is current, frame 1 is tagged and detached, and `Pair`
resolves to a STRUCT type that refers back to the definition. -/
theorem BuildStmtStructDef_frame_and_type_witness :
    BuildStmtStructDef pairBuilder "Pair" pairFields =
      .ok (pairAfter, some { mName := "Pair", mArgList := pairFields, mFrameInfo := some 1 }) ∧
    pairBuilder.mCurrentFrame = some 1 ∧ pairAfter.mCurrentFrame = some 0 ∧
    ∃ f F t S, pairBuilder.mCurrentFrame = some f ∧
      pairBuilder.mSymbolTable.mFrames[f]? = some F ∧
      ({ mName := "Pair", mArgList := pairFields, mFrameInfo := some 1 } : StmtStructDef) =
        { mName := "Pair", mArgList := pairFields, mFrameInfo := some f } ∧
      pairAfter.mSymbolTable.mFrames[f]? =
        some { F with mCreatorCategory := .STRUCT_DEF, mParent := none } ∧
      pairAfter.mCurrentFrame = F.mParent ∧
      pairAfter.GetTypeByName "Pair" = some t ∧ pairAfter.mSymbolTable.mTypes[t]? = some S ∧
      S.mModifier = .M_STRUCT ∧ S.mAluEngine = .E_NONE ∧
      S.mStructDef = some { mName := "Pair", mArgList := pairFields, mFrameInfo := some 1 } :=
  ⟨rfl, rfl, rfl,
   BuildStmtStructDef_frame_and_type pairBuilder pairAfter "Pair" pairFields
     { mName := "Pair", mArgList := pairFields, mFrameInfo := some 1 } rfl⟩

/-- Witness of C28: a structure `Big` of 256 members is rejected, `Big` is nevertheless a
STRUCT type of the catalog with its constructor `Big()` registered, and a second definition
of `Big` with two members fails as a redefinition. -/
theorem BuildStmtStructDef_too_many_not_atomic_witness :
    ∃ b' t S, BuildStmtStructDef pairBuilder "Big" (manyFields 256) = .ok (b', none) ∧
      b'.mDispatched = ["Too many members in structure"] ∧
      b'.GetTypeByName "Big" = some t ∧ b'.mSymbolTable.mTypes[t]? = some S ∧
      S.mModifier = .M_STRUCT ∧
      b'.mSymbolTable.mFunTable =
        [{ mName := "Big", mArgTypes := [], mDec := 0,
           mCallback := some .StructGenericConstructor }] ∧
      BuildStmtStructDef b' "Big" pairFields =
        .ok (BS_ErrorDispatcher b' "Struct type is trying to redefine a type.", none) := by
  obtain ⟨b', h, hmsg⟩ : ∃ b',
      BuildStmtStructDef pairBuilder "Big" (manyFields 256) = .ok (b', none) ∧
      b'.mDispatched = pairBuilder.mDispatched ++ ["Too many members in structure"] := by
    set_option maxRecDepth 100000 in exact ⟨_, rfl, rfl⟩
  obtain ⟨_, f, F, t, S, _, _, _, hname, hS, hmod, hft, _, _, hre⟩ :=
    BuildStmtStructDef_too_many_not_atomic pairBuilder b' "Big" (manyFields 256) h hmsg
  exact ⟨b', t, S, h, hmsg, hname, hS, hmod, hft, hre pairFields⟩

end Pegasus.BlockScript
